import Mathlib

/-!
Masternode payments and ranking: a shallow embedding.

Embedding of the payment election (`masternode-payments.cpp`) and of the
ranking part of the registry (`masternodeman.cpp`).

Conventions of the embedding

* C++ `int`, `int64_t` and `CAmount` values are `Int`; block heights, vote
  counts and amounts stay far inside the machine ranges, and signed overflow
  is undefined in C++, so no wrap-around is modelled.
* `uint256` / `arith_uint256` values are `Nat`.
* A `std::map` is a list of its entries in iteration order; `find` returns
  the first entry with the key, `emplace` inserts only when the key is
  absent, `operator[]=` replaces or appends.
* Out-parameters become components of the returned value.
* Logging is dropped.
-/

namespace Masternode

/-! ## Primitive data -/

/-- The type `COutPoint`: funding transaction hash and output index. The hash
is a number that stands for the place of the 256-bit value in the order of
`uint256::Compare`. -/
structure COutPoint where
  hash : Nat
  n : Nat
  deriving DecidableEq, Repr

/-- The comparison `operator<` of `COutPoint`: by hash, then by index. -/
def COutPoint.lt (a b : COutPoint) : Bool :=
  decide (a.hash < b.hash) || (decide (a.hash = b.hash) && decide (a.n < b.n))

/-- Scripts are byte strings; only their equality is observed. -/
abbrev CScript := List Nat

/-- Public keys are byte strings; only their equality is observed. -/
abbrev CPubKey := List Nat

/-- The type `CTxOut`: one transaction output. -/
structure CTxOut where
  nValue : Int
  scriptPubKey : CScript
  deriving DecidableEq, Repr

/-- Modelled from the spec: the states of a masternode, an enumeration of the
masternode header, which is not among the sources; the spec lists these seven. -/
inductive MasternodeState where
  | PRE_ENABLED
  | ENABLED
  | EXPIRED
  | OUTPOINT_SPENT
  | NEW_START_REQUIRED
  | POSE_BAN
  | SENTINEL_PING_EXPIRED
  deriving DecidableEq, Repr

/-- The registry entry `CMasternode`, restricted to the fields read by the
embedded functions. `GetInfo()` copies these fields into a
`masternode_info_t`, so the same record serves for both. `addr` stands for the
network address (a `CService`, ordered by its `operator<`),
`lastPingSigTime` for `lastPing.sigTime` and `lastPingDaemonVersion` for
`lastPing.nDaemonVersion`. -/
structure CMasternode where
  outpoint : COutPoint
  pubKeyCollateralAddress : CPubKey := []
  pubKeyMasternode : CPubKey := []
  nProtocolVersion : Int := 0
  activationBlockHeight : Int := 0
  nTimeLastPaidPrimary : Int := 0
  addr : Nat := 0
  sigTime : Int := 0
  lastPingSigTime : Int := 0
  nBlockLastPaidPrimary : Int := 0
  nBlockLastPaidSecondary : Int := 0
  nPoSeBanScore : Int := 0
  nActiveState : MasternodeState := MasternodeState.ENABLED
  nTimeLastPaidSecondary : Int := 0
  lastPingDaemonVersion : Int := 0
  deriving DecidableEq, Repr

/-- The type `CMasternodeBroadcast`: a `CMasternode` with the flag `fRecovery`.
The constructor `CMasternodeBroadcast(const CMasternode&)` copies the entry
and leaves the flag false. -/
structure CMasternodeBroadcast extends CMasternode where
  fRecovery : Bool := false
  deriving DecidableEq, Repr

/-- The message `CMasternodeVerification`, restricted to the fields that
`ProcessVerifyBroadcast` reads: the outpoints of the masternode verified and of
the witness, the address verified, the nonce, the height and the two signatures. -/
structure CMasternodeVerification where
  masternodeOutpoint1 : COutPoint
  masternodeOutpoint2 : COutPoint
  addr : Nat := 0
  nonce : Int := 0
  nBlockHeight : Int := 0
  vchSig1 : List Nat := []
  vchSig2 : List Nat := []
  deriving DecidableEq, Repr

/-- The content hash of a payment vote, `CMasternodePaymentVote::GetHash`:
the hash of payee, height and voter outpoint. The hash is taken
collision-free and is represented by the three values it commits to. -/
structure VoteHash where
  payee : CScript
  nBlockHeight : Int
  masternodeOutpoint : COutPoint
  deriving DecidableEq, Repr

/-- The type `CMasternodePaymentVote`. -/
structure CMasternodePaymentVote where
  masternodeOutpoint : COutPoint
  nBlockHeight : Int
  payee : CScript
  vchSig : List Nat
  deriving DecidableEq, Repr

/-- The method `CMasternodePaymentVote::GetHash`. -/
def CMasternodePaymentVote.GetHash (vote : CMasternodePaymentVote) : VoteHash :=
  { payee := vote.payee, nBlockHeight := vote.nBlockHeight,
    masternodeOutpoint := vote.masternodeOutpoint }

/-- The type `CMasternodePayee`: a payee script and the hashes of the votes for it. -/
structure CMasternodePayee where
  scriptPubKey : CScript
  vecVoteHashes : List VoteHash
  deriving DecidableEq, Repr

/-- The method `CMasternodePayee::GetPayee`. -/
def CMasternodePayee.GetPayee (p : CMasternodePayee) : CScript := p.scriptPubKey

/-- The method `CMasternodePayee::GetVoteCount`: `vecVoteHashes.size()` as an `int`. -/
def CMasternodePayee.GetVoteCount (p : CMasternodePayee) : Int := p.vecVoteHashes.length

/-- The type `CMasternodeBlockPayees`: the tally of one block height. -/
structure CMasternodeBlockPayees where
  nBlockHeight : Int
  vecPayees : List CMasternodePayee
  deriving DecidableEq, Repr

/-- The state of `CMasternodePayments`: the votes by content hash, the tallies
by block height, the height of the last vote of each voter, the cached tip
height and the constant `nMinBlocksToStore`. -/
structure CMasternodePayments where
  mapMasternodePaymentVotesPrimary : List (VoteHash × CMasternodePaymentVote) := []
  mapMasternodeBlocksPrimary : List (Int × CMasternodeBlockPayees) := []
  mapMasternodesLastVote : List (COutPoint × Int) := []
  nCachedBlockHeight : Int := 0
  nMinBlocksToStore : Int := 0
  deriving DecidableEq, Repr

/-- Modelled from the spec: the constant `MNPAYMENTS_SIGNATURES_REQUIRED` of the
payments header, which is not among the sources; the spec gives 6. -/
def MNPAYMENTS_SIGNATURES_REQUIRED : Int := 6

/-- Modelled from the spec: the constant `MNPAYMENTS_SIGNATURES_TOTAL` of the
payments header, which is not among the sources; the spec gives 10. -/
def MNPAYMENTS_SIGNATURES_TOTAL : Int := 10

/-! ## Maps as entry lists -/

/-- The lookup `std::map::find`: the value of the first entry with the key. -/
def mapFind {κ ν : Type} [DecidableEq κ] (m : List (κ × ν)) (k : κ) : Option ν :=
  match m with
  | [] => none
  | e :: rest => if e.1 = k then some e.2 else mapFind rest k

/-- The assignment `m[k] = v`: replaces the value of an entry with the key, appends otherwise. -/
def mapAssign {κ ν : Type} [DecidableEq κ] (m : List (κ × ν)) (k : κ) (v : ν) : List (κ × ν) :=
  match m with
  | [] => [(k, v)]
  | e :: rest => if e.1 = k then (k, v) :: rest else e :: mapAssign rest k v

/-- The insertion `m.emplace(k, v)`: appends the entry only when the key is absent. -/
def mapEmplace {κ ν : Type} [DecidableEq κ] (m : List (κ × ν)) (k : κ) (v : ν) : List (κ × ν) :=
  match mapFind m k with
  | some _ => m
  | none => m ++ [(k, v)]

/-! ## Block validation -/

/-- The first loop of `CMasternodeBlockPayees::IsTransactionValid`: the running
maximum `nMaxSignatures` of the vote counts. -/
def maxSignatures (vecPayees : List CMasternodePayee) (nMaxSignatures : Int) : Int :=
  match vecPayees with
  | [] => nMaxSignatures
  | payee :: rest =>
    if payee.GetVoteCount ≥ nMaxSignatures then maxSignatures rest payee.GetVoteCount
    else maxSignatures rest nMaxSignatures

/-- The innermost loop of `CMasternodeBlockPayees::IsTransactionValid`: does some
output of the transaction pay the payee an allowed amount. -/
def findRequiredPayment (payee : CMasternodePayee) (vout : List CTxOut)
    (nMinMasternodeAmount nMaxMasternodeAmount : Int) : Bool :=
  match vout with
  | [] => false
  | txout :: rest =>
    let actualAmount := txout.nValue
    let maxPaymentallowed := nMaxMasternodeAmount
    let checkPayeeMatch : Bool := decide (payee.GetPayee = txout.scriptPubKey)
    let checkGreaterThan : Bool := decide (actualAmount ≥ nMinMasternodeAmount)
    let checkLessThan : Bool := decide (actualAmount ≤ maxPaymentallowed)
    if checkPayeeMatch && checkGreaterThan && checkLessThan then true
    else findRequiredPayment payee rest nMinMasternodeAmount nMaxMasternodeAmount

/-- The second loop of `CMasternodeBlockPayees::IsTransactionValid`, over the payees. -/
def checkPayees (vecPayees : List CMasternodePayee) (vout : List CTxOut)
    (nMinMasternodeAmount nMaxMasternodeAmount : Int) : Bool :=
  match vecPayees with
  | [] => false
  | payee :: rest =>
    let payeeVoteCount := payee.GetVoteCount
    if payeeVoteCount ≥ MNPAYMENTS_SIGNATURES_REQUIRED then
      if findRequiredPayment payee vout nMinMasternodeAmount nMaxMasternodeAmount then true
      else checkPayees rest vout nMinMasternodeAmount nMaxMasternodeAmount
    else checkPayees rest vout nMinMasternodeAmount nMaxMasternodeAmount

/-- The method `CMasternodeBlockPayees::IsTransactionValid`.

The two bounds are computed by the source in floating point from consensus
parameters that are not among the sources,
`nMaxMasternodeAmount = (nBlockRewardMasternode - min * maxCount) * COIN` and
`nMinMasternodeAmount = aMasternodeMaturiySecondariesMinAmount`; they enter
as the resulting `CAmount` values. `nMasternodeCalculatedPayment` is the value
of `GetMasternodePayments(nBlockHeight, -nBlockHeight, blockReward)`, also not
among the sources. The result is `none` when the `assert` fails (the process
aborts). -/
def CMasternodeBlockPayees.IsTransactionValid (self : CMasternodeBlockPayees)
    (vout : List CTxOut) (nMinMasternodeAmount nMaxMasternodeAmount : Int)
    (nMasternodeCalculatedPayment : Int) : Option Bool :=
  if nMaxMasternodeAmount = nMasternodeCalculatedPayment then
    let nMaxSignatures := maxSignatures self.vecPayees 0
    if nMaxSignatures < MNPAYMENTS_SIGNATURES_REQUIRED then some true
    else some (checkPayees self.vecPayees vout nMinMasternodeAmount nMaxMasternodeAmount)
  else none

/-- The method `CMasternodePayments::IsTransactionValid`. `calculatedPayment h`
is the value of `GetMasternodePayments(h, -h, blockReward)`. -/
def CMasternodePayments.IsTransactionValid (self : CMasternodePayments)
    (vout : List CTxOut) (nBlockHeight : Int)
    (nMinMasternodeAmount nMaxMasternodeAmount : Int)
    (calculatedPayment : Int → Int) : Option Bool :=
  match mapFind self.mapMasternodeBlocksPrimary nBlockHeight with
  | none => some true
  | some payees =>
    payees.IsTransactionValid vout nMinMasternodeAmount nMaxMasternodeAmount
      (calculatedPayment nBlockHeight)

/-! ## Collaborators outside the sources -/

/-- The functions the embedded code calls whose definitions are not among the
sources. They are arbitrary; every theorem holds for each choice.

* `GetBlockHash h`: the hash of the block at height `h` of the active chain,
  `none` when the height is unknown.
* `GetUTXOCoin o`: the height of the unspent coin at `o`, `none` when there is none.
* `collateralScript pk`: the script
  `GetScriptForDestination(CScriptID(GetScriptForDestination(WitnessV0KeyHash(pk.GetID()))))`.
* `EncodeDestination s`: the address string
  `EncodeDestination(d)` of the destination `d` that `ExtractDestination(s, d)`
  yields; for `s = collateralScript pk` this is the string
  `EncodeDestination(CScriptID(...))` that `GetBestPayee` uses as key.
* `Hash`: the hash function of `CalculateScore`.
* `IsVerified`, `MarkAsNotVerified`: the inline methods of
  `CMasternodePaymentVote` with these names, declared in the payments header.
* `VerifyHash vote pk`: `CHashSigner::VerifyHash` of the signature of `vote`
  over `vote.GetSignatureHash()` under the key `pk`.
* `VerifyMessage vote pk`: `CMessageSigner::VerifyMessage` of the signature of
  `vote` over the legacy message of `vote` under the key `pk`.
* `scaleByStorageCoeff n`: the value `int(n * nStorageCoeff)`, a product in
  floating point.
* `IsValidForPayment`, `IsPoSeVerified`, `IncreasePoSeBanScore`: the inline
  methods of `CMasternode` with these names, declared in the masternode header.
* `GetUTXOConfirmations o`: the function of this name.
* `CheckMasternode`: the method `CMasternode::Check`.
* `broadcastHash`: the method `CMasternodeBroadcast::GetHash`.
* `SimpleCheck mnb nDos`, `CheckOutpoint mnb nDos`: the methods of
  `CMasternodeBroadcast` with these names, which are not `const`, as the
  returned flag, `nDos` afterwards and the broadcast afterwards.
* `Update mnb mn nDos`: the method `CMasternodeBroadcast::Update` applied to
  the registry entry `mn`, as the returned flag, `nDos` afterwards and the
  entry afterwards; the method is taken to reach the registry through this
  entry only.
* `ManageState`: the method `CActiveMasternode::ManageState`, as its effect on
  the registry `mapMasternodes`.
* `defaultSeenBroadcast`: the value-initialised
  `std::pair<int64_t, CMasternodeBroadcast>` that `operator[]` of
  `mapSeenMasternodeBroadcast` inserts for a key that is absent.
* `IsGovernanceBlockTriggered h`, `GovernanceBlockIsValid vout h blockReward`:
  the functions `IsGovernanceBlockTriggered` and `IsValid` of
  `CGovernanceBlockManager`, the transaction given by its outputs.
* `GetPaymentsLimit h`, `IsValidBlockHeight h`: the functions of
  `CGovernanceBlock` with these names.
* `GetLastCheckpoint`: the height of the block index that
  `Checkpoints::GetLastCheckpoint` returns, `none` for the null pointer.
* `GetMasternodePayments h activationHeight blockReward`: the function of this name.
* `DecreasePoSeBanScore`: the inline method of `CMasternode` with this name.
* `verificationHash`: the method `CMasternodeVerification::GetHash`.
* `VerifyVerificationHash1 mnv blockHash pk`, `VerifyVerificationHash2`:
  `CHashSigner::VerifyHash` of `vchSig1` over `GetSignatureHash1(blockHash)`,
  of `vchSig2` over `GetSignatureHash2(blockHash)`, under the key `pk`.
* `VerifyVerificationMessage1 mnv blockHash pk`, `VerifyVerificationMessage2`:
  `CMessageSigner::VerifyMessage` of `vchSig1` over `strMessage1`, of
  `vchSig2` over `strMessage2`, under the key `pk`.
* `ReadBlockFromDisk pos`: the outputs of the coinbase `block.vtx[0]` of the
  block that `ReadBlockFromDisk` reads at the position `pos`, `none` when the
  read fails. -/
structure External where
  GetBlockHash : Int → Option Nat
  GetUTXOCoin : COutPoint → Option Int
  collateralScript : CPubKey → CScript
  EncodeDestination : CScript → String
  Hash : List Nat → Nat
  IsVerified : CMasternodePaymentVote → Bool
  MarkAsNotVerified : CMasternodePaymentVote → CMasternodePaymentVote
  VerifyHash : CMasternodePaymentVote → CPubKey → Bool
  VerifyMessage : CMasternodePaymentVote → CPubKey → Bool
  scaleByStorageCoeff : Nat → Int
  IsValidForPayment : CMasternode → Bool
  IsPoSeVerified : CMasternode → Bool
  IncreasePoSeBanScore : CMasternode → CMasternode
  GetUTXOConfirmations : COutPoint → Int
  CheckMasternode : CMasternode → CMasternode
  broadcastHash : CMasternodeBroadcast → Nat
  SimpleCheck : CMasternodeBroadcast → Int → Bool × Int × CMasternodeBroadcast
  CheckOutpoint : CMasternodeBroadcast → Int → Bool × Int × CMasternodeBroadcast
  Update : CMasternodeBroadcast → CMasternode → Int → Bool × Int × CMasternode
  ManageState : List CMasternode → List CMasternode
  defaultSeenBroadcast : Int × CMasternodeBroadcast
  IsGovernanceBlockTriggered : Int → Bool
  GovernanceBlockIsValid : List CTxOut → Int → Int → Bool
  GetPaymentsLimit : Int → Int
  IsValidBlockHeight : Int → Bool
  GetLastCheckpoint : Option Int
  GetMasternodePayments : Int → Int → Int → Int
  DecreasePoSeBanScore : CMasternode → CMasternode
  verificationHash : CMasternodeVerification → Nat
  VerifyVerificationHash1 : CMasternodeVerification → Nat → CPubKey → Bool
  VerifyVerificationHash2 : CMasternodeVerification → Nat → CPubKey → Bool
  VerifyVerificationMessage1 : CMasternodeVerification → Nat → CPubKey → Bool
  VerifyVerificationMessage2 : CMasternodeVerification → Nat → CPubKey → Bool
  ReadBlockFromDisk : Nat → Option (List CTxOut)

/-- The process-wide values the handlers read: the mode flags, the sync state
of the masternode list (`masternodeSync.IsMasternodeListSynced()`), the height
of the active chain, two constants of the consensus parameters and of the
payments header, and the registry `mapMasternodes` in iteration order, each
entry stored under its own `outpoint`; further the other sync flags of
`masternodeSync` (`IsSynced()`, `IsBlockchainSynced()`,
`IsWinnersListSynced()`), the clocks `GetTime()` and `GetAdjustedTime()`, the
consensus parameters `nMasternodeMaturitySecondariesMaxCount`,
`nCoinbaseMaturity`, `nMasternodePoseBanMaxScore`,
`nMasternodeNewStartRequiredSeconds` and `nMasternodeMinMnpSeconds`, the
constant `PROTOCOL_VERSION` and the key `activeMasternode.pubKeyMasternode`;
and the constants `MN_PAYMENTS_UPDATE_THRESHOLD`, `MIN_POSE_PROTO_VERSION`,
`CLIENT_VERSION` and `COIN` and the consensus parameter
`nBlockRewardMasternode`, taken to be a whole number. -/
structure NodeContext where
  fLiteMode : Bool := false
  fMasternodeMode : Bool := false
  fMasternodeListSynced : Bool := true
  chainActiveHeight : Int := 0
  nMasternodeSignHashThreshold : Int := 0
  MIN_MASTERNODE_PAYMENT_PROTO_VERSION : Int := 0
  mapMasternodes : List CMasternode := []
  fSynced : Bool := true
  fBlockchainSynced : Bool := true
  fWinnersListSynced : Bool := true
  nTime : Int := 0
  nAdjustedTime : Int := 0
  nMasternodeMaturitySecondariesMaxCount : Int := 1
  nCoinbaseMaturity : Int := 100
  nMasternodePoseBanMaxScore : Int := 5
  nMasternodeNewStartRequiredSeconds : Int := 10800
  nMasternodeMinMnpSeconds : Int := 600
  PROTOCOL_VERSION : Int := 0
  activeMasternodePubKey : CPubKey := []
  MN_PAYMENTS_UPDATE_THRESHOLD : Int := 0
  MIN_POSE_PROTO_VERSION : Int := 0
  CLIENT_VERSION : Int := 0
  COIN : Int := 100000000
  nBlockRewardMasternode : Int := 0

/-! ## Winner query -/

/-- The method `CMasternodeMan::GetMasternodeInfoFromCollateral(const CScript&)`:
the first entry of the registry whose collateral script is the payee. -/
def GetMasternodeInfoFromCollateral (ext : External) (mapMasternodes : List CMasternode)
    (payee : CScript) : Option CMasternode :=
  match mapMasternodes with
  | [] => none
  | mn :: rest =>
    if ext.collateralScript mn.pubKeyCollateralAddress = payee then some mn
    else GetMasternodeInfoFromCollateral ext rest payee

/-- The method `CMasternodeMan::GetNodeActivationHeight(const CScript&)`. -/
def GetNodeActivationHeight (ext : External) (mapMasternodes : List CMasternode)
    (payee : CScript) : Int :=
  match GetMasternodeInfoFromCollateral ext mapMasternodes payee with
  | some primaryCheckMnInfo =>
    if primaryCheckMnInfo.activationBlockHeight ≠ 0 then
      primaryCheckMnInfo.activationBlockHeight
    else
      match ext.GetUTXOCoin primaryCheckMnInfo.outpoint with
      | some nHeight => nHeight
      | none => 0
  | none => 0

/-- The map `nodeMap` that `GetBestPayee` builds from the registry: address
string of the collateral script to entry, later entries replacing earlier ones. -/
def buildNodeMap (ext : External) (localMasternodeList : List CMasternode)
    (nodeMap : List (String × CMasternode)) : List (String × CMasternode) :=
  match localMasternodeList with
  | [] => nodeMap
  | mn :: rest =>
    buildNodeMap ext rest
      (mapAssign nodeMap (ext.EncodeDestination (ext.collateralScript mn.pubKeyCollateralAddress)) mn)

/-- The local variables of `GetBestPayee` that live across loop iterations,
with the two out-parameters. (`selectedPayee` and `selectedActivationHeight`
only feed a log line and are left out.) -/
structure BestPayeeState where
  nVotes : Int
  activationHeight : Int
  lastPaid : Int
  payeeRet : CScript
  activationBlockHeightRet : Int
  deriving DecidableEq, Repr

/-- One iteration of the loop of `CMasternodeBlockPayees::GetBestPayee`. The
result is `none` when `nodeMap.find(strAddress)` is `end()`: the source
dereferences the iterator without a check, which is undefined. -/
def bestPayeeStep (ext : External) (mapMasternodes : List CMasternode)
    (nodeMap : List (String × CMasternode)) (st : BestPayeeState)
    (payee : CMasternodePayee) : Option BestPayeeState :=
  let voteCount := payee.GetVoteCount
  let currentPayee := payee.GetPayee
  let strAddress := ext.EncodeDestination payee.GetPayee
  match mapFind nodeMap strAddress with
  | none => none
  | some mNode =>
    let payeeActivationHeight : Int :=
      if mNode.activationBlockHeight ≠ 0 then mNode.activationBlockHeight
      else GetNodeActivationHeight ext mapMasternodes payee.GetPayee
    let voteWin : Bool := decide (voteCount > st.nVotes)
    let voteTie : Bool := decide (voteCount = st.nVotes)
    let lastPaidWin : Bool := decide (mNode.nTimeLastPaidPrimary < st.lastPaid)
    let activationHeightWin : Bool :=
      decide (payeeActivationHeight < st.activationHeight) || decide (st.activationHeight = 0)
    if voteWin || (voteTie && lastPaidWin) || (voteTie && activationHeightWin) then
      some { nVotes := voteCount,
             activationHeight := payeeActivationHeight,
             lastPaid := mNode.nTimeLastPaidPrimary,
             payeeRet := currentPayee,
             activationBlockHeightRet := payeeActivationHeight }
    else some st

/-- The loop of `CMasternodeBlockPayees::GetBestPayee` over `vecPayees`. -/
def bestPayeeLoop (ext : External) (mapMasternodes : List CMasternode)
    (nodeMap : List (String × CMasternode)) (vecPayees : List CMasternodePayee)
    (st : BestPayeeState) : Option BestPayeeState :=
  match vecPayees with
  | [] => some st
  | payee :: rest =>
    match bestPayeeStep ext mapMasternodes nodeMap st payee with
    | none => none
    | some st1 => bestPayeeLoop ext mapMasternodes nodeMap rest st1

/-- The method `CMasternodeBlockPayees::GetBestPayee`. `payeeRet` and
`activationBlockHeightRet` are the values the out-parameters hold at the call;
the result is the returned flag with the out-parameters at return, and `none`
when the lookup in `nodeMap` fails for some payee (undefined behaviour). -/
def CMasternodeBlockPayees.GetBestPayee (self : CMasternodeBlockPayees) (ext : External)
    (mapMasternodes : List CMasternode) (payeeRet : CScript)
    (activationBlockHeightRet : Int) : Option (Bool × CScript × Int) :=
  if self.vecPayees.isEmpty then some (false, payeeRet, activationBlockHeightRet)
  else
    let nodeMap := buildNodeMap ext mapMasternodes []
    match bestPayeeLoop ext mapMasternodes nodeMap self.vecPayees
        { nVotes := -1, activationHeight := 0, lastPaid := 0,
          payeeRet := payeeRet, activationBlockHeightRet := activationBlockHeightRet } with
    | none => none
    | some st => some (decide (st.nVotes > -1), st.payeeRet, st.activationBlockHeightRet)

/-- The method `CMasternodePayments::GetBlockPayees`. -/
def CMasternodePayments.GetBlockPayees (self : CMasternodePayments) (ext : External)
    (mapMasternodes : List CMasternode) (nBlockHeight : Int) (payeeRet : CScript)
    (activationHeightRet : Int) : Option (Bool × CScript × Int) :=
  match mapFind self.mapMasternodeBlocksPrimary nBlockHeight with
  | none => some (false, payeeRet, activationHeightRet)
  | some payees => payees.GetBestPayee ext mapMasternodes payeeRet activationHeightRet

/-! ## Concrete data for the examples -/

/-- A concrete choice of the collaborators, used by the examples only: every
height from 0 on has a block, no coin is found, the collateral script of a key
is the key behind a zero byte, the address of a script lists its bytes, the hash
is the sum, a vote counts as verified while it carries a signature, the
signature that repeats the bytes of the key verifies in the hash format and
none verifies in the legacy format, the storage coefficient is 5/4; an entry
is valid for payment when it is enabled and PoSe-verified when its ban score
is at most -5, the ban score grows by one up to 5, every coin has 1000
confirmations, `Check` changes nothing, the hash of a broadcast adds the parts
of its outpoint and its signature time, every broadcast passes `SimpleCheck`
and `CheckOutpoint`, and `Update` copies the signature time into the entry;
a governance block is triggered and valid at the multiples of 1000 with the
payments limit 500, the last checkpoint is at height 100, the primary payment
is 60, the ban score falls by one down to -5, the hash of a verification is
its nonce, a signature of a verification verifies in the hash format when it
repeats the bytes of the key and never in the legacy format, and the block at
the position `pos` has a coinbase of seven outputs whose last pays 1 to the
script `[0, pos]`. -/
def sampleExternal : External :=
  { GetBlockHash := fun h => if 0 ≤ h then some h.toNat else none,
    GetUTXOCoin := fun _ => none,
    collateralScript := fun pk => 0 :: pk,
    EncodeDestination := fun s => String.intercalate "," (s.map toString),
    Hash := fun l => l.sum,
    IsVerified := fun vote => !vote.vchSig.isEmpty,
    MarkAsNotVerified := fun vote => { vote with vchSig := [] },
    VerifyHash := fun vote pk => !pk.isEmpty && decide (vote.vchSig = pk),
    VerifyMessage := fun _ _ => false,
    scaleByStorageCoeff := fun n => ((n * 5 / 4 : Nat) : Int),
    IsValidForPayment := fun mn => decide (mn.nActiveState = MasternodeState.ENABLED),
    IsPoSeVerified := fun mn => decide (mn.nPoSeBanScore ≤ -5),
    IncreasePoSeBanScore := fun mn =>
      if mn.nPoSeBanScore < 5 then { mn with nPoSeBanScore := mn.nPoSeBanScore + 1 } else mn,
    GetUTXOConfirmations := fun _ => 1000,
    CheckMasternode := fun mn => mn,
    broadcastHash := fun mnb => mnb.outpoint.hash + mnb.outpoint.n + mnb.sigTime.toNat,
    SimpleCheck := fun mnb nDos => (true, nDos, mnb),
    CheckOutpoint := fun mnb nDos => (true, nDos, mnb),
    Update := fun mnb mn nDos => (true, nDos, { mn with sigTime := mnb.sigTime }),
    ManageState := fun mapMasternodes => mapMasternodes,
    defaultSeenBroadcast := (0, { outpoint := { hash := 0, n := 0 } }),
    IsGovernanceBlockTriggered := fun h => decide (h % 1000 = 0),
    GovernanceBlockIsValid := fun _ _ _ => true,
    GetPaymentsLimit := fun _ => 500,
    IsValidBlockHeight := fun h => decide (h % 1000 = 0),
    GetLastCheckpoint := some 100,
    GetMasternodePayments := fun _ _ _ => 60,
    DecreasePoSeBanScore := fun mn =>
      if mn.nPoSeBanScore > -5 then { mn with nPoSeBanScore := mn.nPoSeBanScore - 1 } else mn,
    verificationHash := fun mnv => mnv.nonce.toNat,
    VerifyVerificationHash1 := fun mnv _ pk => decide (mnv.vchSig1 = pk),
    VerifyVerificationHash2 := fun mnv _ pk => decide (mnv.vchSig2 = pk),
    VerifyVerificationMessage1 := fun _ _ _ => false,
    VerifyVerificationMessage2 := fun _ _ _ => false,
    ReadBlockFromDisk := fun pos =>
      some (List.replicate 6 { nValue := 0, scriptPubKey := [] }
        ++ [{ nValue := 1, scriptPubKey := [0, pos] }]) }

/-- Vote hashes of `k` different voters for one payee at one height. -/
def sampleVotes (payee : CScript) (nBlockHeight : Int) (k : Nat) : List VoteHash :=
  (List.range k).map fun i =>
    { payee := payee, nBlockHeight := nBlockHeight,
      masternodeOutpoint := { hash := 100 + i, n := 0 } }

/-- Masternode A: last paid at time 100, activated at height 50. -/
def sampleMnA : CMasternode :=
  { outpoint := { hash := 1, n := 0 }, pubKeyCollateralAddress := [1],
    pubKeyMasternode := [11], activationBlockHeight := 50, nTimeLastPaidPrimary := 100 }

/-- Masternode B: last paid at time 200, activated at height 10. -/
def sampleMnB : CMasternode :=
  { outpoint := { hash := 2, n := 0 }, pubKeyCollateralAddress := [2],
    pubKeyMasternode := [12], activationBlockHeight := 10, nTimeLastPaidPrimary := 200 }

/-- A tally for height 110 in which the payees of A and B have six votes each. -/
def sampleTieTally : CMasternodeBlockPayees :=
  { nBlockHeight := 110,
    vecPayees := [{ scriptPubKey := [0, 1], vecVoteHashes := sampleVotes [0, 1] 110 6 },
                  { scriptPubKey := [0, 2], vecVoteHashes := sampleVotes [0, 2] 110 6 }] }

/-! ## Ranking -/

/-- Modelled from the spec: the method `CMasternode::CalculateScore`, whose
definition is not among the sources. The spec gives
`score(m, b) = H(m.operator_pubkey || b || H(m.operator_pubkey || b))`,
read as a 256-bit unsigned integer. -/
def CMasternode.CalculateScore (mn : CMasternode) (ext : External) (nBlockHash : Nat) : Nat :=
  ext.Hash (mn.pubKeyMasternode ++ [nBlockHash] ++ [ext.Hash (mn.pubKeyMasternode ++ [nBlockHash])])

/-- The comparator `CompareScoreMN`: by score, then by outpoint. -/
def CompareScoreMN (t1 t2 : Nat × CMasternode) : Bool :=
  if t1.1 ≠ t2.1 then decide (t1.1 < t2.1) else t1.2.outpoint.lt t2.2.outpoint

/-- The call `std::sort(v.rbegin(), v.rend(), comp)`: it leaves the reversed
vector ascending under `comp`, that is, no element of the vector is
`comp`-less than a later one. The sort is realised by insertion; where `comp`
orders the elements totally, as `CompareScoreMN` does for the entries of a
map, every sorting algorithm gives the same vector. -/
def stdSortReverse {α : Type} (comp : α → α → Bool) (v : List α) : List α :=
  List.insertionSort (fun a b => comp a b = false) v

/-- The method `CMasternodeMan::GetMasternodeScores`: the returned flag and the
vector `vecMasternodeScoresRet`. `fMasternodeListSynced` is the value of
`masternodeSync.IsMasternodeListSynced()`. -/
def GetMasternodeScores (ext : External) (fMasternodeListSynced : Bool)
    (mapMasternodes : List CMasternode) (nBlockHash : Nat) (nMinProtocol : Int) :
    Bool × List (Nat × CMasternode) :=
  if !fMasternodeListSynced then (false, [])
  else if mapMasternodes.isEmpty then (false, [])
  else
    let vecMasternodeScores :=
      (mapMasternodes.filter fun mn => decide (mn.nProtocolVersion ≥ nMinProtocol)).map
        fun mn => (mn.CalculateScore ext nBlockHash, mn)
    let sorted := stdSortReverse CompareScoreMN vecMasternodeScores
    (!sorted.isEmpty, sorted)

/-- The loop of `CMasternodeMan::GetMasternodeRank`: the rank of the first
entry of the score vector with the outpoint, `nRank` entries having been passed. -/
def findRank (outpoint : COutPoint) (vecMasternodeScores : List (Nat × CMasternode))
    (nRank : Int) : Option Int :=
  match vecMasternodeScores with
  | [] => none
  | scorePair :: rest =>
    if scorePair.2.outpoint = outpoint then some (nRank + 1)
    else findRank outpoint rest (nRank + 1)

/-- The method `CMasternodeMan::GetMasternodeRank`: the returned flag and `nRankRet`. -/
def GetMasternodeRank (ext : External) (fMasternodeListSynced : Bool)
    (mapMasternodes : List CMasternode) (outpoint : COutPoint) (nBlockHeight : Int)
    (nMinProtocol : Int) : Bool × Int :=
  if !fMasternodeListSynced then (false, -1)
  else
    match ext.GetBlockHash nBlockHeight with
    | none => (false, -1)
    | some nBlockHash =>
      let scores := GetMasternodeScores ext fMasternodeListSynced mapMasternodes nBlockHash
        nMinProtocol
      if !scores.1 then (false, -1)
      else
        match findRank outpoint scores.2 0 with
        | some nRank => (true, nRank)
        | none => (false, -1)

/-- The loop of `CMasternodeMan::GetMasternodeRanks`: consecutive ranks for
the entries of the score vector, `nRank` entries having been passed. -/
def assignRanks (vecMasternodeScores : List (Nat × CMasternode)) (nRank : Int) :
    List (Int × CMasternode) :=
  match vecMasternodeScores with
  | [] => []
  | scorePair :: rest => (nRank + 1, scorePair.2) :: assignRanks rest (nRank + 1)

/-- The method `CMasternodeMan::GetMasternodeRanks`: the returned flag and the
vector `vecMasternodeRanksRet`. -/
def GetMasternodeRanks (ext : External) (fMasternodeListSynced : Bool)
    (mapMasternodes : List CMasternode) (nBlockHeight : Int) (nMinProtocol : Int) :
    Bool × List (Int × CMasternode) :=
  if !fMasternodeListSynced then (false, [])
  else
    match ext.GetBlockHash nBlockHeight with
    | none => (false, [])
    | some nBlockHash =>
      let scores := GetMasternodeScores ext fMasternodeListSynced mapMasternodes nBlockHash
        nMinProtocol
      if !scores.1 then (false, [])
      else (true, assignRanks scores.2 0)

/-- Two registry entries that share the operator key `[11]` of A, at the outpoints `(1, 0)` and `(2, 0)`. -/
def sampleSharedKeyRegistry : List CMasternode :=
  [sampleMnA, { sampleMnB with pubKeyMasternode := [11] }]

/-! ## Vote ingestion -/

/-- The method `CMasternodeMan::GetMasternodeInfo(const COutPoint&)`:
`mapMasternodes.find(outpoint)`. -/
def GetMasternodeInfo (mapMasternodes : List CMasternode) (outpoint : COutPoint) :
    Option CMasternode :=
  match mapMasternodes with
  | [] => none
  | mn :: rest => if mn.outpoint = outpoint then some mn else GetMasternodeInfo rest outpoint

/-- The method `CMasternodePayments::GetMinMasternodePaymentsProto`. -/
def GetMinMasternodePaymentsProto (ctx : NodeContext) : Int :=
  ctx.MIN_MASTERNODE_PAYMENT_PROTO_VERSION

/-- The method `CMasternodePayments::GetStorageLimit`:
`std::max(int(mnodeman.size() * nStorageCoeff), nMinBlocksToStore)`. -/
def CMasternodePayments.GetStorageLimit (self : CMasternodePayments) (ext : External)
    (ctx : NodeContext) : Int :=
  max (ext.scaleByStorageCoeff ctx.mapMasternodes.length) self.nMinBlocksToStore

/-- The method `CMasternodePayments::UpdateLastVote`: the returned flag and the state after. -/
def CMasternodePayments.UpdateLastVote (self : CMasternodePayments)
    (vote : CMasternodePaymentVote) : Bool × CMasternodePayments :=
  match mapFind self.mapMasternodesLastVote vote.masternodeOutpoint with
  | some nHeight =>
    if nHeight = vote.nBlockHeight then (false, self)
    else
      (true, { self with
        mapMasternodesLastVote :=
          mapAssign self.mapMasternodesLastVote vote.masternodeOutpoint vote.nBlockHeight })
  | none =>
    (true, { self with
      mapMasternodesLastVote :=
        mapEmplace self.mapMasternodesLastVote vote.masternodeOutpoint vote.nBlockHeight })

/-- The loop of `CMasternodeBlockPayees::AddPayee`: the vote hash goes to the
first payee with the script of the vote, or to a new payee at the end. -/
def addPayeeLoop (vecPayees : List CMasternodePayee) (vote : CMasternodePaymentVote) :
    List CMasternodePayee :=
  match vecPayees with
  | [] => [{ scriptPubKey := vote.payee, vecVoteHashes := [vote.GetHash] }]
  | payee :: rest =>
    if payee.GetPayee = vote.payee then
      { payee with vecVoteHashes := payee.vecVoteHashes ++ [vote.GetHash] } :: rest
    else payee :: addPayeeLoop rest vote

/-- The method `CMasternodeBlockPayees::AddPayee`. -/
def CMasternodeBlockPayees.AddPayee (self : CMasternodeBlockPayees)
    (vote : CMasternodePaymentVote) : CMasternodeBlockPayees :=
  { self with vecPayees := addPayeeLoop self.vecPayees vote }

/-- The method `CMasternodePayments::HasVerifiedPaymentVote`. -/
def CMasternodePayments.HasVerifiedPaymentVote (self : CMasternodePayments) (ext : External)
    (hashIn : VoteHash) : Bool :=
  match mapFind self.mapMasternodePaymentVotesPrimary hashIn with
  | some vote => ext.IsVerified vote
  | none => false

/-- The method `CMasternodePayments::AddOrUpdatePaymentVote`: the returned flag
and the state after. -/
def CMasternodePayments.AddOrUpdatePaymentVote (self : CMasternodePayments) (ext : External)
    (vote : CMasternodePaymentVote) : Bool × CMasternodePayments :=
  match ext.GetBlockHash (vote.nBlockHeight - 101) with
  | none => (false, self)
  | some _ =>
    let nVoteHash := vote.GetHash
    if self.HasVerifiedPaymentVote ext nVoteHash then (false, self)
    else
      let payees : CMasternodeBlockPayees :=
        match mapFind self.mapMasternodeBlocksPrimary vote.nBlockHeight with
        | some existing => existing
        | none => { nBlockHeight := vote.nBlockHeight, vecPayees := [] }
      (true, { self with
        mapMasternodePaymentVotesPrimary :=
          mapAssign self.mapMasternodePaymentVotesPrimary nVoteHash vote,
        mapMasternodeBlocksPrimary :=
          mapAssign self.mapMasternodeBlocksPrimary vote.nBlockHeight (payees.AddPayee vote) })

/-- The method `CMasternodePaymentVote::IsValid`: the returned flag and the
score passed to `Misbehaving` (0 when it is not called). The requests of
`AskForMN` are not part of the state modelled, and the activation height that
the source resolves into its local copy `mnInfo` is not read afterwards. -/
def CMasternodePaymentVote.IsValid (vote : CMasternodePaymentVote) (ext : External)
    (ctx : NodeContext) (nValidationHeight : Int) : Bool × Int :=
  match GetMasternodeInfo ctx.mapMasternodes vote.masternodeOutpoint with
  | none => (false, 0)
  | some mnInfo =>
    let nMinRequiredProtocol := GetMinMasternodePaymentsProto ctx
    if mnInfo.nProtocolVersion < nMinRequiredProtocol then (false, 0)
    else if !ctx.fMasternodeMode && decide (vote.nBlockHeight < nValidationHeight) then (true, 0)
    else
      let rank := GetMasternodeRank ext ctx.fMasternodeListSynced ctx.mapMasternodes
        vote.masternodeOutpoint (vote.nBlockHeight - 101) nMinRequiredProtocol
      if !rank.1 then (false, 0)
      else if rank.2 > MNPAYMENTS_SIGNATURES_TOTAL then
        if rank.2 > MNPAYMENTS_SIGNATURES_TOTAL * 2 ∧ vote.nBlockHeight > nValidationHeight then
          (false, 20)
        else (false, 0)
      else (true, 0)

/-- The method `CMasternodePaymentVote::CheckSignature`: the returned flag and `nDos`. -/
def CMasternodePaymentVote.CheckSignature (vote : CMasternodePaymentVote) (ext : External)
    (ctx : NodeContext) (pubKeyMasternode : CPubKey) (nValidationHeight : Int) : Bool × Int :=
  let nDosOnFailure : Int :=
    if ctx.fMasternodeListSynced && decide (vote.nBlockHeight > nValidationHeight) then 20 else 0
  if ctx.chainActiveHeight > ctx.nMasternodeSignHashThreshold then
    if !ext.VerifyHash vote pubKeyMasternode then
      if !ext.VerifyMessage vote pubKeyMasternode then (false, nDosOnFailure)
      else (true, 0)
    else (true, 0)
  else
    if !ext.VerifyMessage vote pubKeyMasternode then (false, nDosOnFailure)
    else (true, 0)

/-- The range test of the vote branch of `ProcessMessage`:
`vote.nBlockHeight < nFirstBlock || vote.nBlockHeight > nCachedBlockHeight + 20`
with `nFirstBlock = nCachedBlockHeight - GetStorageLimit()`. -/
def voteOutOfRange (nCachedBlockHeight nStorageLimit nBlockHeight : Int) : Bool :=
  let nFirstBlock := nCachedBlockHeight - nStorageLimit
  decide (nBlockHeight < nFirstBlock) || decide (nBlockHeight > nCachedBlockHeight + 20)

/-- What the vote branch of `ProcessMessage` leaves behind: the state, the
score passed to `Misbehaving` (0 when it is not called) and whether the vote
was relayed, which happens exactly when `AddOrUpdatePaymentVote` returned true. -/
structure VoteOutcome where
  payments : CMasternodePayments
  nMisbehaving : Int
  fRelayed : Bool
  deriving DecidableEq, Repr

/-- The method `CMasternodePayments::ProcessMessage` for the command
`MASTERNODEPAYMENTVOTEPRIMARY`; `vote` is the payload read from the stream and
`nPeerVersion` is `pfrom->nVersion`. Messages to the peer and the requests of
`AskForMN` are not part of the state modelled. -/
def CMasternodePayments.ProcessMessage (self : CMasternodePayments) (ext : External)
    (ctx : NodeContext) (nPeerVersion : Int) (vote : CMasternodePaymentVote) : VoteOutcome :=
  let dropped (state : CMasternodePayments) (nDos : Int) : VoteOutcome :=
    { payments := state, nMisbehaving := nDos, fRelayed := false }
  if ctx.fLiteMode then dropped self 0
  else if nPeerVersion < GetMinMasternodePaymentsProto ctx then dropped self 0
  else if !ctx.fMasternodeListSynced then dropped self 0
  else
    let nHash := vote.GetHash
    -- res = emplace(nHash, vote): the entry is the one found, or the vote itself
    let seen := mapFind self.mapMasternodePaymentVotesPrimary nHash
    let entry : CMasternodePaymentVote := seen.getD vote
    -- !res.second && res.first->second.IsVerified()
    if seen.isSome && ext.IsVerified entry then dropped self 0
    else
      -- res.first->second.MarkAsNotVerified()
      let s1 : CMasternodePayments := { self with
        mapMasternodePaymentVotesPrimary :=
          mapAssign self.mapMasternodePaymentVotesPrimary nHash (ext.MarkAsNotVerified entry) }
      if voteOutOfRange s1.nCachedBlockHeight (s1.GetStorageLimit ext ctx) vote.nBlockHeight then
        dropped s1 0
      else
        let valid := vote.IsValid ext ctx s1.nCachedBlockHeight
        if !valid.1 then dropped s1 valid.2
        else
          match GetMasternodeInfo ctx.mapMasternodes vote.masternodeOutpoint with
          | none => dropped s1 valid.2
          | some mnInfo =>
            let sig := vote.CheckSignature ext ctx mnInfo.pubKeyMasternode s1.nCachedBlockHeight
            if !sig.1 then dropped s1 (valid.2 + sig.2)
            else
              let last := s1.UpdateLastVote vote
              if !last.1 then dropped last.2 valid.2
              else
                let added := last.2.AddOrUpdatePaymentVote ext vote
                { payments := added.2, nMisbehaving := valid.2, fRelayed := added.1 }

/-- The vote hashes of a voter in the tally of a height: the votes of the
voter that were recorded for the height. -/
def CMasternodePayments.recordedVotes (self : CMasternodePayments) (voter : COutPoint)
    (nBlockHeight : Int) : List VoteHash :=
  match mapFind self.mapMasternodeBlocksPrimary nBlockHeight with
  | none => []
  | some payees =>
    (payees.vecPayees.map fun payee => payee.vecVoteHashes).flatten.filter
      fun voteHash => decide (voteHash.masternodeOutpoint = voter)

/-- The node of the examples for vote ingestion: the registry holds A alone. -/
def sampleContext : NodeContext :=
  { chainActiveHeight := 200, nMasternodeSignHashThreshold := 100, mapMasternodes := [sampleMnA] }

/-- The payments state of the examples: nothing stored, tip 200, at least 50 blocks kept. -/
def samplePayments : CMasternodePayments := { nCachedBlockHeight := 200, nMinBlocksToStore := 50 }

/-- A vote of A, signed, for a height and a payee. -/
def sampleVote (nBlockHeight : Int) (payee : CScript) : CMasternodePaymentVote :=
  { masternodeOutpoint := sampleMnA.outpoint, nBlockHeight := nBlockHeight, payee := payee,
    vchSig := [11] }

/-! ## Choice of the next payees -/

/-- The method `CMasternodeMan::CountMasternodes` with the default argument:
the number of registry entries at or above the payment protocol floor. -/
def CountMasternodes (ctx : NodeContext) : Int :=
  ((ctx.mapMasternodes.filter fun mn =>
    !decide (mn.nProtocolVersion < GetMinMasternodePaymentsProto ctx)).length : Int)

/-- The loop of `CMasternodePayments::IsScheduled` over `k` heights from `h` on;
`payee` and `activationBlockHeight` are the locals that `GetBlockPayees` writes. -/
def isScheduledLoop (self : CMasternodePayments) (ext : External) (ctx : NodeContext)
    (mnpayee : CScript) (nNotBlockHeight : Int) (k : Nat) (h : Int) (payee : CScript)
    (activationBlockHeight : Int) : Option Bool :=
  match k with
  | 0 => some false
  | k + 1 =>
    if h = nNotBlockHeight then
      isScheduledLoop self ext ctx mnpayee nNotBlockHeight k (h + 1) payee activationBlockHeight
    else
      match self.GetBlockPayees ext ctx.mapMasternodes h payee activationBlockHeight with
      | none => none
      | some r =>
        if r.1 && decide (mnpayee = r.2.1) then some true
        else isScheduledLoop self ext ctx mnpayee nNotBlockHeight k (h + 1) r.2.1 r.2.2

/-- The method `CMasternodePayments::IsScheduled`: is the masternode the best
payee of one of the heights `nCachedBlockHeight .. nCachedBlockHeight + 8`
other than `nNotBlockHeight`. The result is `none` when a lookup of
`GetBestPayee` is undefined. -/
def CMasternodePayments.IsScheduled (self : CMasternodePayments) (ext : External)
    (ctx : NodeContext) (mnInfo : CMasternode) (nNotBlockHeight : Int) : Option Bool :=
  if !ctx.fMasternodeListSynced then some false
  else
    isScheduledLoop self ext ctx (ext.collateralScript mnInfo.pubKeyCollateralAddress)
      nNotBlockHeight 9 self.nCachedBlockHeight [] 0

/-- The first loop of `GetNextMasternodesInQueueForPayment`: the vector
`vecMasternodeLastPaid` of the primary candidates, each with
`GetLastPaidBlockPrimary()`. -/
def primaryCandidates (ext : External) (ctx : NodeContext) (payments : CMasternodePayments)
    (nBlockHeight : Int) (fFilterSigTime : Bool) (nMnCount : Int)
    (mapMasternodes : List CMasternode) : Option (List (Int × CMasternode)) :=
  match mapMasternodes with
  | [] => some []
  | mn :: rest =>
    if !ext.IsValidForPayment mn then
      primaryCandidates ext ctx payments nBlockHeight fFilterSigTime nMnCount rest
    else if mn.nProtocolVersion < GetMinMasternodePaymentsProto ctx then
      primaryCandidates ext ctx payments nBlockHeight fFilterSigTime nMnCount rest
    else
      match payments.IsScheduled ext ctx mn nBlockHeight with
      | none => none
      | some true => primaryCandidates ext ctx payments nBlockHeight fFilterSigTime nMnCount rest
      | some false =>
        if fFilterSigTime && decide (mn.sigTime + nMnCount * 60 > ctx.nAdjustedTime) then
          primaryCandidates ext ctx payments nBlockHeight fFilterSigTime nMnCount rest
        else if ext.GetUTXOConfirmations mn.outpoint < nMnCount then
          primaryCandidates ext ctx payments nBlockHeight fFilterSigTime nMnCount rest
        else if mn.activationBlockHeight ≤ 0 then
          primaryCandidates ext ctx payments nBlockHeight fFilterSigTime nMnCount rest
        else if mn.activationBlockHeight > nBlockHeight then
          primaryCandidates ext ctx payments nBlockHeight fFilterSigTime nMnCount rest
        else
          match primaryCandidates ext ctx payments nBlockHeight fFilterSigTime nMnCount rest with
          | none => none
          | some vec => some ((mn.nBlockLastPaidPrimary, mn) :: vec)

/-- The second loop of `GetNextMasternodesInQueueForPayment`: the vector
`vecMasternodeLastPaidSecondary` of the secondary candidates, each with
`GetLastPaidBlockSecondary()`. The result is `none` when the division by
`nMasternodeMaturitySecondariesMaxCount` is a division by zero. -/
def secondaryCandidates (ext : External) (ctx : NodeContext) (fFilterSigTime : Bool)
    (nMnCount : Int) (mapMasternodes : List CMasternode) : Option (List (Int × CMasternode)) :=
  match mapMasternodes with
  | [] => some []
  | mn :: rest =>
    if !ext.IsValidForPayment mn then secondaryCandidates ext ctx fFilterSigTime nMnCount rest
    else if mn.nProtocolVersion < GetMinMasternodePaymentsProto ctx then
      secondaryCandidates ext ctx fFilterSigTime nMnCount rest
    else if fFilterSigTime && decide (ctx.nMasternodeMaturitySecondariesMaxCount = 0) then none
    else if fFilterSigTime &&
        decide (mn.sigTime + (nMnCount / ctx.nMasternodeMaturitySecondariesMaxCount) * 60
          > ctx.nAdjustedTime) then
      secondaryCandidates ext ctx fFilterSigTime nMnCount rest
    else if ext.GetUTXOConfirmations mn.outpoint < nMnCount then
      secondaryCandidates ext ctx fFilterSigTime nMnCount rest
    else
      match secondaryCandidates ext ctx fFilterSigTime nMnCount rest with
      | none => none
      | some vec => some ((mn.nBlockLastPaidSecondary, mn) :: vec)

/-- The comparator `CompareLastPaidBlock`: by the last-paid block, then by the
activation height, then by the outpoint. -/
def CompareLastPaidBlock (t1 t2 : Int × CMasternode) : Bool :=
  if t1.1 ≠ t2.1 then decide (t1.1 < t2.1)
  else if t1.2.activationBlockHeight ≠ t2.2.activationBlockHeight then
    decide (t1.2.activationBlockHeight < t2.2.activationBlockHeight)
  else t1.2.outpoint.lt t2.2.outpoint

/-- The call `std::sort(v.begin(), v.end(), comp)`: it leaves the vector
ascending under `comp`, that is, no element is `comp`-less than an earlier one.
The sort is realised by insertion, which keeps the order of elements that
`comp` does not tell apart. -/
def stdSort {α : Type} (comp : α → α → Bool) (v : List α) : List α :=
  List.insertionSort (fun a b => comp b a = false) v

/-- The loop of `GetNextMasternodesInQueueForPayment` that picks the primary:
it stops once `nCountTenth >= nTenthNetwork`. -/
def selectBest (ext : External) (blockHash : Nat) (nTenthNetwork : Int)
    (vecMasternodeLastPaid : List (Int × CMasternode)) (nCountTenth : Int) (nHighest : Nat)
    (pBestMasternode : Option CMasternode) : Option CMasternode :=
  match vecMasternodeLastPaid with
  | [] => pBestMasternode
  | s :: rest =>
    let nScore := s.2.CalculateScore ext blockHash
    let nHighest1 := if nScore > nHighest then nScore else nHighest
    let pBest1 := if nScore > nHighest then some s.2 else pBestMasternode
    if nCountTenth + 1 ≥ nTenthNetwork then pBest1
    else selectBest ext blockHash nTenthNetwork rest (nCountTenth + 1) nHighest1 pBest1

/-- The conversion of an `int` to `size_t` (64 bits). -/
def toSizeT (x : Int) : Nat := (x % 2 ^ 64).toNat

/-- The conversion `(int)x` of a `size_t` to `int` (32 bits, two's complement). -/
def sizeToInt (x : Nat) : Int := ((x : Int) + 2 ^ 31) % 2 ^ 32 - 2 ^ 31

/-- The loop of `GetNextMasternodesInQueueForPayment` that copies the
secondaries, with `k` iterations left, at index `i`. Pointers to registry
entries are compared by the outpoint of the entry. The result is `none` when
the index is outside the vector. -/
def secondaryLoop (vecMasternodeLastPaidSecondary : List (Int × CMasternode))
    (pBestMasternode : Option CMasternode) (sampleSize : Nat) (k : Nat) (i : Nat)
    (vSecondaryMnInfoRet : List CMasternode) : Option (List CMasternode) :=
  match k with
  | 0 => some vSecondaryMnInfoRet
  | k + 1 =>
    match vecMasternodeLastPaidSecondary[i]? with
    | none => none
    | some entry =>
      let out :=
        if some entry.2.outpoint ≠ pBestMasternode.map (fun mn => mn.outpoint) then
          vSecondaryMnInfoRet ++ [entry.2]
        else vSecondaryMnInfoRet
      if out.length = sampleSize then some out
      else secondaryLoop vecMasternodeLastPaidSecondary pBestMasternode sampleSize k (i + 1) out

/-- The value of `sampleSize` (a `size_t`) for a secondary vector of the given
size: `secondariesToGet` when `(int)size - 1 >= secondariesToGet`, and
`size - 1` in unsigned arithmetic otherwise. -/
def secondarySampleSize (size : Nat) (secondariesToGet : Int) : Nat :=
  if (size : Int) - 1 ≥ secondariesToGet then toSizeT secondariesToGet
  else toSizeT ((size : Int) - 1)

/-- The last part of `GetNextMasternodesInQueueForPayment`: `sampleSize` and the
loop `for (int i = 0; i <= (int)sampleSize; ++i)` over the sorted secondary vector. -/
def copySecondaries (sortedSecondary : List (Int × CMasternode))
    (pBestMasternode : Option CMasternode) (secondariesToGet : Int)
    (vSecondaryMnInfoRet : List CMasternode) : Option (List CMasternode) :=
  let sampleSize := secondarySampleSize sortedSecondary.length secondariesToGet
  secondaryLoop sortedSecondary pBestMasternode sampleSize (sizeToInt sampleSize + 1).toNat 0
    vSecondaryMnInfoRet

/-- What `GetNextMasternodesInQueueForPayment` returns: the flag, `nCountRet`,
`mnInfoRet` (`none` for the default `masternode_info_t()`, whose `fInfoValid`
is false) and `vSecondaryMnInfoRet`. -/
structure QueueResult where
  fResult : Bool
  nCountRet : Int
  mnInfoRet : Option CMasternode
  vSecondaryMnInfoRet : List CMasternode
  deriving DecidableEq, Repr

/-- The part of `GetNextMasternodesInQueueForPayment` after `GetBlockHash` has
given the hash: the choice of the primary over the sorted primary vector and
the copy of the secondaries from the sorted secondary vector. -/
def queueSelectWithHash (ext : External) (ctx : NodeContext) (nMnCount : Int)
    (blockHash : Nat) (nCountRet : Int)
    (sortedPrimary sortedSecondary : List (Int × CMasternode))
    (vSecondaryMnInfoRet : List CMasternode) : Option QueueResult :=
  (copySecondaries sortedSecondary
      (selectBest ext blockHash (nMnCount / 10) sortedPrimary 0 0 none)
      ctx.nMasternodeMaturitySecondariesMaxCount vSecondaryMnInfoRet).map fun out =>
    { fResult := (selectBest ext blockHash (nMnCount / 10) sortedPrimary 0 0 none).isSome,
      nCountRet := nCountRet,
      mnInfoRet := selectBest ext blockHash (nMnCount / 10) sortedPrimary 0 0 none,
      vSecondaryMnInfoRet := out }

/-- The part of `GetNextMasternodesInQueueForPayment` after the two candidate
vectors are built and the deferral is decided: the two sorts, the block hash
at `nBlockHeight - (nCoinbaseMaturity + 1)`, the choice of the primary with
`nTenthNetwork = nMnCount / 10` and the copy of the secondaries. -/
def queueSelect (ext : External) (ctx : NodeContext) (nBlockHeight : Int) (nMnCount : Int)
    (vecMasternodeLastPaid vecMasternodeLastPaidSecondary : List (Int × CMasternode))
    (vSecondaryMnInfoRet : List CMasternode) : Option QueueResult :=
  match ext.GetBlockHash (nBlockHeight - (ctx.nCoinbaseMaturity + 1)) with
  | none =>
    some { fResult := false, nCountRet := (vecMasternodeLastPaid.length : Int),
           mnInfoRet := none, vSecondaryMnInfoRet := vSecondaryMnInfoRet }
  | some blockHash =>
    queueSelectWithHash ext ctx nMnCount blockHash (vecMasternodeLastPaid.length : Int)
      (stdSort CompareLastPaidBlock vecMasternodeLastPaid)
      (stdSort CompareLastPaidBlock vecMasternodeLastPaidSecondary) vSecondaryMnInfoRet

/-- The body of `GetNextMasternodesInQueueForPayment`; `retry` is the result of
the call of the function on itself with `fFilterSigTime = false`, which the
body returns in the deferral branch. -/
def queueBody (retry : Option QueueResult) (ext : External) (ctx : NodeContext)
    (payments : CMasternodePayments) (nBlockHeight : Int) (fFilterSigTime : Bool)
    (vSecondaryMnInfoRet : List CMasternode) : Option QueueResult :=
  if !ctx.fWinnersListSynced then
    some { fResult := false, nCountRet := 0, mnInfoRet := none,
           vSecondaryMnInfoRet := vSecondaryMnInfoRet }
  else
    let nMnCount := CountMasternodes ctx
    match primaryCandidates ext ctx payments nBlockHeight fFilterSigTime nMnCount
        ctx.mapMasternodes with
    | none => none
    | some vecMasternodeLastPaid =>
      match secondaryCandidates ext ctx fFilterSigTime nMnCount ctx.mapMasternodes with
      | none => none
      | some vecMasternodeLastPaidSecondary =>
        let nCountRet : Int := (vecMasternodeLastPaid.length : Int)
        if fFilterSigTime && decide (nCountRet < nMnCount / 3) then retry
        else
          queueSelect ext ctx nBlockHeight nMnCount vecMasternodeLastPaid
            vecMasternodeLastPaidSecondary vSecondaryMnInfoRet

/-- The method `CMasternodeMan::GetNextMasternodesInQueueForPayment(int, bool, ...)`.
The function calls itself in the deferral branch only, with
`fFilterSigTime = false`, and that call has no deferral branch: the recursion
is unfolded once. `vSecondaryMnInfoRet` is the vector as the caller passes it.
The result is `none` when the behaviour is undefined. -/
def GetNextMasternodesInQueueForPayment (ext : External) (ctx : NodeContext)
    (payments : CMasternodePayments) (nBlockHeight : Int) (fFilterSigTime : Bool)
    (vSecondaryMnInfoRet : List CMasternode) : Option QueueResult :=
  queueBody (queueBody none ext ctx payments nBlockHeight false vSecondaryMnInfoRet)
    ext ctx payments nBlockHeight fFilterSigTime vSecondaryMnInfoRet

/-- Masternode number `i` of the examples for the payee queue: enabled,
activated at height 1, last paid as primary at height `i` and as secondary at
height `100 - i`, with the operator key `[i]`. -/
def sampleQueueMn (i : Nat) : CMasternode :=
  { outpoint := { hash := i, n := 0 }, pubKeyCollateralAddress := [i], pubKeyMasternode := [i],
    activationBlockHeight := 1, nBlockLastPaidPrimary := i, nBlockLastPaidSecondary := 100 - i }

/-- A node whose registry holds the masternodes 1 to `k` of the examples, at adjusted time 100000. -/
def sampleQueueContext (k : Nat) : NodeContext :=
  { nAdjustedTime := 100000, mapMasternodes := (List.range k).map fun i => sampleQueueMn (i + 1) }

/-! ## The registry of masternodes -/

/-- The erasure `m.erase(k)` by key: no entry with the key is left. -/
def mapErase {κ ν : Type} [DecidableEq κ] (m : List (κ × ν)) (k : κ) : List (κ × ν) :=
  m.filter fun e => !decide (e.1 = k)

/-- The state of `CMasternodeMan` that the embedded methods write: the
registry `mapMasternodes` in iteration order, each entry stored under its own
`outpoint`; the map `mapSeenMasternodeBroadcast` from the hash of a broadcast
to the time it was seen and the broadcast; the map
`mWeAskedForMasternodeListEntry` from an outpoint to the peers asked for it
and until when; the flags `fMasternodesAdded` and `fMasternodesRemoved`; the
map `mapSeenMasternodeVerification` from the hash of a verification to the
verification; and the cached tip height `nCachedBlockHeight`. -/
structure CMasternodeMan where
  mapMasternodes : List CMasternode := []
  mapSeenMasternodeBroadcast : List (Nat × (Int × CMasternodeBroadcast)) := []
  mWeAskedForMasternodeListEntry : List (COutPoint × List (Nat × Int)) := []
  fMasternodesAdded : Bool := false
  fMasternodesRemoved : Bool := false
  mapSeenMasternodeVerification : List (Nat × CMasternodeVerification) := []
  nCachedBlockHeight : Int := 0
  deriving DecidableEq, Repr

/-- The method `CMasternodeMan::Find`: `mapMasternodes.find(outpoint)`, `none`
for the null pointer. -/
def CMasternodeMan.Find (self : CMasternodeMan) (outpoint : COutPoint) : Option CMasternode :=
  GetMasternodeInfo self.mapMasternodes outpoint

/-- The method `CMasternodeMan::Has`. -/
def CMasternodeMan.Has (self : CMasternodeMan) (outpoint : COutPoint) : Bool :=
  (GetMasternodeInfo self.mapMasternodes outpoint).isSome

/-- The assignment `mapMasternodes[mn.outpoint] = mn`: the entry under the
outpoint is replaced; when there is none the new entry takes its place in the
order of the keys, before the first entry with a greater outpoint. -/
def registryAssign (mapMasternodes : List CMasternode) (mn : CMasternode) : List CMasternode :=
  match mapMasternodes with
  | [] => [mn]
  | x :: rest =>
    if x.outpoint = mn.outpoint then mn :: rest
    else if mn.outpoint.lt x.outpoint then mn :: x :: rest
    else x :: registryAssign rest mn

/-- The method `CMasternodeMan::Add`: the returned flag, the argument `mn`
afterwards (it is passed by reference and its activation height is resolved
from the coin when it is zero) and the state afterwards. -/
def CMasternodeMan.Add (self : CMasternodeMan) (ext : External) (mn : CMasternode) :
    Bool × CMasternode × CMasternodeMan :=
  if self.Has mn.outpoint then (false, mn, self)
  else
    let mn1 : CMasternode :=
      if mn.activationBlockHeight = 0 then
        (ext.GetUTXOCoin mn.outpoint).elim mn fun nHeight =>
          { mn with activationBlockHeight := nHeight }
      else mn
    (true, mn1,
      { self with mapMasternodes := registryAssign self.mapMasternodes mn1,
                  fMasternodesAdded := true })

/-- Modelled from the spec: the inline method `CMasternode::IsOutpointSpent` of
the masternode header, which is not among the sources; the spec names the
state `OUTPOINT_SPENT`. -/
def CMasternode.IsOutpointSpent (mn : CMasternode) : Bool :=
  decide (mn.nActiveState = MasternodeState.OUTPOINT_SPENT)

/-- Modelled from the spec: the inline method `CMasternode::IsEnabled` of the
masternode header, which is not among the sources; the spec names the state `ENABLED`. -/
def CMasternode.IsEnabled (mn : CMasternode) : Bool :=
  decide (mn.nActiveState = MasternodeState.ENABLED)

/-- Modelled from the spec: the inline method `CMasternode::IsPreEnabled` of the
masternode header, which is not among the sources; the spec names the state
`PRE_ENABLED`. -/
def CMasternode.IsPreEnabled (mn : CMasternode) : Bool :=
  decide (mn.nActiveState = MasternodeState.PRE_ENABLED)

/-- The state that the loop over `mapMasternodes` in
`CMasternodeMan::CheckAndRemove` carries: the entries kept so far are returned
in `mapMasternodes`, the other fields are the members the loop writes. -/
structure RemovalState where
  mapMasternodes : List CMasternode
  mapSeenMasternodeBroadcast : List (Nat × (Int × CMasternodeBroadcast))
  mWeAskedForMasternodeListEntry : List (COutPoint × List (Nat × Int))
  fMasternodesRemoved : Bool
  deriving DecidableEq, Repr

/-- The loop `while (it != mapMasternodes.end())` of
`CMasternodeMan::CheckAndRemove` over the entries `todo` that are left to
visit. For an entry whose collateral was spent the seen-broadcast record under
the hash of the entry and the ask record under its outpoint are erased, the
entry is erased and the flag is set (`FlagGovernanceItemsAsDirty` writes
governance members only). The other branch asks peers for a
recovery of the entry; it writes `mMnbRecoveryRequests` and
`listScheduledMnbRequestConnections` only, which are not part of the state,
and keeps the entry. -/
def removeSpentLoop (ext : External) (todo : List CMasternode)
    (mapSeenMasternodeBroadcast : List (Nat × (Int × CMasternodeBroadcast)))
    (mWeAskedForMasternodeListEntry : List (COutPoint × List (Nat × Int)))
    (fMasternodesRemoved : Bool) : RemovalState :=
  match todo with
  | [] =>
    { mapMasternodes := [], mapSeenMasternodeBroadcast := mapSeenMasternodeBroadcast,
      mWeAskedForMasternodeListEntry := mWeAskedForMasternodeListEntry,
      fMasternodesRemoved := fMasternodesRemoved }
  | mn :: rest =>
    if mn.IsOutpointSpent then
      removeSpentLoop ext rest
        (mapErase mapSeenMasternodeBroadcast (ext.broadcastHash { toCMasternode := mn }))
        (mapErase mWeAskedForMasternodeListEntry mn.outpoint) true
    else
      let r := removeSpentLoop ext rest mapSeenMasternodeBroadcast
        mWeAskedForMasternodeListEntry fMasternodesRemoved
      { r with mapMasternodes := mn :: r.mapMasternodes }

/-- The removal pass of `CMasternodeMan::CheckAndRemove`: the method up to the
end of its loop over `mapMasternodes`, that is, the guard on the sync state of
the masternode list, the call `Check()`, which runs `CMasternode::Check` on
every entry, and the loop. The passes that follow in the method (the recovery
replies, the expiry of the request maps) are not part of this definition. -/
def CMasternodeMan.CheckAndRemove (self : CMasternodeMan) (ext : External)
    (ctx : NodeContext) : CMasternodeMan :=
  if !ctx.fMasternodeListSynced then self
  else
    let r := removeSpentLoop ext (self.mapMasternodes.map ext.CheckMasternode)
      self.mapSeenMasternodeBroadcast self.mWeAskedForMasternodeListEntry
      self.fMasternodesRemoved
    { self with mapMasternodes := r.mapMasternodes,
                mapSeenMasternodeBroadcast := r.mapSeenMasternodeBroadcast,
                mWeAskedForMasternodeListEntry := r.mWeAskedForMasternodeListEntry,
                fMasternodesRemoved := r.fMasternodesRemoved }

/-- The loop of `CMasternodePayments::CheckAndRemove` over the votes `todo` that
are left to visit: the votes kept and `mapMasternodeBlocksPrimary` afterwards.
The result is `none` when the subtraction
`nCachedBlockHeight - vote.nBlockHeight` leaves the range of `int`. -/
def checkAndRemoveLoop (nLimit nCachedBlockHeight : Int)
    (todo : List (VoteHash × CMasternodePaymentVote))
    (mapMasternodeBlocksPrimary : List (Int × CMasternodeBlockPayees)) :
    Option (List (VoteHash × CMasternodePaymentVote) × List (Int × CMasternodeBlockPayees)) :=
  match todo with
  | [] => some ([], mapMasternodeBlocksPrimary)
  | e :: rest =>
    if nCachedBlockHeight - e.2.nBlockHeight < -(2 ^ 31)
        ∨ nCachedBlockHeight - e.2.nBlockHeight ≥ 2 ^ 31 then none
    else if nCachedBlockHeight - e.2.nBlockHeight > nLimit then
      checkAndRemoveLoop nLimit nCachedBlockHeight rest
        (mapErase mapMasternodeBlocksPrimary e.2.nBlockHeight)
    else
      (checkAndRemoveLoop nLimit nCachedBlockHeight rest mapMasternodeBlocksPrimary).map
        fun r => (e :: r.1, r.2)

/-- The method `CMasternodePayments::CheckAndRemove`; `none` when the behaviour
is undefined. -/
def CMasternodePayments.CheckAndRemove (self : CMasternodePayments) (ext : External)
    (ctx : NodeContext) : Option CMasternodePayments :=
  if !ctx.fBlockchainSynced then some self
  else
    (checkAndRemoveLoop (self.GetStorageLimit ext ctx) self.nCachedBlockHeight
        self.mapMasternodePaymentVotesPrimary self.mapMasternodeBlocksPrimary).map fun r =>
      { self with mapMasternodePaymentVotesPrimary := r.1, mapMasternodeBlocksPrimary := r.2 }

/-- A registry of the examples: the masternodes 1, 2 and 4 of the payee queue. -/
def sampleMan : CMasternodeMan :=
  { mapMasternodes := [sampleQueueMn 1, sampleQueueMn 2, sampleQueueMn 4] }

/-- Masternode 2 of the examples with its collateral spent. -/
def sampleSpentMn : CMasternode :=
  { sampleQueueMn 2 with nActiveState := MasternodeState.OUTPOINT_SPENT }

/-- A registry of the examples with a spent entry: the masternodes 1, 2 (spent)
and 4, a seen-broadcast record for the masternodes 1 and 2 and an ask record
for masternode 2. -/
def sampleManSpent : CMasternodeMan :=
  { mapMasternodes := [sampleQueueMn 1, sampleSpentMn, sampleQueueMn 4],
    mapSeenMasternodeBroadcast :=
      [(1, (0, { toCMasternode := sampleQueueMn 1 })), (2, (0, { toCMasternode := sampleSpentMn }))],
    mWeAskedForMasternodeListEntry := [(sampleSpentMn.outpoint, [(9, 50)])] }

/-- A vote store of the examples at tip 200 with 50 blocks to store: a vote and
a tally for each of the heights 100 and 190. -/
def sampleVoteStore : CMasternodePayments :=
  { nCachedBlockHeight := 200, nMinBlocksToStore := 50,
    mapMasternodePaymentVotesPrimary :=
      [((sampleVote 100 [1]).GetHash, sampleVote 100 [1]),
       ((sampleVote 190 [1]).GetHash, sampleVote 190 [1])],
    mapMasternodeBlocksPrimary :=
      [(100, { nBlockHeight := 100, vecPayees := [] }),
       (190, { nBlockHeight := 190, vecPayees := [] })] }

/-- The comparator `CompareByAddr`: by the network address. -/
def CompareByAddr (t1 t2 : CMasternode) : Bool :=
  decide (t1.addr < t2.addr)

/-- The loop of `CMasternodeMan::CheckSameAddr` over the vector sorted by
address, with the locals `pprevMasternode` and `pverifiedMasternode` (`none`
for the null pointer) and the vector `vBan` collected so far. The pointers are
to registry entries, which the loop does not write; they are represented by
the entries. -/
def checkSameAddrLoop (ext : External) (vSortedByAddr : List CMasternode)
    (pprevMasternode pverifiedMasternode : Option CMasternode) (vBan : List CMasternode) :
    List CMasternode :=
  match vSortedByAddr with
  | [] => vBan
  | pmn :: rest =>
    if !pmn.IsEnabled && !pmn.IsPreEnabled then
      checkSameAddrLoop ext rest pprevMasternode pverifiedMasternode vBan
    else
      match pprevMasternode with
      | none =>
        checkSameAddrLoop ext rest (some pmn)
          (if ext.IsPoSeVerified pmn then some pmn else none) vBan
      | some prev =>
        if pmn.addr = prev.addr then
          if pverifiedMasternode.isSome then
            checkSameAddrLoop ext rest (some pmn) pverifiedMasternode (vBan ++ [pmn])
          else if ext.IsPoSeVerified pmn then
            checkSameAddrLoop ext rest (some pmn) (some pmn) (vBan ++ [prev])
          else checkSameAddrLoop ext rest (some pmn) pverifiedMasternode vBan
        else
          checkSameAddrLoop ext rest (some pmn)
            (if ext.IsPoSeVerified pmn then some pmn else none) vBan

/-- The last loop of `CMasternodeMan::CheckSameAddr`: `IncreasePoSeBanScore()`
on the registry entry that each pointer of `vBan` points to, which is the
entry under the outpoint of the pointee. -/
def banDuplicates (ext : External) (vBan : List CMasternode)
    (mapMasternodes : List CMasternode) : List CMasternode :=
  match vBan with
  | [] => mapMasternodes
  | pmn :: rest =>
    banDuplicates ext rest
      (mapMasternodes.map fun mn =>
        if mn.outpoint = pmn.outpoint then ext.IncreasePoSeBanScore mn else mn)

/-- The method `CMasternodeMan::CheckSameAddr`. The sort keeps the registry
order among entries with one address, which `std::sort` leaves open. -/
def CMasternodeMan.CheckSameAddr (self : CMasternodeMan) (ext : External) (ctx : NodeContext) :
    CMasternodeMan :=
  if !ctx.fSynced then self
  else if self.mapMasternodes.isEmpty then self
  else
    { self with
      mapMasternodes :=
        banDuplicates ext
          (checkSameAddrLoop ext (stdSort CompareByAddr self.mapMasternodes) none none [])
          self.mapMasternodes }

/-- Three enabled masternodes of the examples at the address 7: the
masternodes 1 and 2 with ban score 0, which are not verified, and masternode 3
with ban score -5, which is verified. -/
def sampleSameAddr : CMasternodeMan :=
  { mapMasternodes :=
      [{ sampleQueueMn 1 with addr := 7 }, { sampleQueueMn 2 with addr := 7 },
       { sampleQueueMn 3 with addr := 7, nPoSeBanScore := -5 }] }

/-- What `CMasternodeMan::CheckMnbAndUpdateMasternodeList` returns: the flag,
`nDos`, the broadcast passed to `Relay` if the call relays one, and the state
afterwards. -/
structure MnbOutcome where
  fResult : Bool
  nDos : Int
  relayed : Option CMasternodeBroadcast
  state : CMasternodeMan
  deriving DecidableEq, Repr

/-- The update of the registry entry that `Find(outpoint)` points to. -/
def registryReplace (mapMasternodes : List CMasternode) (outpoint : COutPoint)
    (mn : CMasternode) : List CMasternode :=
  match mapMasternodes with
  | [] => []
  | x :: rest =>
    if x.outpoint = outpoint then mn :: rest else x :: registryReplace rest outpoint mn

/-- The branch of `CheckMnbAndUpdateMasternodeList` for a broadcast that is not
in the seen map or is a recovery reply, after the broadcast was inserted in
the seen map and passed `SimpleCheck`: `self` is the state then, `hash` the
hash taken on entry, `mnb` and `nDos` are as `SimpleCheck` leaves them.
`mapSeenMasternodeBroadcast[k]` inserts the value-initialised record when the
key is absent. `Add(mnb)` copies the broadcast into the registry before
`mnb.nPoSeBanScore` is assigned; `mnb` is a parameter passed by value. -/
def checkMnbNew (self : CMasternodeMan) (ext : External) (ctx : NodeContext) (hash : Nat)
    (mnb : CMasternodeBroadcast) (nDos : Int) : MnbOutcome :=
  match self.Find mnb.outpoint with
  | some pmn =>
    let key := ext.broadcastHash { toCMasternode := pmn }
    let seen := mapEmplace self.mapSeenMasternodeBroadcast key ext.defaultSeenBroadcast
    let mnbOld := ((mapFind seen key).getD ext.defaultSeenBroadcast).2
    let up := ext.Update mnb pmn nDos
    let updated : CMasternodeMan :=
      { self with mapSeenMasternodeBroadcast := seen,
                  mapMasternodes := registryReplace self.mapMasternodes mnb.outpoint up.2.2 }
    if !up.1 then { fResult := false, nDos := up.2.1, relayed := none, state := updated }
    else if hash ≠ ext.broadcastHash mnbOld then
      { fResult := true, nDos := up.2.1, relayed := none,
        state := { updated with
          mapSeenMasternodeBroadcast := mapErase seen (ext.broadcastHash mnbOld) } }
    else { fResult := true, nDos := up.2.1, relayed := none, state := updated }
  | none =>
    let co := ext.CheckOutpoint mnb nDos
    if co.1 then
      let added := self.Add ext co.2.2.toCMasternode
      let mnb1 : CMasternodeBroadcast := { co.2.2 with toCMasternode := added.2.1 }
      if ctx.fMasternodeMode && decide (mnb1.pubKeyMasternode = ctx.activeMasternodePubKey) then
        let mnb2 : CMasternodeBroadcast :=
          { mnb1 with nPoSeBanScore := -ctx.nMasternodePoseBanMaxScore }
        if mnb2.nProtocolVersion = ctx.PROTOCOL_VERSION then
          { fResult := true, nDos := co.2.1, relayed := some mnb2,
            state := { added.2.2 with
              mapMasternodes := ext.ManageState added.2.2.mapMasternodes } }
        else { fResult := false, nDos := co.2.1, relayed := none, state := added.2.2 }
      else { fResult := true, nDos := co.2.1, relayed := some mnb1, state := added.2.2 }
    else { fResult := false, nDos := co.2.1, relayed := none, state := self }

/-- The method `CMasternodeMan::CheckMnbAndUpdateMasternodeList`. In the branch
for a broadcast that was seen, the part that answers a recovery request writes
`mMnbRecoveryRequests` and `mMnbRecoveryGoodReplies` only, which are not part
of the state. `GetTime()` is `ctx.nTime`. -/
def CMasternodeMan.CheckMnbAndUpdateMasternodeList (self : CMasternodeMan) (ext : External)
    (ctx : NodeContext) (mnb : CMasternodeBroadcast) : MnbOutcome :=
  let hash := ext.broadcastHash mnb
  if (mapFind self.mapSeenMasternodeBroadcast hash).isSome && !mnb.fRecovery then
    let seen := (mapFind self.mapSeenMasternodeBroadcast hash).getD ext.defaultSeenBroadcast
    if ctx.nTime - seen.1
        > ctx.nMasternodeNewStartRequiredSeconds - ctx.nMasternodeMinMnpSeconds * 2 then
      { fResult := true, nDos := 0, relayed := none,
        state := { self with
          mapSeenMasternodeBroadcast :=
            mapAssign self.mapSeenMasternodeBroadcast hash (ctx.nTime, seen.2) } }
    else { fResult := true, nDos := 0, relayed := none, state := self }
  else
    let inserted : CMasternodeMan :=
      { self with
        mapSeenMasternodeBroadcast :=
          mapEmplace self.mapSeenMasternodeBroadcast hash (ctx.nTime, mnb) }
    let sc := ext.SimpleCheck mnb 0
    if !sc.1 then { fResult := false, nDos := sc.2.1, relayed := none, state := inserted }
    else checkMnbNew inserted ext ctx hash sc.2.2 sc.2.1

/-- A broadcast of the examples for masternode 3 with the operator key `[3]`. -/
def sampleBroadcast : CMasternodeBroadcast :=
  { toCMasternode := sampleQueueMn 3 }

/-- A node of the examples in masternode mode whose active masternode key is `[3]`. -/
def sampleActiveContext : NodeContext :=
  { fMasternodeMode := true, activeMasternodePubKey := [3], nTime := 1000 }

/-! ## Block validation against payments and governance -/

/-- The function `EnforceMasternodePayments`. -/
def EnforceMasternodePayments (ext : External) (ctx : NodeContext) (nHeight : Int) : Bool :=
  match ext.GetLastCheckpoint with
  | none => false
  | some nCheckpointHeight =>
    decide (nHeight > nCheckpointHeight + ctx.MN_PAYMENTS_UPDATE_THRESHOLD)

/-- The function `IsBlockPayeeValid`; `vout` are the outputs of `txNew`,
`nMinMasternodeAmount` and `nMaxMasternodeAmount` the bounds that
`IsTransactionValid` computes. The result is `none` when the `assert` of
`IsTransactionValid` fails. -/
def IsBlockPayeeValid (payments : CMasternodePayments) (ext : External) (ctx : NodeContext)
    (vout : List CTxOut) (nBlockHeight blockReward : Int)
    (nMinMasternodeAmount nMaxMasternodeAmount : Int) : Option Bool :=
  if !ctx.fSynced || ctx.fLiteMode then some true
  else if ext.IsGovernanceBlockTriggered nBlockHeight then
    if ext.GovernanceBlockIsValid vout nBlockHeight blockReward then some true else some false
  else
    (payments.IsTransactionValid vout nBlockHeight nMinMasternodeAmount nMaxMasternodeAmount
        fun h => ext.GetMasternodePayments h (-h) blockReward).map fun fValid =>
      if fValid then true
      else if EnforceMasternodePayments ext ctx nBlockHeight then false
      else true

/-- The function `IsBlockValueValid`: the returned flag and `strErrorRet`.
`nValueOut` is the value of `block.vtx[0]->GetValueOut()`. -/
def IsBlockValueValid (ext : External) (ctx : NodeContext) (vout : List CTxOut)
    (nValueOut : Int) (nBlockHeight blockReward : Int) : Bool × String :=
  let isBlockRewardValueMet : Bool := decide (nValueOut ≤ blockReward)
  let nGovernanceBlockMaxValue := blockReward + ext.GetPaymentsLimit nBlockHeight
  let isGovernanceBlockMaxValueMet : Bool := decide (nValueOut ≤ nGovernanceBlockMaxValue)
  let strTooMuch : String :=
    "coinbase pays too much at height " ++ toString nBlockHeight ++ " (actual="
      ++ toString nValueOut ++ " vs limit="
  if !ctx.fSynced || ctx.fLiteMode then
    if ext.IsValidBlockHeight nBlockHeight then
      if !isGovernanceBlockMaxValueMet then
        (isGovernanceBlockMaxValueMet,
          strTooMuch ++ toString nGovernanceBlockMaxValue
            ++ "), exceeded governanceblock max value")
      else (isGovernanceBlockMaxValueMet, "")
    else if !isBlockRewardValueMet then
      (isBlockRewardValueMet,
        strTooMuch ++ toString blockReward
          ++ "), exceeded block reward, only regular blocks are allowed at this height")
    else (isBlockRewardValueMet, "")
  else if ext.IsGovernanceBlockTriggered nBlockHeight then
    if ext.GovernanceBlockIsValid vout nBlockHeight blockReward then (true, "")
    else (false, "invalid governanceblock detected at height " ++ toString nBlockHeight)
  else if !isBlockRewardValueMet then
    (isBlockRewardValueMet,
      strTooMuch ++ toString blockReward
        ++ "), exceeded block reward, no triggered governanceblock detected")
  else (isBlockRewardValueMet, "")

/-- The payments state of the examples with a tally for height 110 in which the
payee of A has six votes. -/
def sampleTallyPayments : CMasternodePayments :=
  { nCachedBlockHeight := 200, nMinBlocksToStore := 50,
    mapMasternodeBlocksPrimary :=
      [(110, { nBlockHeight := 110,
               vecPayees := [{ scriptPubKey := [0, 1], vecVoteHashes := sampleVotes [0, 1] 110 6 }] })] }

/-! ## The daemon-version warning -/

/-- The loop of `WarnMasternodeDaemonUpdates`: the number of entries whose last
ping carries a daemon version above `CLIENT_VERSION`, added to `nUpdatedMasternodes`. -/
def countUpdatedMasternodes (ctx : NodeContext) (mapMasternodes : List CMasternode)
    (nUpdatedMasternodes : Int) : Int :=
  match mapMasternodes with
  | [] => nUpdatedMasternodes
  | mn :: rest =>
    if mn.lastPingDaemonVersion > ctx.CLIENT_VERSION then
      countUpdatedMasternodes ctx rest (nUpdatedMasternodes + 1)
    else countUpdatedMasternodes ctx rest nUpdatedMasternodes

/-- The method `CMasternodeMan::WarnMasternodeDaemonUpdates`: the warning passed
to `SetMiscWarning`, if any, and the static flag `fWarned` afterwards. `size()`
is the number of registry entries as an `int`. -/
def CMasternodeMan.WarnMasternodeDaemonUpdates (self : CMasternodeMan) (ctx : NodeContext)
    (fWarned : Bool) : Option String × Bool :=
  let size : Int := (self.mapMasternodes.length : Int)
  if fWarned then (none, fWarned)
  else if size = 0 then (none, fWarned)
  else if !ctx.fMasternodeListSynced then (none, fWarned)
  else
    let nUpdatedMasternodes := countUpdatedMasternodes ctx self.mapMasternodes 0
    if nUpdatedMasternodes < size / 2 then (none, fWarned)
    else if nUpdatedMasternodes ≠ size then
      (some ("Warning: At least " ++ toString nUpdatedMasternodes ++ " of " ++ toString size
        ++ " masternodes are running on a newer software version. "
        ++ "Please check latest releases, you might need to update too."), true)
    else
      (some ("Warning: Every masternode (out of " ++ toString size
        ++ " known ones) is running on a newer software version. "
        ++ "Please check latest releases, it's very likely that you missed a "
        ++ "major/critical update."), true)

/-! ## Filling the block with the masternode payments -/

/-- What `FillBlockPayees` leaves: the outputs `txNew.vout` and the vector
`vtxoutMasternodeRet`. -/
structure FillResult where
  txNewVout : List CTxOut
  vtxoutMasternodeRet : List CTxOut
  deriving DecidableEq, Repr

/-- The last loop of `FillBlockPayees`: one output for each secondary payee,
the change added to the amount while `changeApplied` is false. -/
def secondaryOutputs (secondaryPayees : List CScript)
    (secondaryItemPayment secondariesPaymentChange : Int) (changeApplied : Bool) : List CTxOut :=
  match secondaryPayees with
  | [] => []
  | payee :: rest =>
    { nValue := if !changeApplied then secondaryItemPayment + secondariesPaymentChange
                else secondaryItemPayment,
      scriptPubKey := payee }
      :: secondaryOutputs rest secondaryItemPayment secondariesPaymentChange true

/-- The part of `FillBlockPayees` from "Populate the secondary payees" on. The
operators `%` and `/` of `CAmount` truncate towards zero. -/
def fillSecondaries (ext : External) (txNewVout vtxoutMasternodeRet : List CTxOut)
    (secondaryPaymentTotal : Int) (secondaryMnInfoRet : List CMasternode) : FillResult :=
  if (secondaryMnInfoRet.length : Int) > 0 then
    let secondaryPayees :=
      secondaryMnInfoRet.map fun mn => ext.collateralScript mn.pubKeyCollateralAddress
    let secondariesCount : Int := (secondaryPayees.length : Int)
    if secondariesCount > 0 then
      let secondariesPaymentChange := Int.tmod secondaryPaymentTotal secondariesCount
      let secondaryItemPayment :=
        Int.tdiv (secondaryPaymentTotal - secondariesPaymentChange) secondariesCount
      let outs :=
        secondaryOutputs secondaryPayees secondaryItemPayment secondariesPaymentChange false
      { txNewVout := txNewVout ++ outs, vtxoutMasternodeRet := vtxoutMasternodeRet ++ outs }
    else { txNewVout := txNewVout, vtxoutMasternodeRet := vtxoutMasternodeRet }
  else { txNewVout := txNewVout, vtxoutMasternodeRet := vtxoutMasternodeRet }

/-- The part of `FillBlockPayees` from the check of the activation height on:
`payee` is the primary payee, `primaryPayeeActivationHeight` the local of this
name, `none` while nothing was assigned to it (it is declared without an
initial value, and reading it then is undefined), and `secondaryMnInfoRet` the
vector as the first part leaves it. -/
def fillWithPrimary (payments : CMasternodePayments) (ext : External) (ctx : NodeContext)
    (txNewVout : List CTxOut) (nBlockHeight blockReward : Int) (payee : CScript)
    (primaryPayeeActivationHeight : Option Int) (secondaryMnInfoRet : List CMasternode) :
    Option FillResult :=
  primaryPayeeActivationHeight.bind fun nHeight =>
    let nActivationHeight :=
      if nHeight = 0 then GetNodeActivationHeight ext ctx.mapMasternodes payee else nHeight
    let primaryMasternodePayment :=
      ext.GetMasternodePayments nBlockHeight nActivationHeight blockReward
    let secondaryPaymentTotal :=
      ctx.nBlockRewardMasternode * ctx.COIN - primaryMasternodePayment
    let masternodePaymentTx : CTxOut := { nValue := primaryMasternodePayment, scriptPubKey := payee }
    if (secondaryMnInfoRet.length : Int) = 0 then
      (GetNextMasternodesInQueueForPayment ext ctx payments nBlockHeight true
          secondaryMnInfoRet).map fun q =>
        if !q.fResult then
          { txNewVout := txNewVout ++ [masternodePaymentTx],
            vtxoutMasternodeRet := [masternodePaymentTx] }
        else
          fillSecondaries ext (txNewVout ++ [masternodePaymentTx]) [masternodePaymentTx]
            secondaryPaymentTotal q.vSecondaryMnInfoRet
    else
      some (fillSecondaries ext (txNewVout ++ [masternodePaymentTx]) [masternodePaymentTx]
        secondaryPaymentTotal secondaryMnInfoRet)

/-- The first part of `FillBlockPayees` when `GetBlockPayees` returned false:
the call of `GetNextMasternodesInQueueForPayment`, whose flag is the validity of
the info it returns, and the payee and activation height taken from that info. -/
def fillFromQueue (payments : CMasternodePayments) (ext : External) (ctx : NodeContext)
    (txNewVout : List CTxOut) (nBlockHeight blockReward : Int) (q : QueueResult) :
    Option FillResult :=
  match q.mnInfoRet with
  | none => some { txNewVout := txNewVout, vtxoutMasternodeRet := [] }
  | some mnInfo =>
    fillWithPrimary payments ext ctx txNewVout nBlockHeight blockReward
      (ext.collateralScript mnInfo.pubKeyCollateralAddress)
      (if mnInfo.activationBlockHeight ≠ 0 then some mnInfo.activationBlockHeight else none)
      q.vSecondaryMnInfoRet

/-- The method `CMasternodePayments::FillBlockPayees`; `txNewVout` are the
outputs of `txNew` at the call. `GetBlockPayees` returns true only after it
assigned the activation height and returns false only with its out-parameters
untouched. The result is `none` when the behaviour is undefined. -/
def CMasternodePayments.FillBlockPayees (self : CMasternodePayments) (ext : External)
    (ctx : NodeContext) (txNewVout : List CTxOut) (nBlockHeight blockReward : Int) :
    Option FillResult :=
  (self.GetBlockPayees ext ctx.mapMasternodes nBlockHeight [] 0).bind fun gb =>
    if gb.1 then
      fillWithPrimary self ext ctx txNewVout nBlockHeight blockReward gb.2.1 (some gb.2.2) []
    else
      (GetNextMasternodesInQueueForPayment ext ctx self nBlockHeight true []).bind fun q =>
        fillFromQueue self ext ctx txNewVout nBlockHeight blockReward q

/-! ## Verification broadcasts -/

/-- Modelled from the spec: the constant `MAX_POSE_RANK` of the manager header,
which is not among the sources; the spec gives 10. -/
def MAX_POSE_RANK : Int := 10

/-- Modelled from the spec: the constant `MAX_POSE_BLOCKS` of the manager
header, which is not among the sources; the spec gives 576. -/
def MAX_POSE_BLOCKS : Int := 576

/-- What `ProcessVerifyBroadcast` leaves: the state, the score passed to
`Misbehaving` for the peer (0 when it is not called) and whether the
verification was relayed. -/
structure VerifyOutcome where
  state : CMasternodeMan
  nMisbehaving : Int
  fRelayed : Bool
  deriving DecidableEq, Repr

/-- The signature checks of `ProcessVerifyBroadcast`: in the hash format above
`nMasternodeSignHashThreshold`, in the legacy format otherwise; the second
signature is checked only when the first verifies. -/
def verifySignatures (ext : External) (ctx : NodeContext) (mnv : CMasternodeVerification)
    (blockHash : Nat) (pmn1 pmn2 : CMasternode) : Bool :=
  if ctx.chainActiveHeight > ctx.nMasternodeSignHashThreshold then
    ext.VerifyVerificationHash1 mnv blockHash pmn1.pubKeyMasternode
      && ext.VerifyVerificationHash2 mnv blockHash pmn2.pubKeyMasternode
  else
    ext.VerifyVerificationMessage1 mnv blockHash pmn1.pubKeyMasternode
      && ext.VerifyVerificationMessage2 mnv blockHash pmn2.pubKeyMasternode

/-- The call `pmn1->DecreasePoSeBanScore()` on the registry given with its
keys: the entry under the key `masternodeOutpoint1` is the one `Find` points to. -/
def decreaseTarget (ext : External) (outpoint : COutPoint)
    (keyed : List (COutPoint × CMasternode)) : List (COutPoint × CMasternode) :=
  match keyed with
  | [] => []
  | e :: rest =>
    if e.1 = outpoint then (e.1, ext.DecreasePoSeBanScore e.2) :: rest
    else e :: decreaseTarget ext outpoint rest

/-- The last loop of `ProcessVerifyBroadcast` over the registry given with its
keys: `IncreasePoSeBanScore()` on every entry with the address verified whose
key is not `masternodeOutpoint1`. -/
def increaseOthers (ext : External) (mnv : CMasternodeVerification)
    (keyed : List (COutPoint × CMasternode)) : List (COutPoint × CMasternode) :=
  keyed.map fun mnpair =>
    if mnpair.2.addr ≠ mnv.addr then mnpair
    else if mnpair.1 = mnv.masternodeOutpoint1 then mnpair
    else (mnpair.1, ext.IncreasePoSeBanScore mnpair.2)

/-- The part of `ProcessVerifyBroadcast` under the lock `cs`, after the rank of
the witness was found in range; `self` is the state with the verification
recorded as seen. -/
def verifyBroadcastLocked (self : CMasternodeMan) (ext : External) (ctx : NodeContext)
    (mnv : CMasternodeVerification) (blockHash : Nat) : VerifyOutcome :=
  match self.Find mnv.masternodeOutpoint1 with
  | none => { state := self, nMisbehaving := 0, fRelayed := false }
  | some pmn1 =>
    match self.Find mnv.masternodeOutpoint2 with
    | none => { state := self, nMisbehaving := 0, fRelayed := false }
    | some pmn2 =>
      if pmn1.addr ≠ mnv.addr then { state := self, nMisbehaving := 0, fRelayed := false }
      else if !verifySignatures ext ctx mnv blockHash pmn1 pmn2 then
        { state := self, nMisbehaving := 0, fRelayed := false }
      else
        let keyed := self.mapMasternodes.map fun mn => (mn.outpoint, mn)
        let keyed1 :=
          if !ext.IsPoSeVerified pmn1 then decreaseTarget ext mnv.masternodeOutpoint1 keyed
          else keyed
        { state := { self with
            mapMasternodes := (increaseOthers ext mnv keyed1).map fun mnpair => mnpair.2 },
          nMisbehaving := 0, fRelayed := true }

/-- The method `CMasternodeMan::ProcessVerifyBroadcast`. -/
def CMasternodeMan.ProcessVerifyBroadcast (self : CMasternodeMan) (ext : External)
    (ctx : NodeContext) (mnv : CMasternodeVerification) : VerifyOutcome :=
  if (mapFind self.mapSeenMasternodeVerification (ext.verificationHash mnv)).isSome then
    { state := self, nMisbehaving := 0, fRelayed := false }
  else
    let seen : CMasternodeMan :=
      { self with
        mapSeenMasternodeVerification :=
          mapAssign self.mapSeenMasternodeVerification (ext.verificationHash mnv) mnv }
    if mnv.nBlockHeight < self.nCachedBlockHeight - MAX_POSE_BLOCKS then
      { state := seen, nMisbehaving := 0, fRelayed := false }
    else if mnv.masternodeOutpoint1 = mnv.masternodeOutpoint2 then
      { state := seen, nMisbehaving := 100, fRelayed := false }
    else
      match ext.GetBlockHash mnv.nBlockHeight with
      | none => { state := seen, nMisbehaving := 0, fRelayed := false }
      | some blockHash =>
        let rank := GetMasternodeRank ext ctx.fMasternodeListSynced self.mapMasternodes
          mnv.masternodeOutpoint2 mnv.nBlockHeight ctx.MIN_POSE_PROTO_VERSION
        if !rank.1 then { state := seen, nMisbehaving := 0, fRelayed := false }
        else if rank.2 > MAX_POSE_RANK then
          { state := seen, nMisbehaving := 0, fRelayed := false }
        else verifyBroadcastLocked seen ext ctx mnv blockHash

/-- A registry of the examples at the address 7: the masternodes 1, 2 and 3
with the address 7 and masternode 4 with the address 8. -/
def sampleVerifyMan : CMasternodeMan :=
  { mapMasternodes :=
      [{ sampleQueueMn 1 with addr := 7 }, { sampleQueueMn 2 with addr := 7 },
       { sampleQueueMn 3 with addr := 7 }, { sampleQueueMn 4 with addr := 8 }],
    nCachedBlockHeight := 200 }

/-- A verification of the examples: masternode 1 at the address 7, witnessed by
masternode 4 at height 150, with the signatures `[1]` and `[4]`. -/
def sampleVerification : CMasternodeVerification :=
  { masternodeOutpoint1 := (sampleQueueMn 1).outpoint,
    masternodeOutpoint2 := (sampleQueueMn 4).outpoint,
    addr := 7, nonce := 5, nBlockHeight := 150, vchSig1 := [1], vchSig2 := [4] }

/-! ## The scan of the chain for the last payments -/

/-- The type `CBlockIndex`, restricted to the fields that `UpdateLastPaidGlobal`
reads: the height, the time and the position `GetBlockPos()` of the block on
disk, `none` for a position that `IsNull()`. The predecessor `pprev` is the next
entry of the chain, which is given from the tip backwards. -/
structure CBlockIndex where
  nHeight : Int
  nTime : Int := 0
  blockPos : Option Nat := none
  deriving DecidableEq, Repr

/-- The map `localNodeMap` that `UpdateLastPaidGlobal` builds from the registry:
collateral script to a copy of the entry, later entries replacing earlier ones. -/
def buildLocalNodeMap (ext : External) (mapMasternodes : List CMasternode)
    (localNodeMap : List (CScript × CMasternode)) : List (CScript × CMasternode) :=
  match mapMasternodes with
  | [] => localNodeMap
  | mn :: rest =>
    buildLocalNodeMap ext rest
      (mapAssign localNodeMap (ext.collateralScript mn.pubKeyCollateralAddress) mn)

/-- The write through `mapMasternodes.find(outpoint)`: the entry found is
replaced by its image under `f`; nothing happens when there is none. -/
def registryModify (mapMasternodes : List CMasternode) (outpoint : COutPoint)
    (f : CMasternode → CMasternode) : List CMasternode :=
  match mapMasternodes with
  | [] => []
  | x :: rest =>
    if x.outpoint = outpoint then f x :: rest else x :: registryModify rest outpoint f

/-- The state that the loops of `UpdateLastPaidGlobal` write: `localNodeMap`
and the registry. -/
structure LastPaidState where
  localNodeMap : List (CScript × CMasternode)
  mapMasternodes : List CMasternode
  deriving DecidableEq, Repr

/-- The body of the loop of `UpdateLastPaidGlobal` over the outputs of a
coinbase, for the output `txout` at the position `positionTracker` (after the
increment); `nHeight` and `nTime` are those of `pindexActive`. -/
def lastPaidOutput (ctx : NodeContext) (nHeight nTime : Int) (positionTracker : Int)
    (txout : CTxOut) (st : LastPaidState) : LastPaidState :=
  if positionTracker < 6 then st
  else
    match mapFind st.localNodeMap txout.scriptPubKey with
    | none => st
    | some node =>
      if positionTracker = 6 then
        if node.nBlockLastPaidPrimary < nHeight then
          { localNodeMap := mapAssign st.localNodeMap txout.scriptPubKey
              { node with nBlockLastPaidPrimary := nHeight, nTimeLastPaidPrimary := nTime },
            mapMasternodes := registryModify st.mapMasternodes node.outpoint fun mn =>
              { mn with nBlockLastPaidPrimary := nHeight, nTimeLastPaidPrimary := nTime } }
        else st
      else if positionTracker > 6
          ∧ positionTracker < 6 + ctx.nMasternodeMaturitySecondariesMaxCount + 1 then
        if node.nBlockLastPaidSecondary < nHeight then
          { localNodeMap := mapAssign st.localNodeMap txout.scriptPubKey
              { node with nBlockLastPaidSecondary := nHeight, nTimeLastPaidSecondary := nTime },
            mapMasternodes := registryModify st.mapMasternodes node.outpoint fun mn =>
              { mn with nBlockLastPaidSecondary := nHeight, nTimeLastPaidSecondary := nTime } }
        else st
      else st

/-- The loop of `UpdateLastPaidGlobal` over the outputs of a coinbase;
`positionTracker` is the value before the increment for the first output. -/
def lastPaidOutputs (ctx : NodeContext) (nHeight nTime : Int) (positionTracker : Int)
    (vout : List CTxOut) (st : LastPaidState) : LastPaidState :=
  match vout with
  | [] => st
  | txout :: rest =>
    lastPaidOutputs ctx nHeight nTime (positionTracker + 1) rest
      (lastPaidOutput ctx nHeight nTime (positionTracker + 1) txout st)

/-- The loop `for (int i = 0; i < nMaxBlocksToScanBack; i++)` of
`UpdateLastPaidGlobal` with `k` iterations left: `pindexActive` is the index
the iteration looks at and `pprev` the chain before it; `blockPos` is the
position that the function takes from the tip before the loop and reads in
every iteration. A `continue` leaves `pindexActive` where it is. -/
def lastPaidLoop (ext : External) (ctx : NodeContext) (payments : CMasternodePayments)
    (blockPos : Option Nat) (k : Nat) (pindexActive : CBlockIndex) (pprev : List CBlockIndex)
    (st : LastPaidState) : LastPaidState :=
  match k with
  | 0 => st
  | k + 1 =>
    let checkitOut : Bool :=
      (mapFind payments.mapMasternodeBlocksPrimary pindexActive.nHeight).isSome
    let mnCount := CountMasternodes { ctx with mapMasternodes := st.mapMasternodes }
    let goBack (st1 : LastPaidState) : LastPaidState :=
      match pprev with
      | [] => st1
      | prev :: before => lastPaidLoop ext ctx payments blockPos k prev before st1
    if (decide (mnCount > 2) && checkitOut) || decide (mnCount ≤ 2) then
      match blockPos with
      | none => st
      | some pos =>
        match ext.ReadBlockFromDisk pos with
        | none => lastPaidLoop ext ctx payments blockPos k pindexActive pprev st
        | some vout =>
          if vout.length < 7 then lastPaidLoop ext ctx payments blockPos k pindexActive pprev st
          else
            goBack (lastPaidOutputs ctx pindexActive.nHeight pindexActive.nTime (-1) vout st)
    else goBack st

/-- The method `CMasternodeMan::UpdateLastPaidGlobal`; `chainActive` is the
active chain from the tip backwards and `fIndex` tells whether `pindex` is not
null. The result is `none` when `assert(pindexActive)` fails for a chain
without a tip. -/
def CMasternodeMan.UpdateLastPaidGlobal (self : CMasternodeMan) (ext : External)
    (ctx : NodeContext) (payments : CMasternodePayments) (chainActive : List CBlockIndex)
    (fIndex : Bool) (nMaxBlocksToScanBack : Int) : Option CMasternodeMan :=
  if !fIndex then some self
  else
    match chainActive with
    | [] => none
    | tip :: pprev =>
      some { self with
        mapMasternodes :=
          (lastPaidLoop ext ctx payments tip.blockPos nMaxBlocksToScanBack.toNat tip pprev
            { localNodeMap := buildLocalNodeMap ext self.mapMasternodes [],
              mapMasternodes := self.mapMasternodes }).mapMasternodes }

/-- A chain of the examples: the tip at height 100, whose block is at the
position 1, and its predecessor at height 99, whose block is at the position 2. -/
def sampleChain : List CBlockIndex :=
  [{ nHeight := 100, nTime := 1000, blockPos := some 1 },
   { nHeight := 99, nTime := 990, blockPos := some 2 }]

/-- A payments state of the examples with a tally for height 99 and none for
height 100. -/
def sampleScanPayments : CMasternodePayments :=
  { nCachedBlockHeight := 100,
    mapMasternodeBlocksPrimary := [(99, { nBlockHeight := 99, vecPayees := [] })] }

/-- A registry of the examples: the masternodes 1, 2 and 3 of the payee queue. -/
def sampleScanMan : CMasternodeMan :=
  { mapMasternodes := [sampleQueueMn 1, sampleQueueMn 2, sampleQueueMn 3] }

/-- One message handled by the vote branch of `ProcessMessage`: the
collaborators and the node as they are when the message arrives, the version
of the peer (`pfrom->nVersion`) and the vote read from the stream. -/
structure VoteMessage where
  ext : External
  ctx : NodeContext
  nPeerVersion : Int
  vote : CMasternodePaymentVote

/-- The state after the vote branch of `ProcessMessage` has handled the
messages of a sequence one after another, each from the state that the one
before left. -/
def processVotes (s : CMasternodePayments) : List VoteMessage → CMasternodePayments
  | [] => s
  | m :: rest =>
    processVotes (s.ProcessMessage m.ext m.ctx m.nPeerVersion m.vote).payments rest

/-- The node of the examples with the masternodes A and B in the registry. -/
def sampleContextAB : NodeContext :=
  { sampleContext with mapMasternodes := [sampleMnA, sampleMnB] }

/-- A vote of B, signed, for a height and a payee. -/
def sampleVoteB (nBlockHeight : Int) (payee : CScript) : CMasternodePaymentVote :=
  { masternodeOutpoint := sampleMnB.outpoint, nBlockHeight := nBlockHeight, payee := payee,
    vchSig := [12] }

/-- A vote as a message of the examples: received by the node with A and B in
the registry from a peer of version 0. -/
def sampleMessage (vote : CMasternodePaymentVote) : VoteMessage :=
  { ext := sampleExternal, ctx := sampleContextAB, nPeerVersion := 0, vote := vote }

/-- Masternode A of the examples after its collateral was spent. -/
def sampleSpentA : CMasternode :=
  { sampleMnA with nActiveState := MasternodeState.OUTPOINT_SPENT }

/-! ## Theorems -/

theorem maxSignatures_ge (l : List CMasternodePayee) (m : Int) :
    m ≤ maxSignatures l m ∧ ∀ p ∈ l, p.GetVoteCount ≤ maxSignatures l m := by
  induction l generalizing m with
  | nil => simp [maxSignatures]
  | cons a t ih =>
    unfold maxSignatures
    split
    · obtain ⟨h1, h2⟩ := ih a.GetVoteCount
      refine ⟨by omega, ?_⟩
      intro p hp
      rcases List.mem_cons.mp hp with rfl | hp
      · exact h1
      · exact h2 p hp
    · obtain ⟨h1, h2⟩ := ih m
      refine ⟨h1, ?_⟩
      intro p hp
      rcases List.mem_cons.mp hp with rfl | hp
      · omega
      · exact h2 p hp

theorem maxSignatures_lt (l : List CMasternodePayee) (m b : Int) (hm : m < b)
    (h : ∀ p ∈ l, p.GetVoteCount < b) : maxSignatures l m < b := by
  induction l generalizing m with
  | nil => simpa [maxSignatures] using hm
  | cons a t ih =>
    unfold maxSignatures
    split
    · exact ih _ (h a (List.mem_cons_self _ _)) (fun p hp => h p (List.mem_cons_of_mem _ hp))
    · exact ih _ hm (fun p hp => h p (List.mem_cons_of_mem _ hp))

theorem findRequiredPayment_iff (payee : CMasternodePayee) (vout : List CTxOut) (lo hi : Int) :
    findRequiredPayment payee vout lo hi = true ↔
      ∃ txout ∈ vout, txout.scriptPubKey = payee.scriptPubKey ∧
        lo ≤ txout.nValue ∧ txout.nValue ≤ hi := by
  induction vout with
  | nil => simp [findRequiredPayment]
  | cons a t ih =>
    unfold findRequiredPayment
    simp only [CMasternodePayee.GetPayee, List.mem_cons, exists_eq_or_imp]
    by_cases hc : (decide (payee.scriptPubKey = a.scriptPubKey) && decide (a.nValue ≥ lo)
        && decide (a.nValue ≤ hi)) = true
    · rw [if_pos hc]
      simp only [Bool.and_eq_true, decide_eq_true_eq] at hc
      simp only [true_iff]
      exact Or.inl ⟨hc.1.1.symm, hc.1.2, hc.2⟩
    · rw [if_neg hc, ih]
      simp only [Bool.and_eq_true, decide_eq_true_eq] at hc
      constructor
      · exact fun h => Or.inr h
      · rintro (⟨h1, h2, h3⟩ | h)
        · exact absurd ⟨⟨h1.symm, h2⟩, h3⟩ hc
        · exact h

theorem checkPayees_iff (l : List CMasternodePayee) (vout : List CTxOut) (lo hi : Int) :
    checkPayees l vout lo hi = true ↔
      ∃ p ∈ l, MNPAYMENTS_SIGNATURES_REQUIRED ≤ p.GetVoteCount ∧
        ∃ txout ∈ vout, txout.scriptPubKey = p.scriptPubKey ∧
          lo ≤ txout.nValue ∧ txout.nValue ≤ hi := by
  induction l with
  | nil => simp [checkPayees]
  | cons a t ih =>
    unfold checkPayees
    simp only [List.mem_cons, exists_eq_or_imp]
    by_cases hv : a.GetVoteCount ≥ MNPAYMENTS_SIGNATURES_REQUIRED
    · rw [if_pos hv]
      by_cases hf : findRequiredPayment a vout lo hi = true
      · rw [if_pos hf]
        simp only [true_iff]
        exact Or.inl ⟨hv, (findRequiredPayment_iff a vout lo hi).mp hf⟩
      · rw [if_neg hf, ih]
        constructor
        · exact fun h => Or.inr h
        · rintro (⟨_, h⟩ | h)
          · exact absurd ((findRequiredPayment_iff a vout lo hi).mpr h) hf
          · exact h
    · rw [if_neg hv, ih]
      constructor
      · exact fun h => Or.inr h
      · rintro (⟨h, _⟩ | h)
        · exact absurd h hv
        · exact h

/-- C1: when some payee of the tally has at least `MNPAYMENTS_SIGNATURES_REQUIRED`
votes and the sanity assertion on the maximum amount holds,
`CMasternodeBlockPayees::IsTransactionValid` returns true exactly when some
output of the coinbase carries the script of a payee with at least
`MNPAYMENTS_SIGNATURES_REQUIRED` votes and an amount between the minimum
secondary amount and the maximum masternode amount, and returns false otherwise. -/
theorem C1_block_payees_transaction_valid (self : CMasternodeBlockPayees)
    (vout : List CTxOut) (nMinMasternodeAmount nMaxMasternodeAmount : Int)
    (nMasternodeCalculatedPayment : Int)
    (hassert : nMaxMasternodeAmount = nMasternodeCalculatedPayment)
    (hvotes : ∃ p ∈ self.vecPayees, MNPAYMENTS_SIGNATURES_REQUIRED ≤ p.GetVoteCount) :
    (self.IsTransactionValid vout nMinMasternodeAmount nMaxMasternodeAmount
        nMasternodeCalculatedPayment = some true ↔
      ∃ p ∈ self.vecPayees, MNPAYMENTS_SIGNATURES_REQUIRED ≤ p.GetVoteCount ∧
        ∃ txout ∈ vout, txout.scriptPubKey = p.scriptPubKey ∧
          nMinMasternodeAmount ≤ txout.nValue ∧ txout.nValue ≤ nMaxMasternodeAmount) ∧
    (self.IsTransactionValid vout nMinMasternodeAmount nMaxMasternodeAmount
        nMasternodeCalculatedPayment = some false ↔
      ¬ ∃ p ∈ self.vecPayees, MNPAYMENTS_SIGNATURES_REQUIRED ≤ p.GetVoteCount ∧
        ∃ txout ∈ vout, txout.scriptPubKey = p.scriptPubKey ∧
          nMinMasternodeAmount ≤ txout.nValue ∧ txout.nValue ≤ nMaxMasternodeAmount) := by
  obtain ⟨p, hp, hpv⟩ := hvotes
  have hmax : ¬ maxSignatures self.vecPayees 0 < MNPAYMENTS_SIGNATURES_REQUIRED := by
    have := (maxSignatures_ge self.vecPayees 0).2 p hp
    omega
  have hres : self.IsTransactionValid vout nMinMasternodeAmount nMaxMasternodeAmount
      nMasternodeCalculatedPayment
      = some (checkPayees self.vecPayees vout nMinMasternodeAmount nMaxMasternodeAmount) := by
    unfold CMasternodeBlockPayees.IsTransactionValid
    rw [if_pos hassert]
    simp only [if_neg hmax]
  rw [hres, ← checkPayees_iff]
  constructor
  · simp
  · simp

/-- Example for C1: one payee with six votes, paid 5 by the second output. -/
theorem C1_block_payees_transaction_valid_witness :
    CMasternodeBlockPayees.IsTransactionValid
      { nBlockHeight := 110,
        vecPayees := [{ scriptPubKey := [7],
                        vecVoteHashes := List.replicate 6
                          { payee := [7], nBlockHeight := 110,
                            masternodeOutpoint := { hash := 1, n := 0 } } }] }
      [{ nValue := 50, scriptPubKey := [1] }, { nValue := 5, scriptPubKey := [7] }]
      1 10 10 = some true := by
  refine (C1_block_payees_transaction_valid _ _ 1 10 10 rfl ?_).1.mpr ?_
  · exact ⟨_, List.mem_singleton.mpr rfl, by decide⟩
  · exact ⟨_, List.mem_singleton.mpr rfl, by decide,
      { nValue := 5, scriptPubKey := [7] }, by simp, rfl, by decide, by decide⟩

/-- C2: when the map of tallies has no entry for the height, or the entry has
no payee with at least `MNPAYMENTS_SIGNATURES_REQUIRED` votes (the sanity
assertion on the maximum amount, which is evaluated once an entry exists,
holding), `CMasternodePayments::IsTransactionValid` accepts the transaction
whatever its outputs are. -/
theorem C2_insufficient_votes_accept (self : CMasternodePayments)
    (vout : List CTxOut) (nBlockHeight : Int)
    (nMinMasternodeAmount nMaxMasternodeAmount : Int) (calculatedPayment : Int → Int)
    (h : mapFind self.mapMasternodeBlocksPrimary nBlockHeight = none ∨
      ∃ payees, mapFind self.mapMasternodeBlocksPrimary nBlockHeight = some payees ∧
        nMaxMasternodeAmount = calculatedPayment nBlockHeight ∧
        ∀ p ∈ payees.vecPayees, p.GetVoteCount < MNPAYMENTS_SIGNATURES_REQUIRED) :
    self.IsTransactionValid vout nBlockHeight
      nMinMasternodeAmount nMaxMasternodeAmount calculatedPayment = some true := by
  rcases h with h | ⟨payees, h, hassert, hlt⟩
  · simp only [CMasternodePayments.IsTransactionValid, h]
  · have := maxSignatures_lt payees.vecPayees 0 MNPAYMENTS_SIGNATURES_REQUIRED
      (by decide) hlt
    simp only [CMasternodePayments.IsTransactionValid, h,
      CMasternodeBlockPayees.IsTransactionValid, if_pos hassert, if_pos this]

/-- Example for C2: height 200 has a payee with five votes only; a coinbase
that pays somebody else is accepted. -/
theorem C2_insufficient_votes_accept_witness :
    CMasternodePayments.IsTransactionValid
      { mapMasternodeBlocksPrimary :=
        [(200, { nBlockHeight := 200,
                 vecPayees := [{ scriptPubKey := [7],
                                 vecVoteHashes := List.replicate 5
                                   { payee := [7], nBlockHeight := 200,
                                     masternodeOutpoint := { hash := 1, n := 0 } } }] })] }
      [{ nValue := 50, scriptPubKey := [1] }] 200 1 10 (fun _ => 10) = some true :=
  C2_insufficient_votes_accept _ _ 200 1 10 (fun _ => 10)
    (Or.inr ⟨_, rfl, rfl, by
      intro p hp
      rw [List.mem_singleton.mp hp]
      decide⟩)

/-! ### The winner query -/

theorem voteCount_nonneg (p : CMasternodePayee) : 0 ≤ p.GetVoteCount := by
  unfold CMasternodePayee.GetVoteCount
  exact Int.ofNat_nonneg _

theorem bestPayeeStep_spec (ext : External) (mns : List CMasternode)
    (nodeMap : List (String × CMasternode)) (st st1 : BestPayeeState) (payee : CMasternodePayee)
    (h : bestPayeeStep ext mns nodeMap st payee = some st1) :
    (st1 = st ∧ payee.GetVoteCount ≤ st.nVotes) ∨
    (st1.nVotes = payee.GetVoteCount ∧ st1.payeeRet = payee.scriptPubKey ∧
      st.nVotes ≤ payee.GetVoteCount) := by
  unfold bestPayeeStep at h
  cases hf : mapFind nodeMap (ext.EncodeDestination payee.GetPayee) with
  | none => simp [hf] at h
  | some mNode =>
    simp only [hf] at h
    generalize (if mNode.activationBlockHeight ≠ 0 then mNode.activationBlockHeight
      else GetNodeActivationHeight ext mns payee.GetPayee) = payeeActivationHeight at h
    split at h
    · rename_i hc
      right
      have h1 := (Option.some.inj h).symm
      subst h1
      refine ⟨rfl, rfl, ?_⟩
      simp only [Bool.or_eq_true, Bool.and_eq_true, decide_eq_true_eq] at hc
      omega
    · rename_i hc
      left
      refine ⟨(Option.some.inj h).symm, ?_⟩
      simp only [Bool.or_eq_true, Bool.and_eq_true, decide_eq_true_eq] at hc
      omega

theorem bestPayeeStep_isSome (ext : External) (mns : List CMasternode)
    (nodeMap : List (String × CMasternode)) (st : BestPayeeState) (payee : CMasternodePayee)
    (h : (mapFind nodeMap (ext.EncodeDestination payee.scriptPubKey)).isSome = true) :
    ∃ st1, bestPayeeStep ext mns nodeMap st payee = some st1 := by
  obtain ⟨mNode, hm⟩ := Option.isSome_iff_exists.mp h
  unfold bestPayeeStep
  simp only [CMasternodePayee.GetPayee, hm]
  generalize (if mNode.activationBlockHeight ≠ 0 then mNode.activationBlockHeight
    else GetNodeActivationHeight ext mns payee.scriptPubKey) = payeeActivationHeight
  split
  · exact ⟨_, rfl⟩
  · exact ⟨_, rfl⟩

theorem bestPayeeLoop_spec (ext : External) (mns : List CMasternode)
    (nodeMap : List (String × CMasternode)) (l : List CMasternodePayee)
    (st st2 : BestPayeeState) (h : bestPayeeLoop ext mns nodeMap l st = some st2) :
    st.nVotes ≤ st2.nVotes ∧ (∀ q ∈ l, q.GetVoteCount ≤ st2.nVotes) ∧
    (st2 = st ∨ ∃ p ∈ l, p.scriptPubKey = st2.payeeRet ∧ p.GetVoteCount = st2.nVotes) := by
  induction l generalizing st with
  | nil =>
    unfold bestPayeeLoop at h
    have := Option.some.inj h
    subst this
    simp
  | cons a t ih =>
    unfold bestPayeeLoop at h
    cases hs : bestPayeeStep ext mns nodeMap st a with
    | none => simp [hs] at h
    | some st1 =>
      simp only [hs] at h
      obtain ⟨i1, i2, i3⟩ := ih st1 h
      rcases bestPayeeStep_spec ext mns nodeMap st st1 a hs with ⟨e, hle⟩ | ⟨e1, e2, hle⟩
      · subst e
        refine ⟨i1, ?_, ?_⟩
        · intro q hq
          rcases List.mem_cons.mp hq with rfl | hq
          · omega
          · exact i2 q hq
        · rcases i3 with i3 | ⟨p, hp, hp2⟩
          · exact Or.inl i3
          · exact Or.inr ⟨p, List.mem_cons_of_mem _ hp, hp2⟩
      · refine ⟨by omega, ?_, ?_⟩
        · intro q hq
          rcases List.mem_cons.mp hq with rfl | hq
          · omega
          · exact i2 q hq
        · right
          rcases i3 with i3 | ⟨p, hp, hp2⟩
          · subst i3
            exact ⟨a, List.mem_cons_self _ _, e2.symm, e1.symm⟩
          · exact ⟨p, List.mem_cons_of_mem _ hp, hp2⟩

theorem bestPayeeLoop_isSome (ext : External) (mns : List CMasternode)
    (nodeMap : List (String × CMasternode)) (l : List CMasternodePayee) (st : BestPayeeState)
    (h : ∀ p ∈ l, (mapFind nodeMap (ext.EncodeDestination p.scriptPubKey)).isSome = true) :
    ∃ st2, bestPayeeLoop ext mns nodeMap l st = some st2 := by
  induction l generalizing st with
  | nil => exact ⟨st, by simp [bestPayeeLoop]⟩
  | cons a t ih =>
    obtain ⟨st1, h1⟩ := bestPayeeStep_isSome ext mns nodeMap st a (h a (List.mem_cons_self _ _))
    obtain ⟨st2, h2⟩ := ih st1 (fun p hp => h p (List.mem_cons_of_mem _ hp))
    refine ⟨st2, ?_⟩
    unfold bestPayeeLoop
    simp only [h1, h2]

theorem GetBestPayee_spec (self : CMasternodeBlockPayees) (ext : External)
    (mns : List CMasternode) (payeeRet : CScript) (activationBlockHeightRet : Int)
    (hne : self.vecPayees ≠ []) (r : Bool × CScript × Int)
    (h : self.GetBestPayee ext mns payeeRet activationBlockHeightRet = some r) :
    r.1 = true ∧ ∃ p ∈ self.vecPayees, p.scriptPubKey = r.2.1 ∧
      ∀ q ∈ self.vecPayees, q.GetVoteCount ≤ p.GetVoteCount := by
  unfold CMasternodeBlockPayees.GetBestPayee at h
  have hemp : self.vecPayees.isEmpty = false := by
    cases hv : self.vecPayees with
    | nil => exact absurd hv hne
    | cons a t => rfl
  simp only [hemp] at h
  cases hl : bestPayeeLoop ext mns (buildNodeMap ext mns []) self.vecPayees
      { nVotes := -1, activationHeight := 0, lastPaid := 0,
        payeeRet := payeeRet, activationBlockHeightRet := activationBlockHeightRet } with
  | none => simp [hl] at h
  | some st =>
    simp only [hl] at h
    obtain ⟨_, i2, i3⟩ := bestPayeeLoop_spec _ _ _ _ _ _ hl
    obtain ⟨a, ha⟩ := List.exists_mem_of_ne_nil _ hne
    have hpos : 0 ≤ st.nVotes := le_trans (voteCount_nonneg a) (i2 a ha)
    have hr := (Option.some.inj h).symm
    subst hr
    refine ⟨by simp; omega, ?_⟩
    rcases i3 with i3 | ⟨p, hp, hp1, hp2⟩
    · subst i3
      simp at hpos
    · exact ⟨p, hp, hp1, fun q hq => by rw [hp2]; exact i2 q hq⟩

theorem GetBestPayee_isSome (self : CMasternodeBlockPayees) (ext : External)
    (mns : List CMasternode) (payeeRet : CScript) (activationBlockHeightRet : Int)
    (h : ∀ p ∈ self.vecPayees,
      (mapFind (buildNodeMap ext mns []) (ext.EncodeDestination p.scriptPubKey)).isSome = true) :
    ∃ r, self.GetBestPayee ext mns payeeRet activationBlockHeightRet = some r := by
  unfold CMasternodeBlockPayees.GetBestPayee
  split
  · exact ⟨_, rfl⟩
  · obtain ⟨st2, h2⟩ := bestPayeeLoop_isSome ext mns (buildNodeMap ext mns []) self.vecPayees
      { nVotes := -1, activationHeight := 0, lastPaid := 0,
        payeeRet := payeeRet, activationBlockHeightRet := activationBlockHeightRet } h
    simp only [h2]
    exact ⟨_, rfl⟩

/-- C3: for a non-empty payee list, whenever `GetBestPayee` returns, it reports
success and the script it returns is the script of a payee of the list whose
vote count is the maximum over the list; and it does return when every payee
of the list is found in the map built from the registry (the lookup the source
performs without a check). -/
theorem C3_best_payee_has_max_votes (self : CMasternodeBlockPayees) (ext : External)
    (mapMasternodes : List CMasternode) (payeeRet : CScript) (activationBlockHeightRet : Int)
    (hne : self.vecPayees ≠ []) :
    (∀ r, self.GetBestPayee ext mapMasternodes payeeRet activationBlockHeightRet = some r →
      r.1 = true ∧ ∃ p ∈ self.vecPayees, p.scriptPubKey = r.2.1 ∧
        ∀ q ∈ self.vecPayees, q.GetVoteCount ≤ p.GetVoteCount) ∧
    ((∀ p ∈ self.vecPayees, (mapFind (buildNodeMap ext mapMasternodes [])
        (ext.EncodeDestination p.scriptPubKey)).isSome = true) →
      ∃ r, self.GetBestPayee ext mapMasternodes payeeRet activationBlockHeightRet = some r) :=
  ⟨fun r h => GetBestPayee_spec self ext mapMasternodes payeeRet activationBlockHeightRet hne r h,
   fun h => GetBestPayee_isSome self ext mapMasternodes payeeRet activationBlockHeightRet h⟩

/-- Example for C3: the tally with two payees of six votes each. -/
theorem C3_best_payee_has_max_votes_witness :
    sampleTieTally.vecPayees ≠ [] ∧
    ∃ r, sampleTieTally.GetBestPayee sampleExternal [sampleMnA, sampleMnB] [] 0 = some r ∧
      r.1 = true ∧ ∃ p ∈ sampleTieTally.vecPayees, p.scriptPubKey = r.2.1 ∧
        ∀ q ∈ sampleTieTally.vecPayees, q.GetVoteCount ≤ p.GetVoteCount := by
  have hne : sampleTieTally.vecPayees ≠ [] := by decide
  have h := C3_best_payee_has_max_votes sampleTieTally sampleExternal
    [sampleMnA, sampleMnB] [] 0 hne
  obtain ⟨r, hr⟩ := h.2 (by decide)
  exact ⟨hne, r, hr, h.1 r hr⟩

/-- C4, evaluated on the code: the payees of A and B tie with six votes; A was
paid longer ago (time 100 against 200), yet `GetBestPayee` returns the payee of
B, because the activation-height comparison is applied to every tie and B was
activated earlier (height 10 against 50). With the two payees in the other
order the payee of A is returned. -/
theorem C4_tie_break_activation_overrides_last_paid :
    sampleMnA.nTimeLastPaidPrimary < sampleMnB.nTimeLastPaidPrimary ∧
    sampleTieTally.GetBestPayee sampleExternal [sampleMnA, sampleMnB] [] 0
      = some (true, [0, 2], 10) ∧
    CMasternodeBlockPayees.GetBestPayee
      { nBlockHeight := 110, vecPayees := sampleTieTally.vecPayees.reverse }
      sampleExternal [sampleMnA, sampleMnB] [] 0 = some (true, [0, 1], 50) := by
  decide

/-- What `GetBlockPayees` reports: failure when the map has no entry for the
height or the entry has an empty payee list; for an entry with a non-empty
payee list it never reports failure, and it returns, reporting success, when
every payee of the list is found in the map built from the registry. When a
payee is not found the lookup of `GetBestPayee` is undefined. -/
theorem GetBlockPayees_reports (self : CMasternodePayments) (ext : External)
    (mapMasternodes : List CMasternode) (nBlockHeight : Int) (payeeRet : CScript)
    (activationHeightRet : Int) :
    (mapFind self.mapMasternodeBlocksPrimary nBlockHeight = none →
      self.GetBlockPayees ext mapMasternodes
        nBlockHeight payeeRet activationHeightRet = some (false, payeeRet, activationHeightRet)) ∧
    (∀ payees, mapFind self.mapMasternodeBlocksPrimary nBlockHeight = some payees →
      payees.vecPayees = [] →
      self.GetBlockPayees ext mapMasternodes
        nBlockHeight payeeRet activationHeightRet = some (false, payeeRet, activationHeightRet)) ∧
    (∀ payees, mapFind self.mapMasternodeBlocksPrimary nBlockHeight = some payees →
      payees.vecPayees ≠ [] →
      (∀ r, self.GetBlockPayees ext mapMasternodes
        nBlockHeight payeeRet activationHeightRet = some r → r.1 = true) ∧
      ((∀ p ∈ payees.vecPayees, (mapFind (buildNodeMap ext mapMasternodes [])
          (ext.EncodeDestination p.scriptPubKey)).isSome = true) →
        ∃ r, self.GetBlockPayees ext mapMasternodes
          nBlockHeight payeeRet activationHeightRet = some r ∧ r.1 = true)) := by
  refine ⟨?_, ?_, ?_⟩
  · intro h
    simp only [CMasternodePayments.GetBlockPayees, h]
  · intro payees h hemp
    simp only [CMasternodePayments.GetBlockPayees, h, CMasternodeBlockPayees.GetBestPayee,
      hemp, List.isEmpty_nil, if_true]
  · intro payees h hne
    have hg : self.GetBlockPayees ext mapMasternodes
        nBlockHeight payeeRet activationHeightRet
        = payees.GetBestPayee ext mapMasternodes payeeRet activationHeightRet := by
      simp only [CMasternodePayments.GetBlockPayees, h]
    rw [hg]
    refine ⟨fun r hr => (GetBestPayee_spec payees ext mapMasternodes _ _ hne r hr).1, ?_⟩
    intro hres
    obtain ⟨r, hr⟩ := GetBestPayee_isSome payees ext mapMasternodes payeeRet
      activationHeightRet hres
    exact ⟨r, hr, (GetBestPayee_spec payees ext mapMasternodes _ _ hne r hr).1⟩

/-- Example for `GetBlockPayees_reports`: no entry for height 111, an entry
with two payees for height 110. -/
theorem GetBlockPayees_reports_example :
    CMasternodePayments.GetBlockPayees { mapMasternodeBlocksPrimary := [(110, sampleTieTally)] } sampleExternal
      [sampleMnA, sampleMnB] 111 [] 0 = some (false, [], 0) ∧
    ∃ r, CMasternodePayments.GetBlockPayees { mapMasternodeBlocksPrimary := [(110, sampleTieTally)] } sampleExternal
      [sampleMnA, sampleMnB] 110 [] 0 = some r ∧ r.1 = true := by
  have h111 := GetBlockPayees_reports { mapMasternodeBlocksPrimary := [(110, sampleTieTally)] } sampleExternal
    [sampleMnA, sampleMnB] 111 [] 0
  have h110 := GetBlockPayees_reports { mapMasternodeBlocksPrimary := [(110, sampleTieTally)] } sampleExternal
    [sampleMnA, sampleMnB] 110 [] 0
  exact ⟨h111.1 (by decide),
    (h110.2.2 sampleTieTally (by decide) (by decide)).2 (by decide)⟩

/-! ### Ranking -/

theorem COutPoint.lt_iff (a b : COutPoint) :
    a.lt b = true ↔ a.hash < b.hash ∨ (a.hash = b.hash ∧ a.n < b.n) := by
  simp [COutPoint.lt]

theorem COutPoint.ne_iff (a b : COutPoint) : a ≠ b ↔ a.hash ≠ b.hash ∨ a.n ≠ b.n := by
  cases a; cases b
  simp only [ne_eq, COutPoint.mk.injEq]
  tauto

theorem CompareScoreMN_iff (t1 t2 : Nat × CMasternode) :
    CompareScoreMN t1 t2 = true ↔
      t1.1 < t2.1 ∨ (t1.1 = t2.1 ∧ t1.2.outpoint.lt t2.2.outpoint = true) := by
  unfold CompareScoreMN
  by_cases h : t1.1 = t2.1
  · simp [h]
  · simp only [ne_eq, h, not_false_eq_true, if_true, decide_eq_true_eq, false_and, or_false]

theorem CompareScoreMN_false_iff (t1 t2 : Nat × CMasternode) :
    CompareScoreMN t1 t2 = false ↔
      t2.1 < t1.1 ∨ (t1.1 = t2.1 ∧
        (t2.2.outpoint.hash < t1.2.outpoint.hash ∨
          (t1.2.outpoint.hash = t2.2.outpoint.hash ∧ t2.2.outpoint.n ≤ t1.2.outpoint.n))) := by
  rw [← Bool.not_eq_true, CompareScoreMN_iff, COutPoint.lt_iff]
  omega

/-- Among entries with different outpoints, "not less" is "greater". -/
theorem CompareScoreMN_of_false (t1 t2 : Nat × CMasternode)
    (h : CompareScoreMN t1 t2 = false) (hne : t1.2.outpoint ≠ t2.2.outpoint) :
    CompareScoreMN t2 t1 = true := by
  rw [CompareScoreMN_false_iff] at h
  rw [COutPoint.ne_iff] at hne
  rw [CompareScoreMN_iff, COutPoint.lt_iff]
  omega

theorem stdSortReverse_perm {α : Type} (comp : α → α → Bool) (v : List α) :
    (stdSortReverse comp v).Perm v :=
  List.perm_insertionSort _ v

theorem stdSortReverse_sorted (v : List (Nat × CMasternode)) :
    List.Pairwise (fun a b => CompareScoreMN a b = false) (stdSortReverse CompareScoreMN v) := by
  haveI : IsTotal (Nat × CMasternode) (fun a b => CompareScoreMN a b = false) :=
    ⟨fun a b => by
      simp only [CompareScoreMN_false_iff]
      omega⟩
  haveI : IsTrans (Nat × CMasternode) (fun a b => CompareScoreMN a b = false) :=
    ⟨fun a b c hab hbc => by
      simp only [CompareScoreMN_false_iff] at hab hbc ⊢
      omega⟩
  exact List.sorted_insertionSort (fun a b => CompareScoreMN a b = false) v

/-- On entries with pairwise different outpoints the sorted vector is strictly descending. -/
theorem stdSortReverse_strict (v : List (Nat × CMasternode))
    (hnd : (v.map fun t => t.2.outpoint).Nodup) :
    List.Pairwise (fun a b => CompareScoreMN b a = true) (stdSortReverse CompareScoreMN v) := by
  have hperm := stdSortReverse_perm CompareScoreMN v
  have hnd2 : ((stdSortReverse CompareScoreMN v).map fun t => t.2.outpoint).Nodup :=
    ((hperm.map _).nodup_iff).mpr hnd
  have hpw : List.Pairwise (fun a b : Nat × CMasternode => a.2.outpoint ≠ b.2.outpoint)
      (stdSortReverse CompareScoreMN v) := List.pairwise_map.mp hnd2
  exact ((stdSortReverse_sorted v).and hpw).imp
    (fun {a b} h => CompareScoreMN_of_false a b h.1 h.2)

theorem scoreVector_nodup (ext : External) (mns : List CMasternode) (nBlockHash : Nat)
    (nMinProtocol : Int) (hnd : (mns.map fun mn => mn.outpoint).Nodup) :
    ((((mns.filter fun mn => decide (mn.nProtocolVersion ≥ nMinProtocol)).map
      fun mn => (mn.CalculateScore ext nBlockHash, mn))).map fun t => t.2.outpoint).Nodup := by
  rw [List.map_map]
  exact hnd.sublist ((List.filter_sublist _).map _)

theorem stdSortReverse_unique (v w : List (Nat × CMasternode)) (hp : v.Perm w)
    (hnd : (v.map fun t => t.2.outpoint).Nodup) :
    stdSortReverse CompareScoreMN v = stdSortReverse CompareScoreMN w := by
  have hndw : (w.map fun t => t.2.outpoint).Nodup := ((hp.map _).nodup_iff).mp hnd
  haveI : IsAntisymm (Nat × CMasternode) (fun a b => CompareScoreMN b a = true) :=
    ⟨fun a b hab hba => by
      exfalso
      simp only [CompareScoreMN_iff, COutPoint.lt_iff] at hab hba
      omega⟩
  exact List.eq_of_perm_of_sorted
    (((stdSortReverse_perm CompareScoreMN v).trans hp).trans
      (stdSortReverse_perm CompareScoreMN w).symm)
    (stdSortReverse_strict v hnd) (stdSortReverse_strict w hndw)

theorem GetMasternodeScores_perm (ext : External) (fSynced : Bool) (mns mns2 : List CMasternode)
    (nBlockHash : Nat) (nMinProtocol : Int) (hp : mns2.Perm mns)
    (hnd : (mns.map fun mn => mn.outpoint).Nodup) :
    GetMasternodeScores ext fSynced mns2 nBlockHash nMinProtocol
      = GetMasternodeScores ext fSynced mns nBlockHash nMinProtocol := by
  have hemp : mns2.isEmpty = mns.isEmpty := by
    cases mns2 with
    | nil => rw [List.Perm.nil_eq hp]
    | cons a t =>
      cases mns with
      | nil => exact absurd hp.symm (List.nil_perm.not.mpr (List.cons_ne_nil a t))
      | cons b u => rfl
  have hs := stdSortReverse_unique _ _
    (((hp.filter fun mn => decide (mn.nProtocolVersion ≥ nMinProtocol)).map
      fun mn => (mn.CalculateScore ext nBlockHash, mn)))
    (scoreVector_nodup ext mns2 nBlockHash nMinProtocol (((hp.map _).nodup_iff).mpr hnd))
  simp only [GetMasternodeScores, hemp, hs]

theorem GetMasternodeScores_snd_cases (ext : External) (fSynced : Bool) (mns : List CMasternode)
    (nBlockHash : Nat) (nMinProtocol : Int) :
    (GetMasternodeScores ext fSynced mns nBlockHash nMinProtocol).2 = [] ∨
    (GetMasternodeScores ext fSynced mns nBlockHash nMinProtocol).2 =
      stdSortReverse CompareScoreMN
        ((mns.filter fun mn => decide (mn.nProtocolVersion ≥ nMinProtocol)).map
          fun mn => (mn.CalculateScore ext nBlockHash, mn)) := by
  unfold GetMasternodeScores
  split
  · exact Or.inl rfl
  · split
    · exact Or.inl rfl
    · exact Or.inr rfl

theorem GetMasternodeScores_strict (ext : External) (fSynced : Bool) (mns : List CMasternode)
    (nBlockHash : Nat) (nMinProtocol : Int) (hnd : (mns.map fun mn => mn.outpoint).Nodup) :
    List.Pairwise (fun a b => CompareScoreMN b a = true)
      (GetMasternodeScores ext fSynced mns nBlockHash nMinProtocol).2 ∧
    ((GetMasternodeScores ext fSynced mns nBlockHash nMinProtocol).2.map
      fun t => t.2.outpoint).Nodup ∧
    ∀ t ∈ (GetMasternodeScores ext fSynced mns nBlockHash nMinProtocol).2,
      t.1 = t.2.CalculateScore ext nBlockHash ∧ t.2 ∈ mns ∧ t.2.nProtocolVersion ≥ nMinProtocol := by
  rcases GetMasternodeScores_snd_cases ext fSynced mns nBlockHash nMinProtocol with h | h
  · rw [h]
    simp
  · rw [h]
    have hv := scoreVector_nodup ext mns nBlockHash nMinProtocol hnd
    refine ⟨stdSortReverse_strict _ hv, ?_, ?_⟩
    · exact (((stdSortReverse_perm CompareScoreMN _).map _).nodup_iff).mpr hv
    · intro t ht
      have ht2 := (stdSortReverse_perm CompareScoreMN _).mem_iff.mp ht
      obtain ⟨mn, hmn, rfl⟩ := List.mem_map.mp ht2
      have hf := List.mem_filter.mp hmn
      exact ⟨rfl, hf.1, by simpa using hf.2⟩

theorem GetMasternodeScores_fst (ext : External) (fSynced : Bool) (mns : List CMasternode)
    (nBlockHash : Nat) (nMinProtocol : Int)
    (h : (GetMasternodeScores ext fSynced mns nBlockHash nMinProtocol).1 = false) :
    (GetMasternodeScores ext fSynced mns nBlockHash nMinProtocol).2 = [] := by
  unfold GetMasternodeScores at h ⊢
  split
  · rfl
  · split
    · rfl
    · rename_i h1 h2
      simp only [h1, h2, if_false] at h
      simpa using h

theorem assignRanks_map_snd (l : List (Nat × CMasternode)) (k : Int) :
    (assignRanks l k).map Prod.snd = l.map Prod.snd := by
  induction l generalizing k with
  | nil => rfl
  | cons a t ih => simp [assignRanks, ih]

theorem assignRanks_getElem? (l : List (Nat × CMasternode)) (k : Int) (i : Nat) :
    (assignRanks l k)[i]? = (l[i]?).map fun sp => (k + i + 1, sp.2) := by
  induction l generalizing k i with
  | nil => simp [assignRanks]
  | cons a t ih =>
    cases i with
    | zero => simp [assignRanks]
    | succ j =>
      simp only [assignRanks, List.getElem?_cons_succ, ih]
      congr 1
      funext sp
      simp only [Nat.cast_add, Nat.cast_one, Prod.mk.injEq, and_true]
      omega

theorem findRank_eq_none (o : COutPoint) (l : List (Nat × CMasternode)) (k : Int) :
    findRank o l k = none ↔ ∀ sp ∈ l, sp.2.outpoint ≠ o := by
  induction l generalizing k with
  | nil => simp [findRank]
  | cons a t ih =>
    unfold findRank
    by_cases h : a.2.outpoint = o
    · simp [h]
    · simp [h, ih]

theorem findRank_eq_some (o : COutPoint) (l : List (Nat × CMasternode)) (k r : Int)
    (hnd : (l.map fun t => t.2.outpoint).Nodup) :
    findRank o l k = some r ↔
      ∃ (i : Nat) (sp : Nat × CMasternode), l[i]? = some sp ∧ sp.2.outpoint = o ∧ r = k + i + 1 := by
  induction l generalizing k with
  | nil => simp [findRank]
  | cons a t ih =>
    have hnd2 := List.nodup_cons.mp hnd
    unfold findRank
    by_cases h : a.2.outpoint = o
    · rw [if_pos h]
      constructor
      · intro hr
        exact ⟨0, a, by simp, h, by simpa using (Option.some.inj hr).symm⟩
      · rintro ⟨i, sp, hi, ho, hr⟩
        cases i with
        | zero => simp [hr]
        | succ j =>
          exfalso
          rw [List.getElem?_cons_succ] at hi
          have hm : sp ∈ t := List.getElem?_mem hi
          apply hnd2.1
          exact List.mem_map.mpr ⟨sp, hm, ho.trans h.symm⟩
    · rw [if_neg h, ih (k + 1) hnd2.2]
      constructor
      · rintro ⟨i, sp, hi, ho, hr⟩
        exact ⟨i + 1, sp, by simpa using hi, ho, by push_cast; omega⟩
      · rintro ⟨i, sp, hi, ho, hr⟩
        cases i with
        | zero =>
          simp only [List.getElem?_cons_zero, Option.some.injEq] at hi
          subst hi
          exact absurd ho h
        | succ j =>
          exact ⟨j, sp, by simpa using hi, ho, by push_cast at hr; omega⟩

/-- Both ranking queries read one score vector `L`: it has no two entries with
one outpoint and holds only registry entries at or above the protocol floor. -/
theorem ranking_normal_form (ext : External) (fSynced : Bool) (mns : List CMasternode)
    (h p : Int) (hnd : (mns.map fun mn => mn.outpoint).Nodup) :
    ∃ (L : List (Nat × CMasternode)) (ok : Bool),
      GetMasternodeRanks ext fSynced mns h p = (ok, assignRanks L 0) ∧
      (∀ o, GetMasternodeRank ext fSynced mns o h p =
        match findRank o L 0 with
        | some nRank => (true, nRank)
        | none => (false, -1)) ∧
      (L ≠ [] → ok = true) ∧
      (L.map fun t => t.2.outpoint).Nodup ∧
      ∀ t ∈ L, t.2 ∈ mns ∧ t.2.nProtocolVersion ≥ p := by
  cases hs : fSynced with
  | false =>
    refine ⟨[], false, ?_, ?_, by simp, by simp, by simp⟩
    · simp [GetMasternodeRanks, assignRanks]
    · intro o
      simp [GetMasternodeRank, findRank]
  | true =>
    cases hb : ext.GetBlockHash h with
    | none =>
      refine ⟨[], false, ?_, ?_, by simp, by simp, by simp⟩
      · simp [GetMasternodeRanks, hb, assignRanks]
      · intro o
        simp [GetMasternodeRank, hb, findRank]
    | some nBlockHash =>
      cases h1 : (GetMasternodeScores ext true mns nBlockHash p).1 with
      | false =>
        refine ⟨[], false, ?_, ?_, by simp, by simp, by simp⟩
        · simp [GetMasternodeRanks, hb, h1, assignRanks]
        · intro o
          simp [GetMasternodeRank, hb, h1, findRank]
      | true =>
        obtain ⟨_, s2, s3⟩ := GetMasternodeScores_strict ext true mns nBlockHash p hnd
        refine ⟨(GetMasternodeScores ext true mns nBlockHash p).2, true, ?_, ?_, by simp, s2,
          fun t ht => (s3 t ht).2⟩
        · simp [GetMasternodeRanks, hb, h1]
        · intro o
          simp [GetMasternodeRank, hb, h1]

/-- C6, as amended: with the registry holding one entry per outpoint, the
score vector of `GetMasternodeScores` and the rank list of
`GetMasternodeRanks` are ordered by score descending, two entries with equal
score appear in descending order of outpoint, and both results are the same
for every iteration order of the registry. -/
theorem C6_ranks_descending_ties_by_outpoint_descending (ext : External) (fSynced : Bool)
    (mapMasternodes : List CMasternode) (nBlockHeight : Int) (nBlockHash : Nat)
    (nMinProtocol : Int) (hb : ext.GetBlockHash nBlockHeight = some nBlockHash)
    (hnd : (mapMasternodes.map fun mn => mn.outpoint).Nodup) :
    List.Pairwise
      (fun t1 t2 : Nat × CMasternode =>
        t2.1 < t1.1 ∨ (t1.1 = t2.1 ∧ t2.2.outpoint.lt t1.2.outpoint = true))
      (GetMasternodeScores ext fSynced mapMasternodes nBlockHash nMinProtocol).2 ∧
    List.Pairwise
      (fun e1 e2 : Int × CMasternode =>
        e2.2.CalculateScore ext nBlockHash < e1.2.CalculateScore ext nBlockHash ∨
        (e1.2.CalculateScore ext nBlockHash = e2.2.CalculateScore ext nBlockHash ∧
          e2.2.outpoint.lt e1.2.outpoint = true))
      (GetMasternodeRanks ext fSynced mapMasternodes nBlockHeight nMinProtocol).2 ∧
    ∀ mapMasternodes2 : List CMasternode, mapMasternodes2.Perm mapMasternodes →
      GetMasternodeScores ext fSynced mapMasternodes2 nBlockHash nMinProtocol
        = GetMasternodeScores ext fSynced mapMasternodes nBlockHash nMinProtocol ∧
      GetMasternodeRanks ext fSynced mapMasternodes2 nBlockHeight nMinProtocol
        = GetMasternodeRanks ext fSynced mapMasternodes nBlockHeight nMinProtocol := by
  obtain ⟨s1, _, s3⟩ := GetMasternodeScores_strict ext fSynced mapMasternodes nBlockHash
    nMinProtocol hnd
  have hscores : List.Pairwise
      (fun t1 t2 : Nat × CMasternode =>
        t2.1 < t1.1 ∨ (t1.1 = t2.1 ∧ t2.2.outpoint.lt t1.2.outpoint = true))
      (GetMasternodeScores ext fSynced mapMasternodes nBlockHash nMinProtocol).2 :=
    s1.imp fun {a b} hab => by
      rcases (CompareScoreMN_iff b a).mp hab with hlt | ⟨he, ho⟩
      · exact Or.inl hlt
      · exact Or.inr ⟨he.symm, ho⟩
  refine ⟨hscores, ?_, ?_⟩
  · have hranks : (GetMasternodeRanks ext fSynced mapMasternodes nBlockHeight nMinProtocol).2 = []
        ∨ (GetMasternodeRanks ext fSynced mapMasternodes nBlockHeight nMinProtocol).2
          = assignRanks (GetMasternodeScores ext fSynced mapMasternodes nBlockHash
              nMinProtocol).2 0 := by
      unfold GetMasternodeRanks
      split
      · exact Or.inl rfl
      · simp only [hb]
        split
        · exact Or.inl rfl
        · exact Or.inr rfl
    rcases hranks with hr | hr
    · rw [hr]
      exact List.Pairwise.nil
    · rw [hr]
      have hmap := assignRanks_map_snd
        (GetMasternodeScores ext fSynced mapMasternodes nBlockHash nMinProtocol).2 0
      have hpw : List.Pairwise
          (fun m1 m2 : CMasternode =>
            m2.CalculateScore ext nBlockHash < m1.CalculateScore ext nBlockHash ∨
            (m1.CalculateScore ext nBlockHash = m2.CalculateScore ext nBlockHash ∧
              m2.outpoint.lt m1.outpoint = true))
          ((assignRanks (GetMasternodeScores ext fSynced mapMasternodes nBlockHash
              nMinProtocol).2 0).map Prod.snd) := by
        rw [hmap, List.pairwise_map]
        refine hscores.imp_of_mem ?_
        intro a b ha hb2 hab
        rw [← (s3 a ha).1, ← (s3 b hb2).1]
        exact hab
      exact List.pairwise_map.mp hpw
  · intro mapMasternodes2 hp
    have hsc : ∀ bh, GetMasternodeScores ext fSynced mapMasternodes2 bh nMinProtocol
        = GetMasternodeScores ext fSynced mapMasternodes bh nMinProtocol :=
      fun bh => GetMasternodeScores_perm ext fSynced mapMasternodes mapMasternodes2 bh
        nMinProtocol hp hnd
    refine ⟨hsc nBlockHash, ?_⟩
    simp only [GetMasternodeRanks, hsc]

/-- Example for C6: the two entries that share an operator key, in both iteration orders. -/
theorem C6_ranks_descending_ties_by_outpoint_descending_witness :
    (GetMasternodeRanks sampleExternal true sampleSharedKeyRegistry.reverse 9 0
      = GetMasternodeRanks sampleExternal true sampleSharedKeyRegistry 9 0) ∧
    List.Pairwise
      (fun e1 e2 : Int × CMasternode =>
        e2.2.CalculateScore sampleExternal 9 < e1.2.CalculateScore sampleExternal 9 ∨
        (e1.2.CalculateScore sampleExternal 9 = e2.2.CalculateScore sampleExternal 9 ∧
          e2.2.outpoint.lt e1.2.outpoint = true))
      (GetMasternodeRanks sampleExternal true sampleSharedKeyRegistry 9 0).2 := by
  have h := C6_ranks_descending_ties_by_outpoint_descending sampleExternal true
    sampleSharedKeyRegistry 9 9 0 (by decide) (by decide)
  exact ⟨(h.2.2 sampleSharedKeyRegistry.reverse (List.reverse_perm _)).2, h.2.1⟩

/-- C6 as stated fails: the two registry entries that share an operator key
have equal scores, and the rank list holds them with the larger outpoint
first, so entries of equal score are not in ascending order of outpoint. -/
theorem C6_ties_not_ascending_counterexample :
    (GetMasternodeRanks sampleExternal true sampleSharedKeyRegistry 9 0).2.map
        (fun e => (e.1, e.2.outpoint, e.2.CalculateScore sampleExternal 9))
      = [(1, { hash := 2, n := 0 }, 40), (2, { hash := 1, n := 0 }, 40)] ∧
    ¬ List.Pairwise
      (fun e1 e2 : Int × CMasternode =>
        e2.2.CalculateScore sampleExternal 9 ≤ e1.2.CalculateScore sampleExternal 9 ∧
        (e1.2.CalculateScore sampleExternal 9 = e2.2.CalculateScore sampleExternal 9 →
          e1.2.outpoint.lt e2.2.outpoint = true))
      (GetMasternodeRanks sampleExternal true sampleSharedKeyRegistry 9 0).2 := by
  decide

/-- C7: with the registry holding one entry per outpoint, `GetMasternodeRank`
succeeds with rank `r` exactly when `GetMasternodeRanks` succeeds and the
`r`-th element of its list, which carries the rank `r`, is the entry with the
outpoint; the ranks of the list are 1, 2, ... in sequence; the query fails,
with rank -1, for every outpoint that no element of the list has, and so for
every registry entry below the protocol floor. -/
theorem C7_rank_is_inverse_of_ranks (ext : External) (fSynced : Bool)
    (mapMasternodes : List CMasternode) (outpoint : COutPoint) (nBlockHeight : Int)
    (nMinProtocol : Int) (hnd : (mapMasternodes.map fun mn => mn.outpoint).Nodup) :
    (∀ r : Int,
      GetMasternodeRank ext fSynced mapMasternodes outpoint nBlockHeight nMinProtocol = (true, r) ↔
        (GetMasternodeRanks ext fSynced mapMasternodes nBlockHeight nMinProtocol).1 = true ∧
        ∃ (i : Nat) (mn : CMasternode),
          (GetMasternodeRanks ext fSynced mapMasternodes nBlockHeight nMinProtocol).2[i]?
            = some (r, mn) ∧ r = i + 1 ∧ mn.outpoint = outpoint) ∧
    (∀ (i : Nat) (e : Int × CMasternode),
      (GetMasternodeRanks ext fSynced mapMasternodes nBlockHeight nMinProtocol).2[i]? = some e →
        e.1 = i + 1) ∧
    ((∀ e ∈ (GetMasternodeRanks ext fSynced mapMasternodes nBlockHeight nMinProtocol).2,
        e.2.outpoint ≠ outpoint) →
      GetMasternodeRank ext fSynced mapMasternodes outpoint nBlockHeight nMinProtocol
        = (false, -1)) ∧
    (∀ mn ∈ mapMasternodes, mn.nProtocolVersion < nMinProtocol →
      GetMasternodeRank ext fSynced mapMasternodes mn.outpoint nBlockHeight nMinProtocol
        = (false, -1)) := by
  obtain ⟨L, ok, hranks, hrank, hok, hndL, hL⟩ :=
    ranking_normal_form ext fSynced mapMasternodes nBlockHeight nMinProtocol hnd
  have hnone : ∀ o, (∀ sp ∈ L, sp.2.outpoint ≠ o) →
      GetMasternodeRank ext fSynced mapMasternodes o nBlockHeight nMinProtocol = (false, -1) := by
    intro o ho
    rw [hrank o, (findRank_eq_none o L 0).mpr ho]
  rw [hranks]
  refine ⟨?_, ?_, ?_, ?_⟩
  · intro r
    rw [hrank outpoint]
    constructor
    · intro hr
      cases hf : findRank outpoint L 0 with
      | none => simp [hf] at hr
      | some r2 =>
        simp only [hf, Prod.mk.injEq, true_and] at hr
        subst hr
        obtain ⟨i, sp, hi, ho, hri⟩ := (findRank_eq_some outpoint L 0 r2 hndL).mp hf
        refine ⟨hok ?_, i, sp.2, ?_, by omega, ho⟩
        · intro hnil
          rw [hnil] at hi
          simp at hi
        · rw [assignRanks_getElem?, hi, hri]
          rfl
    · rintro ⟨_, i, mn, hi, hri, ho⟩
      rw [assignRanks_getElem?] at hi
      cases hsp : L[i]? with
      | none => simp [hsp] at hi
      | some sp =>
        simp only [hsp, Option.map_some', Option.some.injEq, Prod.mk.injEq] at hi
        have hf : findRank outpoint L 0 = some r :=
          (findRank_eq_some outpoint L 0 r hndL).mpr
            ⟨i, sp, hsp, by rw [hi.2]; exact ho, by omega⟩
        simp only [hf]
  · intro i e hi
    rw [assignRanks_getElem?] at hi
    cases hsp : L[i]? with
    | none => simp [hsp] at hi
    | some sp =>
      simp only [hsp, Option.map_some', Option.some.injEq] at hi
      rw [← hi]
      simp
  · intro habs
    apply hnone
    intro sp hsp
    obtain ⟨i, hi⟩ := List.mem_iff_getElem?.mp hsp
    have hm : ((0 : Int) + i + 1, sp.2) ∈ assignRanks L 0 :=
      List.getElem?_mem (n := i) (by rw [assignRanks_getElem?, hi]; rfl)
    exact habs _ hm
  · intro mn hmn hlt
    apply hnone
    intro sp hsp ho
    have := List.inj_on_of_nodup_map hnd (hL sp hsp).1 hmn ho
    have hge := (hL sp hsp).2
    rw [this] at hge
    omega

/-- Example for C7: B has rank 1 and A rank 2 in the registry of A and B. -/
theorem C7_rank_is_inverse_of_ranks_witness :
    GetMasternodeRank sampleExternal true [sampleMnA, sampleMnB] sampleMnA.outpoint 9 0
      = (true, 2) ∧
    (GetMasternodeRanks sampleExternal true [sampleMnA, sampleMnB] 9 0).2[1]?
      = some (2, sampleMnA) :=
  ⟨((C7_rank_is_inverse_of_ranks sampleExternal true [sampleMnA, sampleMnB]
      sampleMnA.outpoint 9 0 (by decide)).1 2).mpr
      ⟨by decide, 1, sampleMnA, by decide, by decide, rfl⟩, by decide⟩

/-- C8: when the hash of the block at the queried height is unknown,
`GetMasternodeRank` fails with rank -1 and `GetMasternodeRanks` fails with an
empty rank list. -/
theorem C8_unknown_block_fails (ext : External) (fSynced : Bool)
    (mapMasternodes : List CMasternode) (outpoint : COutPoint) (nBlockHeight : Int)
    (nMinProtocol : Int) (hb : ext.GetBlockHash nBlockHeight = none) :
    GetMasternodeRank ext fSynced mapMasternodes outpoint nBlockHeight nMinProtocol
      = (false, -1) ∧
    GetMasternodeRanks ext fSynced mapMasternodes nBlockHeight nMinProtocol = (false, []) := by
  constructor
  · unfold GetMasternodeRank
    split
    · rfl
    · simp only [hb]
  · unfold GetMasternodeRanks
    split
    · rfl
    · simp only [hb]

/-- Example for C8: no block is known at height -1. -/
theorem C8_unknown_block_fails_witness :
    GetMasternodeRank sampleExternal true [sampleMnA, sampleMnB] sampleMnA.outpoint (-1) 0
      = (false, -1) ∧
    GetMasternodeRanks sampleExternal true [sampleMnA, sampleMnB] (-1) 0 = (false, []) :=
  C8_unknown_block_fails sampleExternal true [sampleMnA, sampleMnB] sampleMnA.outpoint (-1) 0
    (by decide)

/-! ### Vote ingestion -/

theorem mapFind_mapAssign_self {κ ν : Type} [DecidableEq κ] (m : List (κ × ν)) (k : κ) (v : ν) :
    mapFind (mapAssign m k v) k = some v := by
  induction m with
  | nil => simp [mapAssign, mapFind]
  | cons e rest ih =>
    unfold mapAssign
    by_cases h : e.1 = k
    · simp [h, mapFind]
    · simp [h, mapFind, ih]

theorem mapFind_mapEmplace_of_none {κ ν : Type} [DecidableEq κ] (m : List (κ × ν)) (k : κ)
    (v : ν) (hnone : mapFind m k = none) : mapFind (mapEmplace m k v) k = some v := by
  unfold mapEmplace
  rw [hnone]
  simp only []
  induction m with
  | nil => simp [mapFind]
  | cons e rest ih =>
    unfold mapFind at hnone
    by_cases h : e.1 = k
    · simp [h] at hnone
    · simp only [h, if_false] at hnone
      simp [mapFind, h, ih hnone]

theorem UpdateLastVote_of_same (s : CMasternodePayments) (vote : CMasternodePaymentVote)
    (h : mapFind s.mapMasternodesLastVote vote.masternodeOutpoint = some vote.nBlockHeight) :
    s.UpdateLastVote vote = (false, s) := by
  simp [CMasternodePayments.UpdateLastVote, h]

theorem UpdateLastVote_of_true (s : CMasternodePayments) (vote : CMasternodePaymentVote)
    (h : (s.UpdateLastVote vote).1 = true) :
    mapFind (s.UpdateLastVote vote).2.mapMasternodesLastVote vote.masternodeOutpoint
      = some vote.nBlockHeight := by
  unfold CMasternodePayments.UpdateLastVote at h ⊢
  cases hf : mapFind s.mapMasternodesLastVote vote.masternodeOutpoint with
  | none =>
    simp only [hf]
    exact mapFind_mapEmplace_of_none _ _ _ hf
  | some nHeight =>
    simp only [hf] at h ⊢
    by_cases he : nHeight = vote.nBlockHeight
    · simp [he] at h
    · simp only [he, if_false]
      exact mapFind_mapAssign_self _ _ _

theorem AddOrUpdatePaymentVote_lastVote (s : CMasternodePayments) (ext : External)
    (vote : CMasternodePaymentVote) :
    (s.AddOrUpdatePaymentVote ext vote).2.mapMasternodesLastVote = s.mapMasternodesLastVote := by
  unfold CMasternodePayments.AddOrUpdatePaymentVote
  split
  · rfl
  · simp only []
    split
    · rfl
    · rfl

/-- A vote that the branch relays has passed `UpdateLastVote`: its height is
the last height remembered for its voter. -/
theorem ProcessMessage_relayed_lastVote (s : CMasternodePayments) (ext : External)
    (ctx : NodeContext) (nPeerVersion : Int) (vote : CMasternodePaymentVote)
    (h : (s.ProcessMessage ext ctx nPeerVersion vote).fRelayed = true) :
    mapFind (s.ProcessMessage ext ctx nPeerVersion vote).payments.mapMasternodesLastVote
      vote.masternodeOutpoint = some vote.nBlockHeight := by
  unfold CMasternodePayments.ProcessMessage at h ⊢
  simp only [] at h ⊢
  repeat' split
  all_goals first
    | (exfalso; simp_all; done)
    | (simp only [AddOrUpdatePaymentVote_lastVote]
       apply UpdateLastVote_of_true
       simp_all)

/-- A vote for the height that is remembered as the last vote of its voter
changes neither the tallies nor the last-vote map, and is not relayed. -/
theorem ProcessMessage_same_height_dropped (s : CMasternodePayments) (ext : External)
    (ctx : NodeContext) (nPeerVersion : Int) (vote : CMasternodePaymentVote)
    (h : mapFind s.mapMasternodesLastVote vote.masternodeOutpoint = some vote.nBlockHeight) :
    (s.ProcessMessage ext ctx nPeerVersion vote).fRelayed = false ∧
    (s.ProcessMessage ext ctx nPeerVersion vote).payments.mapMasternodeBlocksPrimary
      = s.mapMasternodeBlocksPrimary ∧
    (s.ProcessMessage ext ctx nPeerVersion vote).payments.mapMasternodesLastVote
      = s.mapMasternodesLastVote := by
  have hu : ∀ votes : List (VoteHash × CMasternodePaymentVote),
      CMasternodePayments.UpdateLastVote
          { s with mapMasternodePaymentVotesPrimary := votes } vote
        = (false, { s with mapMasternodePaymentVotesPrimary := votes }) :=
    fun votes => UpdateLastVote_of_same _ vote h
  unfold CMasternodePayments.ProcessMessage
  simp only [hu]
  repeat' split
  all_goals first
    | exact ⟨rfl, rfl, rfl⟩
    | (exfalso; simp_all)

/-- C9 as stated fails: A votes for height 210 and payee `[0, 1]`, then for
height 211, then for height 210 and payee `[0, 2]`. `UpdateLastVote` remembers
the last height only, so the third vote is recorded too and the tally of
height 210 holds two votes of A. -/
theorem C9_two_votes_same_height_counterexample :
    (sampleVote 210 [0, 1]).masternodeOutpoint = (sampleVote 210 [0, 2]).masternodeOutpoint ∧
    ((((samplePayments.ProcessMessage sampleExternal sampleContext 0
          (sampleVote 210 [0, 1])).payments.ProcessMessage sampleExternal sampleContext 0
          (sampleVote 211 [0, 1])).payments.ProcessMessage sampleExternal sampleContext 0
          (sampleVote 210 [0, 2])).payments.recordedVotes sampleMnA.outpoint 210)
      = [(sampleVote 210 [0, 1]).GetHash, (sampleVote 210 [0, 2]).GetHash] := by
  decide

/-! ### Vote validity -/

/-- C11: a vote that `CMasternodePaymentVote::IsValid` accepts against the
validation height `H` comes from a known masternode at or above the payment
protocol floor, and either the rank of the voter at height `h - 101` is at
most `MNPAYMENTS_SIGNATURES_TOTAL` (so within twice that number) or the
target height `h` is at most `H`. -/
theorem C11_valid_vote_voter_ranked (vote : CMasternodePaymentVote) (ext : External)
    (ctx : NodeContext) (nValidationHeight : Int)
    (hvalid : (vote.IsValid ext ctx nValidationHeight).1 = true) :
    ∃ mnInfo, GetMasternodeInfo ctx.mapMasternodes vote.masternodeOutpoint = some mnInfo ∧
      GetMinMasternodePaymentsProto ctx ≤ mnInfo.nProtocolVersion ∧
      ((∃ nRank : Int,
          GetMasternodeRank ext ctx.fMasternodeListSynced ctx.mapMasternodes
            vote.masternodeOutpoint (vote.nBlockHeight - 101)
            (GetMinMasternodePaymentsProto ctx) = (true, nRank) ∧
          nRank ≤ MNPAYMENTS_SIGNATURES_TOTAL ∧ nRank ≤ 2 * MNPAYMENTS_SIGNATURES_TOTAL) ∨
        vote.nBlockHeight ≤ nValidationHeight) := by
  unfold CMasternodePaymentVote.IsValid at hvalid
  cases hinfo : GetMasternodeInfo ctx.mapMasternodes vote.masternodeOutpoint with
  | none => simp [hinfo] at hvalid
  | some mnInfo =>
    simp only [hinfo] at hvalid
    refine ⟨mnInfo, rfl, ?_⟩
    by_cases hproto : mnInfo.nProtocolVersion < GetMinMasternodePaymentsProto ctx
    · simp [hproto] at hvalid
    · simp only [hproto, if_false] at hvalid
      refine ⟨by omega, ?_⟩
      by_cases hold : (!ctx.fMasternodeMode && decide (vote.nBlockHeight < nValidationHeight)) = true
      · right
        simp only [Bool.and_eq_true, decide_eq_true_eq] at hold
        omega
      · simp only [hold, if_false] at hvalid
        left
        generalize hr : GetMasternodeRank ext ctx.fMasternodeListSynced ctx.mapMasternodes
          vote.masternodeOutpoint (vote.nBlockHeight - 101)
          (GetMinMasternodePaymentsProto ctx) = rank at hvalid
        obtain ⟨ok, nRank⟩ := rank
        cases ok with
        | false => simp at hvalid
        | true =>
          simp only [Bool.not_true, Bool.false_eq_true, if_false] at hvalid
          by_cases hgt : nRank > MNPAYMENTS_SIGNATURES_TOTAL
          · simp only [hgt, if_true] at hvalid
            split at hvalid <;> simp at hvalid
          · refine ⟨nRank, rfl, by omega, ?_⟩
            have : (0 : Int) ≤ MNPAYMENTS_SIGNATURES_TOTAL := by decide
            omega

/-- Example for C11: the vote of A for height 210, validated at height 200; A has rank 1. -/
theorem C11_valid_vote_voter_ranked_witness :
    ((sampleVote 210 [0, 1]).IsValid sampleExternal sampleContext 200).1 = true ∧
    ∃ mnInfo, GetMasternodeInfo sampleContext.mapMasternodes
        (sampleVote 210 [0, 1]).masternodeOutpoint = some mnInfo ∧
      GetMinMasternodePaymentsProto sampleContext ≤ mnInfo.nProtocolVersion ∧
      ((∃ nRank : Int,
          GetMasternodeRank sampleExternal sampleContext.fMasternodeListSynced
            sampleContext.mapMasternodes (sampleVote 210 [0, 1]).masternodeOutpoint
            ((sampleVote 210 [0, 1]).nBlockHeight - 101)
            (GetMinMasternodePaymentsProto sampleContext) = (true, nRank) ∧
          nRank ≤ MNPAYMENTS_SIGNATURES_TOTAL ∧ nRank ≤ 2 * MNPAYMENTS_SIGNATURES_TOTAL) ∨
        (sampleVote 210 [0, 1]).nBlockHeight ≤ 200) :=
  ⟨by decide, C11_valid_vote_voter_ranked (sampleVote 210 [0, 1]) sampleExternal
    sampleContext 200 (by decide)⟩

/-! ### Choice of the next payees -/

theorem queueBody_false (retry retry2 : Option QueueResult) (ext : External) (ctx : NodeContext)
    (payments : CMasternodePayments) (nBlockHeight : Int)
    (vSecondaryMnInfoRet : List CMasternode) :
    queueBody retry ext ctx payments nBlockHeight false vSecondaryMnInfoRet
      = queueBody retry2 ext ctx payments nBlockHeight false vSecondaryMnInfoRet := by
  simp [queueBody]

/-- C13: when the call with the sig-time gate enabled builds its candidate
vectors and fewer than `N / 3` primary candidates survive (`N` the count of
masternodes, integer division), its result is the result of the same call
with the gate disabled; and the call with the gate disabled never defers,
whatever a further retry would return, so the function calls itself at most once. -/
theorem C13_deferral_equals_call_without_gate (ext : External) (ctx : NodeContext)
    (payments : CMasternodePayments) (nBlockHeight : Int)
    (vSecondaryMnInfoRet : List CMasternode)
    (vecMasternodeLastPaid vecMasternodeLastPaidSecondary : List (Int × CMasternode))
    (hprimary : primaryCandidates ext ctx payments nBlockHeight true (CountMasternodes ctx)
      ctx.mapMasternodes = some vecMasternodeLastPaid)
    (hsecondary : secondaryCandidates ext ctx true (CountMasternodes ctx) ctx.mapMasternodes
      = some vecMasternodeLastPaidSecondary)
    (hfew : (vecMasternodeLastPaid.length : Int) < CountMasternodes ctx / 3) :
    GetNextMasternodesInQueueForPayment ext ctx payments nBlockHeight true vSecondaryMnInfoRet
      = GetNextMasternodesInQueueForPayment ext ctx payments nBlockHeight false
          vSecondaryMnInfoRet ∧
    ∀ retry : Option QueueResult,
      queueBody retry ext ctx payments nBlockHeight false vSecondaryMnInfoRet
        = GetNextMasternodesInQueueForPayment ext ctx payments nBlockHeight false
            vSecondaryMnInfoRet := by
  have hfalse : ∀ retry : Option QueueResult,
      queueBody retry ext ctx payments nBlockHeight false vSecondaryMnInfoRet
        = GetNextMasternodesInQueueForPayment ext ctx payments nBlockHeight false
            vSecondaryMnInfoRet :=
    fun retry => queueBody_false _ _ ext ctx payments nBlockHeight vSecondaryMnInfoRet
  refine ⟨?_, hfalse⟩
  rw [← hfalse none]
  by_cases hsync : ctx.fWinnersListSynced = true
  · simp [GetNextMasternodesInQueueForPayment, queueBody, hsync, hprimary, hsecondary, hfew]
  · simp [GetNextMasternodesInQueueForPayment, queueBody, hsync]

/-- Example for C13: at adjusted time 0 no entry of the registry of fifteen
passes the sig-time gate, so the call defers to the call without the gate. -/
theorem C13_deferral_equals_call_without_gate_witness :
    GetNextMasternodesInQueueForPayment sampleExternal
        { sampleQueueContext 15 with nAdjustedTime := 0 } {} 300 true []
      = GetNextMasternodesInQueueForPayment sampleExternal
          { sampleQueueContext 15 with nAdjustedTime := 0 } {} 300 false [] :=
  (C13_deferral_equals_call_without_gate sampleExternal
    { sampleQueueContext 15 with nAdjustedTime := 0 } {} 300 [] [] []
    (by decide) (by decide) (by decide)).1

/-- The number of candidates the primary loop examines: `nTenthNetwork`, and one
when `nTenthNetwork` is below one. -/
theorem selectBest_spec (ext : External) (blockHash : Nat) (nTenthNetwork : Int)
    (l : List (Int × CMasternode)) (nCountTenth : Int) (nHighest : Nat)
    (pBest : Option CMasternode) :
    (selectBest ext blockHash nTenthNetwork l nCountTenth nHighest pBest = pBest ∧
      ∀ e ∈ l.take (max 1 (nTenthNetwork - nCountTenth)).toNat,
        e.2.CalculateScore ext blockHash ≤ nHighest) ∨
    (∃ e ∈ l.take (max 1 (nTenthNetwork - nCountTenth)).toNat,
      selectBest ext blockHash nTenthNetwork l nCountTenth nHighest pBest = some e.2 ∧
      nHighest < e.2.CalculateScore ext blockHash ∧
      ∀ e2 ∈ l.take (max 1 (nTenthNetwork - nCountTenth)).toNat,
        e2.2.CalculateScore ext blockHash ≤ e.2.CalculateScore ext blockHash) := by
  induction l generalizing nCountTenth nHighest pBest with
  | nil => left; simp [selectBest]
  | cons s rest ih =>
    obtain ⟨k, hk⟩ : ∃ k : Nat, (max 1 (nTenthNetwork - nCountTenth)).toNat = k + 1 :=
      ⟨(max 1 (nTenthNetwork - nCountTenth)).toNat - 1, by omega⟩
    rw [hk, List.take_succ_cons]
    unfold selectBest
    by_cases hstop : nCountTenth + 1 ≥ nTenthNetwork
    · have hk0 : k = 0 := by omega
      subst hk0
      simp only [hstop, if_true, List.take_zero, List.mem_singleton, forall_eq, exists_eq_left]
      by_cases hsc : s.2.CalculateScore ext blockHash > nHighest
      · right
        rw [if_pos hsc]
        exact ⟨rfl, hsc, le_refl _⟩
      · left
        rw [if_neg hsc]
        exact ⟨rfl, by omega⟩
    · have hk1 : (max 1 (nTenthNetwork - (nCountTenth + 1))).toNat = k := by omega
      simp only [hstop, if_false]
      by_cases hsc : s.2.CalculateScore ext blockHash > nHighest
      · simp only [hsc, if_true]
        rcases ih (nCountTenth + 1) (s.2.CalculateScore ext blockHash) (some s.2) with
          ⟨h1, h2⟩ | ⟨e, he, h1, h2, h3⟩
        · right
          rw [hk1] at h2
          refine ⟨s, List.mem_cons_self _ _, h1, hsc, ?_⟩
          intro e2 he2
          rcases List.mem_cons.mp he2 with rfl | he2
          · exact le_refl _
          · exact h2 e2 he2
        · right
          rw [hk1] at he h3
          refine ⟨e, List.mem_cons_of_mem _ he, h1, by omega, ?_⟩
          intro e2 he2
          rcases List.mem_cons.mp he2 with rfl | he2
          · omega
          · exact h3 e2 he2
      · simp only [hsc, if_false]
        rcases ih (nCountTenth + 1) nHighest pBest with ⟨h1, h2⟩ | ⟨e, he, h1, h2, h3⟩
        · left
          rw [hk1] at h2
          refine ⟨h1, ?_⟩
          intro e2 he2
          rcases List.mem_cons.mp he2 with rfl | he2
          · omega
          · exact h2 e2 he2
        · right
          rw [hk1] at he h3
          refine ⟨e, List.mem_cons_of_mem _ he, h1, h2, ?_⟩
          intro e2 he2
          rcases List.mem_cons.mp he2 with rfl | he2
          · omega
          · exact h3 e2 he2

/-- A call that returns with the winners list synced went through `queueSelect`
on the candidate vectors of its own gate setting or of the setting without gate. -/
theorem GetNext_through_queueSelect (ext : External) (ctx : NodeContext)
    (payments : CMasternodePayments) (nBlockHeight : Int) (fFilterSigTime : Bool)
    (vSecondaryMnInfoRet : List CMasternode) (r : QueueResult)
    (hsync : ctx.fWinnersListSynced = true)
    (hr : GetNextMasternodesInQueueForPayment ext ctx payments nBlockHeight fFilterSigTime
      vSecondaryMnInfoRet = some r) :
    ∃ (f2 : Bool) (vp vs : List (Int × CMasternode)),
      (f2 = fFilterSigTime ∨ f2 = false) ∧
      primaryCandidates ext ctx payments nBlockHeight f2 (CountMasternodes ctx)
        ctx.mapMasternodes = some vp ∧
      secondaryCandidates ext ctx f2 (CountMasternodes ctx) ctx.mapMasternodes = some vs ∧
      queueSelect ext ctx nBlockHeight (CountMasternodes ctx) vp vs vSecondaryMnInfoRet
        = some r := by
  have hbody : ∀ (retry : Option QueueResult) (f : Bool),
      queueBody retry ext ctx payments nBlockHeight f vSecondaryMnInfoRet = some r →
      (retry = some r ∧ f = true) ∨
      ∃ vp vs : List (Int × CMasternode),
        primaryCandidates ext ctx payments nBlockHeight f (CountMasternodes ctx)
          ctx.mapMasternodes = some vp ∧
        secondaryCandidates ext ctx f (CountMasternodes ctx) ctx.mapMasternodes = some vs ∧
        queueSelect ext ctx nBlockHeight (CountMasternodes ctx) vp vs vSecondaryMnInfoRet
          = some r := by
    intro retry f hq
    unfold queueBody at hq
    simp only [hsync, Bool.not_true, Bool.false_eq_true, if_false] at hq
    cases hp : primaryCandidates ext ctx payments nBlockHeight f (CountMasternodes ctx)
        ctx.mapMasternodes with
    | none => simp [hp] at hq
    | some vp =>
      cases hs : secondaryCandidates ext ctx f (CountMasternodes ctx) ctx.mapMasternodes with
      | none => simp [hp, hs] at hq
      | some vs =>
        simp only [hp, hs] at hq
        split at hq
        · rename_i hdefer
          left
          simp only [Bool.and_eq_true] at hdefer
          exact ⟨hq, hdefer.1⟩
        · exact Or.inr ⟨vp, vs, rfl, rfl, hq⟩
  unfold GetNextMasternodesInQueueForPayment at hr
  rcases hbody _ fFilterSigTime hr with ⟨hretry, _⟩ | ⟨vp, vs, h1, h2, h3⟩
  · rcases hbody _ false hretry with ⟨_, hf⟩ | ⟨vp, vs, h1, h2, h3⟩
    · exact absurd hf (by decide)
    · exact ⟨false, vp, vs, Or.inr rfl, h1, h2, h3⟩
  · exact ⟨fFilterSigTime, vp, vs, Or.inl rfl, h1, h2, h3⟩


/-- What a call of `queueSelect` that found the block hash returns. -/
theorem queueSelect_primary (ext : External) (ctx : NodeContext) (nBlockHeight nMnCount : Int)
    (vp vs : List (Int × CMasternode)) (vSecondaryMnInfoRet : List CMasternode)
    (r : QueueResult) (blockHash : Nat)
    (hb : ext.GetBlockHash (nBlockHeight - (ctx.nCoinbaseMaturity + 1)) = some blockHash)
    (hr : queueSelect ext ctx nBlockHeight nMnCount vp vs vSecondaryMnInfoRet = some r) :
    r.mnInfoRet = selectBest ext blockHash (nMnCount / 10) (stdSort CompareLastPaidBlock vp)
      0 0 none ∧
    r.fResult = r.mnInfoRet.isSome ∧
    copySecondaries (stdSort CompareLastPaidBlock vs) r.mnInfoRet
      ctx.nMasternodeMaturitySecondariesMaxCount vSecondaryMnInfoRet
      = some r.vSecondaryMnInfoRet := by
  have hq : queueSelectWithHash ext ctx nMnCount blockHash (vp.length : Int)
      (stdSort CompareLastPaidBlock vp) (stdSort CompareLastPaidBlock vs) vSecondaryMnInfoRet
      = some r := by
    rw [← hr, queueSelect, hb]
  unfold queueSelectWithHash at hq
  rw [Option.map_eq_some'] at hq
  obtain ⟨out, hc, hr2⟩ := hq
  rw [← hr2]
  exact ⟨rfl, rfl, hc⟩

/-- C12, as amended: a call that returns with the winners list synced and the
block hash at `h - COINBASE_MATURITY - 1` known examines the oldest
`max(1, N / 10)` entries of its sorted primary candidate list (`N` the count
of masternodes at or above the protocol floor, integer division; all entries
when fewer exist) and returns as primary an examined entry of maximum score,
unless every examined score is zero, in which case it returns no primary. -/
theorem C12_primary_is_best_of_examined_tenth (ext : External) (ctx : NodeContext)
    (payments : CMasternodePayments) (nBlockHeight : Int) (fFilterSigTime : Bool)
    (vSecondaryMnInfoRet : List CMasternode) (r : QueueResult) (blockHash : Nat)
    (hsync : ctx.fWinnersListSynced = true)
    (hb : ext.GetBlockHash (nBlockHeight - (ctx.nCoinbaseMaturity + 1)) = some blockHash)
    (hr : GetNextMasternodesInQueueForPayment ext ctx payments nBlockHeight fFilterSigTime
      vSecondaryMnInfoRet = some r) :
    ∃ vp : List (Int × CMasternode),
      (primaryCandidates ext ctx payments nBlockHeight fFilterSigTime (CountMasternodes ctx)
          ctx.mapMasternodes = some vp ∨
        primaryCandidates ext ctx payments nBlockHeight false (CountMasternodes ctx)
          ctx.mapMasternodes = some vp) ∧
      ((r.mnInfoRet = none ∧
          ∀ e ∈ (stdSort CompareLastPaidBlock vp).take
              (max 1 (CountMasternodes ctx / 10)).toNat,
            e.2.CalculateScore ext blockHash = 0) ∨
        ∃ e ∈ (stdSort CompareLastPaidBlock vp).take (max 1 (CountMasternodes ctx / 10)).toNat,
          r.mnInfoRet = some e.2 ∧ 0 < e.2.CalculateScore ext blockHash ∧
          ∀ e2 ∈ (stdSort CompareLastPaidBlock vp).take
              (max 1 (CountMasternodes ctx / 10)).toNat,
            e2.2.CalculateScore ext blockHash ≤ e.2.CalculateScore ext blockHash) := by
  obtain ⟨f2, vp, vs, hf2, hp, _, hq⟩ := GetNext_through_queueSelect ext ctx payments
    nBlockHeight fFilterSigTime vSecondaryMnInfoRet r hsync hr
  refine ⟨vp, ?_, ?_⟩
  · rcases hf2 with rfl | rfl
    · exact Or.inl hp
    · exact Or.inr hp
  · have hbest := (queueSelect_primary ext ctx nBlockHeight _ vp vs vSecondaryMnInfoRet r
      blockHash hb hq).1
    have hspec := selectBest_spec ext blockHash (CountMasternodes ctx / 10)
      (stdSort CompareLastPaidBlock vp) 0 0 none
    rw [← hbest] at hspec
    simp only [sub_zero] at hspec
    rcases hspec with ⟨h1, h2⟩ | ⟨e, he, h1, h2, h3⟩
    · exact Or.inl ⟨h1, fun e he => Nat.le_zero.mp (h2 e he)⟩
    · exact Or.inr ⟨e, he, h1, h2, h3⟩


/-- Example for C12: the registry of 25; the two oldest candidates are
examined and the second, whose score is higher, is the primary. -/
theorem C12_primary_is_best_of_examined_tenth_witness :
    (GetNextMasternodesInQueueForPayment sampleExternal (sampleQueueContext 25) {} 300 true
      []).map (fun r => r.mnInfoRet) = some (some (sampleQueueMn 2)) ∧
    ∃ r vp, GetNextMasternodesInQueueForPayment sampleExternal (sampleQueueContext 25) {} 300
        true [] = some r ∧
      ((r.mnInfoRet = none ∧
          ∀ e ∈ (stdSort CompareLastPaidBlock vp).take
              (max 1 (CountMasternodes (sampleQueueContext 25) / 10)).toNat,
            e.2.CalculateScore sampleExternal 199 = 0) ∨
        ∃ e ∈ (stdSort CompareLastPaidBlock vp).take
            (max 1 (CountMasternodes (sampleQueueContext 25) / 10)).toNat,
          r.mnInfoRet = some e.2 ∧ 0 < e.2.CalculateScore sampleExternal 199 ∧
          ∀ e2 ∈ (stdSort CompareLastPaidBlock vp).take
              (max 1 (CountMasternodes (sampleQueueContext 25) / 10)).toNat,
            e2.2.CalculateScore sampleExternal 199 ≤ e.2.CalculateScore sampleExternal 199) := by
  refine ⟨by decide, ?_⟩
  cases hq : GetNextMasternodesInQueueForPayment sampleExternal (sampleQueueContext 25) {} 300
      true [] with
  | none => exact absurd hq (by decide)
  | some r =>
    obtain ⟨vp, _, h⟩ := C12_primary_is_best_of_examined_tenth sampleExternal
      (sampleQueueContext 25) {} 300 true [] r 199 rfl (by decide) hq
    exact ⟨r, vp, rfl, h⟩

/-- C12 as stated fails: with fifteen masternodes at or above the protocol
floor the two oldest candidates are the masternodes 1 and 2, and the second
has the higher score, but the primary returned is masternode 1: the loop
stops after `15 / 10 = 1` candidate, not after `ceil(15 / 10) = 2`. -/
theorem C12_examines_floor_not_ceil_counterexample :
    CountMasternodes (sampleQueueContext 15) = 15 ∧
    (primaryCandidates sampleExternal (sampleQueueContext 15) {} 300 true 15
        (sampleQueueContext 15).mapMasternodes).map
      (fun vp => ((stdSort CompareLastPaidBlock vp).take 2).map fun e => e.2)
      = some [sampleQueueMn 1, sampleQueueMn 2] ∧
    (sampleQueueMn 1).CalculateScore sampleExternal 199
      < (sampleQueueMn 2).CalculateScore sampleExternal 199 ∧
    (GetNextMasternodesInQueueForPayment sampleExternal (sampleQueueContext 15) {} 300 true
      []).map (fun r => (r.fResult, r.mnInfoRet)) = some (true, some (sampleQueueMn 1)) := by
  decide

/-! ### The payee queue: the secondaries -/

theorem GetMasternodeInfo_eq_none_iff (m : List CMasternode) (o : COutPoint) :
    GetMasternodeInfo m o = none ↔ ∀ x ∈ m, x.outpoint ≠ o := by
  induction m with
  | nil => simp [GetMasternodeInfo]
  | cons x rest ih =>
    unfold GetMasternodeInfo
    by_cases h : x.outpoint = o
    · simp [h]
    · simp [h, ih]

theorem GetMasternodeInfo_registryAssign_self (m : List CMasternode) (mn : CMasternode) :
    GetMasternodeInfo (registryAssign m mn) mn.outpoint = some mn := by
  induction m with
  | nil => simp [registryAssign, GetMasternodeInfo]
  | cons x rest ih =>
    unfold registryAssign
    by_cases h : x.outpoint = mn.outpoint
    · simp [h, GetMasternodeInfo]
    · by_cases h2 : mn.outpoint.lt x.outpoint = true
      · simp [h, h2, GetMasternodeInfo]
      · simp [h, h2, GetMasternodeInfo, ih]

theorem GetMasternodeInfo_registryAssign_other (m : List CMasternode) (mn : CMasternode)
    (o : COutPoint) (ho : o ≠ mn.outpoint) :
    GetMasternodeInfo (registryAssign m mn) o = GetMasternodeInfo m o := by
  have ho2 : ¬ mn.outpoint = o := fun h => ho h.symm
  induction m with
  | nil => simp [registryAssign, GetMasternodeInfo, ho2]
  | cons x rest ih =>
    unfold registryAssign
    by_cases h : x.outpoint = mn.outpoint
    · have hx : ¬ x.outpoint = o := by rw [h]; exact ho2
      simp [h, GetMasternodeInfo, ho2]
    · by_cases h2 : mn.outpoint.lt x.outpoint = true
      · simp [h, h2, GetMasternodeInfo, ho2]
      · rw [if_neg h, if_neg h2]
        unfold GetMasternodeInfo
        by_cases h3 : x.outpoint = o
        · rw [if_pos h3, if_pos h3]
        · rw [if_neg h3, if_neg h3]
          exact ih

/-- Assigning under an outpoint that is absent adds one entry. -/
theorem registryAssign_perm (m : List CMasternode) (mn : CMasternode)
    (h : GetMasternodeInfo m mn.outpoint = none) : (registryAssign m mn).Perm (mn :: m) := by
  induction m with
  | nil => simp [registryAssign]
  | cons x rest ih =>
    rw [GetMasternodeInfo_eq_none_iff] at h
    have hx : ¬ x.outpoint = mn.outpoint := h x (List.mem_cons_self _ _)
    have hrest : GetMasternodeInfo rest mn.outpoint = none :=
      (GetMasternodeInfo_eq_none_iff rest mn.outpoint).mpr
        fun y hy => h y (List.mem_cons_of_mem _ hy)
    unfold registryAssign
    by_cases h2 : mn.outpoint.lt x.outpoint = true
    · simp [hx, h2]
    · simp only [hx, h2, if_false]
      exact ((ih hrest).cons x).trans (List.Perm.swap mn x rest)

/-- C15: `Add(mn)` returns false exactly when the registry has an entry under
`mn.outpoint`, and then the state (registry and flags) and `mn` are as before.
Otherwise the entry stored is `mn` as the call leaves it, that is `mn` with
the activation height taken from the coin when it was zero: a following
`Find(mn.outpoint)` returns it, the lookup of every other outpoint is as
before, `fMasternodesAdded` is set and the other members are as before. A
registry with one entry per outpoint stays so. -/
theorem C15_add_fails_iff_outpoint_present (self : CMasternodeMan) (ext : External)
    (mn : CMasternode) :
    ((self.Add ext mn).1 = false ↔ self.Has mn.outpoint = true) ∧
    (self.Has mn.outpoint = true →
      (self.Add ext mn).2.2 = self ∧ (self.Add ext mn).2.1 = mn) ∧
    (self.Has mn.outpoint = false →
      (self.Add ext mn).2.2.Find mn.outpoint = some (self.Add ext mn).2.1 ∧
      (self.Add ext mn).2.1.outpoint = mn.outpoint ∧
      (mn.activationBlockHeight ≠ 0 → (self.Add ext mn).2.1 = mn) ∧
      { (self.Add ext mn).2.1 with activationBlockHeight := mn.activationBlockHeight } = mn ∧
      (∀ o, o ≠ mn.outpoint → (self.Add ext mn).2.2.Find o = self.Find o) ∧
      (self.Add ext mn).2.2.fMasternodesAdded = true ∧
      (self.Add ext mn).2.2.mapSeenMasternodeBroadcast = self.mapSeenMasternodeBroadcast ∧
      (self.Add ext mn).2.2.mWeAskedForMasternodeListEntry
        = self.mWeAskedForMasternodeListEntry ∧
      (self.Add ext mn).2.2.fMasternodesRemoved = self.fMasternodesRemoved) ∧
    ((self.mapMasternodes.map fun x => x.outpoint).Nodup →
      ((self.Add ext mn).2.2.mapMasternodes.map fun x => x.outpoint).Nodup) := by
  by_cases hhas : self.Has mn.outpoint = true
  · have hadd : self.Add ext mn = (false, mn, self) := by
      simp only [CMasternodeMan.Add, hhas, if_true]
    rw [hadd]
    refine ⟨by simp [hhas], fun _ => ⟨rfl, rfl⟩, fun h => ?_, fun h => h⟩
    rw [hhas] at h
    cases h
  · have hhas2 : self.Has mn.outpoint = false := by simpa using hhas
    have hnone : GetMasternodeInfo self.mapMasternodes mn.outpoint = none := by
      unfold CMasternodeMan.Has at hhas2
      simpa using hhas2
    -- the entry as the call leaves it
    obtain ⟨mn1, hmn1, hout, hact, hrest⟩ : ∃ mn1 : CMasternode,
        self.Add ext mn = (true, mn1,
          { self with mapMasternodes := registryAssign self.mapMasternodes mn1,
                      fMasternodesAdded := true }) ∧
        mn1.outpoint = mn.outpoint ∧ (mn.activationBlockHeight ≠ 0 → mn1 = mn) ∧
        { mn1 with activationBlockHeight := mn.activationBlockHeight } = mn := by
      simp only [CMasternodeMan.Add, hhas2, Bool.false_eq_true, if_false]
      by_cases h0 : mn.activationBlockHeight = 0
      · cases hc : ext.GetUTXOCoin mn.outpoint with
        | none =>
          refine ⟨mn, ?_, rfl, fun _ => rfl, rfl⟩
          simp [h0, hc, Option.elim]
        | some nHeight =>
          refine ⟨{ mn with activationBlockHeight := nHeight }, ?_, rfl,
            fun h => absurd h0 h, rfl⟩
          simp [h0, hc, Option.elim]
      · refine ⟨mn, ?_, rfl, fun _ => rfl, rfl⟩
        simp [h0]
    rw [hmn1]
    refine ⟨by simp [hhas2], fun h => absurd h hhas, fun _ => ?_, fun hnd => ?_⟩
    · refine ⟨?_, hout, hact, hrest, ?_, rfl, rfl, rfl, rfl⟩
      · show GetMasternodeInfo (registryAssign self.mapMasternodes mn1) mn.outpoint = some mn1
        rw [← hout]
        exact GetMasternodeInfo_registryAssign_self _ _
      · intro o ho
        show GetMasternodeInfo (registryAssign self.mapMasternodes mn1) o
          = GetMasternodeInfo self.mapMasternodes o
        exact GetMasternodeInfo_registryAssign_other _ _ _ (by rw [hout]; exact ho)
    · show ((registryAssign self.mapMasternodes mn1).map fun x => x.outpoint).Nodup
      have hperm := registryAssign_perm self.mapMasternodes mn1 (by rw [hout]; exact hnone)
      rw [(hperm.map _).nodup_iff, List.map_cons, List.nodup_cons]
      refine ⟨?_, hnd⟩
      intro hmem
      obtain ⟨y, hy, hyo⟩ := List.mem_map.mp hmem
      exact (GetMasternodeInfo_eq_none_iff _ _).mp hnone y hy (by rw [hyo, hout])

/-- Example for C15: masternode 2 is in the registry of the examples and is not
added again; masternode 3 is not, and is stored between the masternodes 2 and 4. -/
theorem C15_add_fails_iff_outpoint_present_witness :
    sampleMan.Has (sampleQueueMn 2).outpoint = true ∧
    (sampleMan.Add sampleExternal (sampleQueueMn 2)).2.2 = sampleMan ∧
    sampleMan.Has (sampleQueueMn 3).outpoint = false ∧
    (sampleMan.Add sampleExternal (sampleQueueMn 3)).2.2.Find (sampleQueueMn 3).outpoint
      = some (sampleMan.Add sampleExternal (sampleQueueMn 3)).2.1 ∧
    (sampleMan.Add sampleExternal (sampleQueueMn 3)).2.1 = sampleQueueMn 3 ∧
    (sampleMan.Add sampleExternal (sampleQueueMn 3)).2.2.mapMasternodes
      = [sampleQueueMn 1, sampleQueueMn 2, sampleQueueMn 3, sampleQueueMn 4] ∧
    ((sampleMan.Add sampleExternal (sampleQueueMn 3)).2.2.mapMasternodes.map
      fun x => x.outpoint).Nodup :=
  ⟨by decide,
   ((C15_add_fails_iff_outpoint_present sampleMan sampleExternal (sampleQueueMn 2)).2.1
      (by decide)).1,
   by decide,
   ((C15_add_fails_iff_outpoint_present sampleMan sampleExternal (sampleQueueMn 3)).2.2.1
      (by decide)).1,
   ((C15_add_fails_iff_outpoint_present sampleMan sampleExternal (sampleQueueMn 3)).2.2.1
      (by decide)).2.2.1 (by decide),
   by decide,
   (C15_add_fails_iff_outpoint_present sampleMan sampleExternal (sampleQueueMn 3)).2.2.2
      (by decide)⟩

theorem mapFind_eq_none_iff {κ ν : Type} [DecidableEq κ] (m : List (κ × ν)) (k : κ) :
    mapFind m k = none ↔ ∀ e ∈ m, e.1 ≠ k := by
  induction m with
  | nil => simp [mapFind]
  | cons e rest ih =>
    unfold mapFind
    by_cases h : e.1 = k
    · simp [h]
    · simp [h, ih]

/-- In a registry with one entry per outpoint the lookup of the outpoint of an
entry returns the entry. -/
theorem GetMasternodeInfo_of_mem (m : List CMasternode) (mn : CMasternode) (hmem : mn ∈ m)
    (hnd : (m.map fun x => x.outpoint).Nodup) : GetMasternodeInfo m mn.outpoint = some mn := by
  induction m with
  | nil => cases hmem
  | cons x rest ih =>
    rw [List.map_cons, List.nodup_cons] at hnd
    unfold GetMasternodeInfo
    rcases List.mem_cons.mp hmem with rfl | hrest
    · simp
    · have hne : ¬ x.outpoint = mn.outpoint := fun h =>
        hnd.1 (List.mem_map.mpr ⟨mn, hrest, h.symm⟩)
      rw [if_neg hne]
      exact ih hrest hnd.2

/-- What the removal loop leaves: the entries that are not spent; the
seen-broadcast records other than those under the hash of a spent entry; the
ask records other than those under the outpoint of a spent entry; and the flag,
set when an entry was spent. -/
theorem removeSpentLoop_spec (ext : External) (todo : List CMasternode)
    (seen : List (Nat × (Int × CMasternodeBroadcast)))
    (asked : List (COutPoint × List (Nat × Int))) (f : Bool) :
    (removeSpentLoop ext todo seen asked f).mapMasternodes
      = todo.filter (fun mn => !mn.IsOutpointSpent) ∧
    (removeSpentLoop ext todo seen asked f).mapSeenMasternodeBroadcast
      = seen.filter (fun e => !(todo.any fun mn => mn.IsOutpointSpent &&
          decide (e.1 = ext.broadcastHash { toCMasternode := mn }))) ∧
    (removeSpentLoop ext todo seen asked f).mWeAskedForMasternodeListEntry
      = asked.filter (fun e => !(todo.any fun mn => mn.IsOutpointSpent &&
          decide (e.1 = mn.outpoint))) ∧
    (removeSpentLoop ext todo seen asked f).fMasternodesRemoved
      = (f || todo.any fun mn => mn.IsOutpointSpent) := by
  induction todo generalizing seen asked f with
  | nil => simp [removeSpentLoop]
  | cons mn rest ih =>
    unfold removeSpentLoop
    by_cases hs : mn.IsOutpointSpent = true
    · rw [if_pos hs]
      obtain ⟨h1, h2, h3, h4⟩ := ih
        (mapErase seen (ext.broadcastHash { toCMasternode := mn }))
        (mapErase asked mn.outpoint) true
      refine ⟨?_, ?_, ?_, ?_⟩
      · rw [h1]
        simp [hs]
      · rw [h2]
        unfold mapErase
        rw [List.filter_filter]
        apply List.filter_congr
        intro e _
        simp [hs, Bool.and_comm]
      · rw [h3]
        unfold mapErase
        rw [List.filter_filter]
        apply List.filter_congr
        intro e _
        simp [hs, Bool.and_comm]
      · rw [h4]
        simp [hs]
    · rw [if_neg hs]
      have hs2 : mn.IsOutpointSpent = false := by simpa using hs
      obtain ⟨h1, h2, h3, h4⟩ := ih seen asked f
      refine ⟨?_, ?_, ?_, ?_⟩
      · show mn :: (removeSpentLoop ext rest seen asked f).mapMasternodes = _
        rw [h1]
        simp [hs2]
      · show (removeSpentLoop ext rest seen asked f).mapSeenMasternodeBroadcast = _
        rw [h2]
        simp [hs2]
      · show (removeSpentLoop ext rest seen asked f).mWeAskedForMasternodeListEntry = _
        rw [h3]
        simp [hs2]
      · show (removeSpentLoop ext rest seen asked f).fMasternodesRemoved = _
        rw [h4]
        simp [hs2]

/-- C16: with the masternode list synced, after the removal pass of
`CheckAndRemove` the registry holds the entries, as `Check()` leaves them, that
are not `OUTPOINT_SPENT`, in their order. Every entry that is `OUTPOINT_SPENT`
then is gone, no seen-broadcast record is left under its hash, no ask record is
left under its outpoint and `fMasternodesRemoved` is set; every other entry is
still present. In a registry with one entry per outpoint the lookup of the
outpoint of a spent entry finds nothing and that of another entry finds the
entry. -/
theorem C16_removal_pass_drops_spent_entries (self : CMasternodeMan) (ext : External)
    (ctx : NodeContext) (hsync : ctx.fMasternodeListSynced = true) :
    (self.CheckAndRemove ext ctx).mapMasternodes
      = (self.mapMasternodes.map ext.CheckMasternode).filter
          (fun mn => !mn.IsOutpointSpent) ∧
    (∀ mn ∈ self.mapMasternodes.map ext.CheckMasternode, mn.IsOutpointSpent = true →
      mn ∉ (self.CheckAndRemove ext ctx).mapMasternodes ∧
      mapFind (self.CheckAndRemove ext ctx).mapSeenMasternodeBroadcast
        (ext.broadcastHash { toCMasternode := mn }) = none ∧
      mapFind (self.CheckAndRemove ext ctx).mWeAskedForMasternodeListEntry mn.outpoint = none ∧
      (self.CheckAndRemove ext ctx).fMasternodesRemoved = true) ∧
    (∀ mn ∈ self.mapMasternodes.map ext.CheckMasternode, mn.IsOutpointSpent = false →
      mn ∈ (self.CheckAndRemove ext ctx).mapMasternodes) ∧
    (((self.mapMasternodes.map ext.CheckMasternode).map fun x => x.outpoint).Nodup →
      ∀ mn ∈ self.mapMasternodes.map ext.CheckMasternode,
        (mn.IsOutpointSpent = true →
          (self.CheckAndRemove ext ctx).Find mn.outpoint = none) ∧
        (mn.IsOutpointSpent = false →
          (self.CheckAndRemove ext ctx).Find mn.outpoint = some mn)) := by
  obtain ⟨h1, h2, h3, h4⟩ := removeSpentLoop_spec ext
    (self.mapMasternodes.map ext.CheckMasternode) self.mapSeenMasternodeBroadcast
    self.mWeAskedForMasternodeListEntry self.fMasternodesRemoved
  have hreg : (self.CheckAndRemove ext ctx).mapMasternodes
      = (self.mapMasternodes.map ext.CheckMasternode).filter
          (fun mn => !mn.IsOutpointSpent) := by
    simp only [CMasternodeMan.CheckAndRemove, hsync, Bool.not_true, Bool.false_eq_true,
      if_false]
    exact h1
  have hseen : (self.CheckAndRemove ext ctx).mapSeenMasternodeBroadcast
      = self.mapSeenMasternodeBroadcast.filter
          (fun e => !((self.mapMasternodes.map ext.CheckMasternode).any fun mn =>
            mn.IsOutpointSpent && decide (e.1 = ext.broadcastHash { toCMasternode := mn }))) := by
    simp only [CMasternodeMan.CheckAndRemove, hsync, Bool.not_true, Bool.false_eq_true,
      if_false]
    exact h2
  have hasked : (self.CheckAndRemove ext ctx).mWeAskedForMasternodeListEntry
      = self.mWeAskedForMasternodeListEntry.filter
          (fun e => !((self.mapMasternodes.map ext.CheckMasternode).any fun mn =>
            mn.IsOutpointSpent && decide (e.1 = mn.outpoint))) := by
    simp only [CMasternodeMan.CheckAndRemove, hsync, Bool.not_true, Bool.false_eq_true,
      if_false]
    exact h3
  have hflag : (self.CheckAndRemove ext ctx).fMasternodesRemoved
      = (self.fMasternodesRemoved ||
          (self.mapMasternodes.map ext.CheckMasternode).any fun mn => mn.IsOutpointSpent) := by
    simp only [CMasternodeMan.CheckAndRemove, hsync, Bool.not_true, Bool.false_eq_true,
      if_false]
    exact h4
  refine ⟨hreg, ?_, ?_, ?_⟩
  · intro mn hmem hspent
    refine ⟨?_, ?_, ?_, ?_⟩
    · rw [hreg]
      intro hin
      have := (List.mem_filter.mp hin).2
      simp [hspent] at this
    · rw [hseen, mapFind_eq_none_iff]
      intro e he hk
      have hp := (List.mem_filter.mp he).2
      have hany : ((self.mapMasternodes.map ext.CheckMasternode).any fun mn2 =>
          mn2.IsOutpointSpent &&
            decide (e.1 = ext.broadcastHash { toCMasternode := mn2 })) = true :=
        List.any_eq_true.mpr ⟨mn, hmem, by simp [hspent, hk]⟩
      rw [hany] at hp
      cases hp
    · rw [hasked, mapFind_eq_none_iff]
      intro e he hk
      have hp := (List.mem_filter.mp he).2
      have hany : ((self.mapMasternodes.map ext.CheckMasternode).any fun mn2 =>
          mn2.IsOutpointSpent && decide (e.1 = mn2.outpoint)) = true :=
        List.any_eq_true.mpr ⟨mn, hmem, by simp [hspent, hk]⟩
      rw [hany] at hp
      cases hp
    · rw [hflag]
      have hany : ((self.mapMasternodes.map ext.CheckMasternode).any
          fun mn2 => mn2.IsOutpointSpent) = true :=
        List.any_eq_true.mpr ⟨mn, hmem, hspent⟩
      rw [hany, Bool.or_true]
  · intro mn hmem hspent
    rw [hreg]
    exact List.mem_filter.mpr ⟨hmem, by simp [hspent]⟩
  · intro hnd mn hmem
    have hnd2 : ((((self.mapMasternodes.map ext.CheckMasternode).filter
        (fun mn => !mn.IsOutpointSpent))).map fun x => x.outpoint).Nodup :=
      hnd.sublist ((List.filter_sublist _).map _)
    constructor
    · intro hspent
      show GetMasternodeInfo (self.CheckAndRemove ext ctx).mapMasternodes mn.outpoint = none
      rw [hreg, GetMasternodeInfo_eq_none_iff]
      intro x hx hxo
      have hxmem := (List.mem_filter.mp hx).1
      have hxs := (List.mem_filter.mp hx).2
      have hfx := GetMasternodeInfo_of_mem _ x hxmem hnd
      have hfm := GetMasternodeInfo_of_mem _ mn hmem hnd
      rw [hxo, hfm] at hfx
      have hxeq : mn = x := Option.some.inj hfx
      rw [← hxeq, hspent] at hxs
      cases hxs
    · intro hspent
      show GetMasternodeInfo (self.CheckAndRemove ext ctx).mapMasternodes mn.outpoint = some mn
      rw [hreg]
      exact GetMasternodeInfo_of_mem _ mn
        (List.mem_filter.mpr ⟨hmem, by simp [hspent]⟩) hnd2

/-- Example for C16: the registry of the examples with the spent masternode 2;
the pass drops it with its two records and keeps the masternodes 1 and 4. -/
theorem C16_removal_pass_drops_spent_entries_witness :
    (sampleManSpent.CheckAndRemove sampleExternal {}).mapMasternodes
      = [sampleQueueMn 1, sampleQueueMn 4] ∧
    (sampleSpentMn ∉ (sampleManSpent.CheckAndRemove sampleExternal {}).mapMasternodes ∧
      mapFind (sampleManSpent.CheckAndRemove sampleExternal {}).mapSeenMasternodeBroadcast
        (sampleExternal.broadcastHash { toCMasternode := sampleSpentMn }) = none ∧
      mapFind (sampleManSpent.CheckAndRemove sampleExternal {}).mWeAskedForMasternodeListEntry
        sampleSpentMn.outpoint = none ∧
      (sampleManSpent.CheckAndRemove sampleExternal {}).fMasternodesRemoved = true) ∧
    sampleQueueMn 4 ∈ (sampleManSpent.CheckAndRemove sampleExternal {}).mapMasternodes ∧
    (sampleManSpent.CheckAndRemove sampleExternal {}).Find sampleSpentMn.outpoint = none ∧
    (sampleManSpent.CheckAndRemove sampleExternal {}).Find (sampleQueueMn 4).outpoint
      = some (sampleQueueMn 4) ∧
    (sampleManSpent.CheckAndRemove sampleExternal {}).mapSeenMasternodeBroadcast
      = [(1, (0, { toCMasternode := sampleQueueMn 1 }))] :=
  ⟨(C16_removal_pass_drops_spent_entries sampleManSpent sampleExternal {} rfl).1.trans
      (by decide),
   (C16_removal_pass_drops_spent_entries sampleManSpent sampleExternal {} rfl).2.1
      sampleSpentMn (by decide) (by decide),
   (C16_removal_pass_drops_spent_entries sampleManSpent sampleExternal {} rfl).2.2.1
      (sampleQueueMn 4) (by decide) (by decide),
   ((C16_removal_pass_drops_spent_entries sampleManSpent sampleExternal {} rfl).2.2.2
      (by decide) sampleSpentMn (by decide)).1 (by decide),
   ((C16_removal_pass_drops_spent_entries sampleManSpent sampleExternal {} rfl).2.2.2
      (by decide) (sampleQueueMn 4) (by decide)).2 (by decide),
   by decide⟩

/-! ### The vote store -/

/-- What the loop of `CheckAndRemove` returns when no subtraction leaves the
range of `int`: the votes within the storage limit, and the tallies other than
those of the height of a vote beyond it. -/
theorem checkAndRemoveLoop_spec (nLimit tip : Int)
    (todo : List (VoteHash × CMasternodePaymentVote))
    (blocks : List (Int × CMasternodeBlockPayees))
    (hrange : ∀ e ∈ todo, -(2 ^ 31) ≤ tip - e.2.nBlockHeight ∧ tip - e.2.nBlockHeight < 2 ^ 31) :
    checkAndRemoveLoop nLimit tip todo blocks
      = some (todo.filter (fun e => decide (tip - e.2.nBlockHeight ≤ nLimit)),
          blocks.filter (fun b => !(todo.any fun e =>
            decide (tip - e.2.nBlockHeight > nLimit) && decide (b.1 = e.2.nBlockHeight)))) := by
  induction todo generalizing blocks with
  | nil => simp [checkAndRemoveLoop]
  | cons e rest ih =>
    have he := hrange e (List.mem_cons_self _ _)
    have hrest : ∀ e2 ∈ rest, -(2 ^ 31) ≤ tip - e2.2.nBlockHeight ∧
        tip - e2.2.nBlockHeight < 2 ^ 31 := fun e2 h2 => hrange e2 (List.mem_cons_of_mem _ h2)
    unfold checkAndRemoveLoop
    rw [if_neg (by omega)]
    by_cases hold : tip - e.2.nBlockHeight > nLimit
    · rw [if_pos hold, ih _ hrest]
      have hnot : ¬ tip - e.2.nBlockHeight ≤ nLimit := by omega
      congr 2
      · rw [List.filter_cons_of_neg (by simp [hnot])]
      · unfold mapErase
        rw [List.filter_filter]
        apply List.filter_congr
        intro b _
        simp [hold, Bool.and_comm]
    · rw [if_neg hold, ih _ hrest]
      have hle : tip - e.2.nBlockHeight ≤ nLimit := by omega
      simp only [Option.map_some']
      congr 2
      · rw [List.filter_cons_of_pos (by simp [hle])]
      · apply List.filter_congr
        intro b _
        simp [hold]

/-- What `CheckAndRemove` does to a store within the range of `int`: with the
blockchain synced and every stored height `h` such that
`nCachedBlockHeight - h` is in the range of `int`, `CheckAndRemove` returns,
and afterwards the votes stored are those with
`nCachedBlockHeight - h <= GetStorageLimit()`, in their order: a stored vote
is retained exactly when it is within the limit; for every vote beyond the
limit the vote is erased and no tally is left for its height; the tallies of
the other heights and the other members are as before. -/
theorem CheckAndRemove_within_int_range (self : CMasternodePayments) (ext : External)
    (ctx : NodeContext) (hsync : ctx.fBlockchainSynced = true)
    (hrange : ∀ e ∈ self.mapMasternodePaymentVotesPrimary,
      -(2 ^ 31) ≤ self.nCachedBlockHeight - e.2.nBlockHeight ∧
      self.nCachedBlockHeight - e.2.nBlockHeight < 2 ^ 31) :
    ∃ after : CMasternodePayments, self.CheckAndRemove ext ctx = some after ∧
      after.mapMasternodePaymentVotesPrimary
        = self.mapMasternodePaymentVotesPrimary.filter (fun e =>
            decide (self.nCachedBlockHeight - e.2.nBlockHeight ≤ self.GetStorageLimit ext ctx)) ∧
      (∀ e ∈ self.mapMasternodePaymentVotesPrimary,
        (e ∈ after.mapMasternodePaymentVotesPrimary ↔
          self.nCachedBlockHeight - e.2.nBlockHeight ≤ self.GetStorageLimit ext ctx)) ∧
      (∀ e ∈ self.mapMasternodePaymentVotesPrimary,
        self.nCachedBlockHeight - e.2.nBlockHeight > self.GetStorageLimit ext ctx →
          e ∉ after.mapMasternodePaymentVotesPrimary ∧
          mapFind after.mapMasternodeBlocksPrimary e.2.nBlockHeight = none) ∧
      after.mapMasternodeBlocksPrimary
        = self.mapMasternodeBlocksPrimary.filter (fun b =>
            !(self.mapMasternodePaymentVotesPrimary.any fun e =>
              decide (self.nCachedBlockHeight - e.2.nBlockHeight > self.GetStorageLimit ext ctx)
                && decide (b.1 = e.2.nBlockHeight))) ∧
      after.mapMasternodesLastVote = self.mapMasternodesLastVote ∧
      after.nCachedBlockHeight = self.nCachedBlockHeight ∧
      after.nMinBlocksToStore = self.nMinBlocksToStore := by
  have hloop := checkAndRemoveLoop_spec (self.GetStorageLimit ext ctx) self.nCachedBlockHeight
    self.mapMasternodePaymentVotesPrimary self.mapMasternodeBlocksPrimary hrange
  refine ⟨{ self with
      mapMasternodePaymentVotesPrimary :=
        self.mapMasternodePaymentVotesPrimary.filter (fun e =>
          decide (self.nCachedBlockHeight - e.2.nBlockHeight ≤ self.GetStorageLimit ext ctx)),
      mapMasternodeBlocksPrimary :=
        self.mapMasternodeBlocksPrimary.filter (fun b =>
          !(self.mapMasternodePaymentVotesPrimary.any fun e =>
            decide (self.nCachedBlockHeight - e.2.nBlockHeight > self.GetStorageLimit ext ctx)
              && decide (b.1 = e.2.nBlockHeight))) },
    ?_, rfl, ?_, ?_, rfl, rfl, rfl, rfl⟩
  · simp only [CMasternodePayments.CheckAndRemove, hsync, Bool.not_true, Bool.false_eq_true,
      if_false, hloop, Option.map_some']
  · intro e he
    simp only [List.mem_filter, he, true_and, decide_eq_true_eq]
  · intro e he hold
    refine ⟨?_, ?_⟩
    · simp only [List.mem_filter, he, true_and, decide_eq_true_eq]
      omega
    · rw [mapFind_eq_none_iff]
      intro b hb hk
      have hp := (List.mem_filter.mp hb).2
      have hany : (self.mapMasternodePaymentVotesPrimary.any fun e2 =>
          decide (self.nCachedBlockHeight - e2.2.nBlockHeight > self.GetStorageLimit ext ctx)
            && decide (b.1 = e2.2.nBlockHeight)) = true :=
        List.any_eq_true.mpr ⟨e, he, by simp [hold, hk]⟩
      rw [hany] at hp
      cases hp

/-- Example for `CheckAndRemove_within_int_range`: the vote store of the
examples at tip 200 with limit 50;
the vote and the tally for height 100 are erased, those for height 190 are kept. -/
theorem CheckAndRemove_within_int_range_example :
    sampleVoteStore.GetStorageLimit sampleExternal {} = 50 ∧
    sampleVoteStore.CheckAndRemove sampleExternal {}
      = some { sampleVoteStore with
          mapMasternodePaymentVotesPrimary :=
            [((sampleVote 190 [1]).GetHash, sampleVote 190 [1])],
          mapMasternodeBlocksPrimary := [(190, { nBlockHeight := 190, vecPayees := [] })] } ∧
    ∃ after : CMasternodePayments, sampleVoteStore.CheckAndRemove sampleExternal {} = some after ∧
      ((sampleVote 190 [1]).GetHash, sampleVote 190 [1])
        ∈ after.mapMasternodePaymentVotesPrimary ∧
      ((sampleVote 100 [1]).GetHash, sampleVote 100 [1])
        ∉ after.mapMasternodePaymentVotesPrimary ∧
      mapFind after.mapMasternodeBlocksPrimary 100 = none := by
  refine ⟨by decide, by decide, ?_⟩
  obtain ⟨after, h1, _, h3, h4, _⟩ := CheckAndRemove_within_int_range sampleVoteStore
    sampleExternal {} rfl (by decide)
  exact ⟨after, h1,
    (h3 ((sampleVote 190 [1]).GetHash, sampleVote 190 [1]) (by decide)).mpr (by decide),
    (h4 ((sampleVote 100 [1]).GetHash, sampleVote 100 [1]) (by decide) (by decide)).1,
    (h4 ((sampleVote 100 [1]).GetHash, sampleVote 100 [1]) (by decide) (by decide)).2⟩

/-! ### Proof of service and broadcasts -/

/-- C18, evaluated: three enabled masternodes share the address 7; the
masternodes 1 and 2 are not verified, masternode 3 is. One run of
`CheckSameAddr` increases the ban score of masternode 2 only: masternode 1,
another entry of the group, keeps its score. -/
theorem C18_only_predecessor_of_verified_banned :
    (∀ mn ∈ sampleSameAddr.mapMasternodes, mn.IsEnabled = true ∧ mn.addr = 7) ∧
    (sampleSameAddr.mapMasternodes.map fun mn => sampleExternal.IsPoSeVerified mn)
      = [false, false, true] ∧
    (sampleSameAddr.mapMasternodes.map fun mn => mn.nPoSeBanScore) = [0, 0, -5] ∧
    ((sampleSameAddr.CheckSameAddr sampleExternal {}).mapMasternodes.map
      fun mn => mn.nPoSeBanScore) = [0, 1, -5] := by
  decide

/-- C19, evaluated: the registry is empty, the node runs in masternode mode
with the active key `[3]` and `nMasternodePoseBanMaxScore = 5`, and the
broadcast of masternode 3 with the operator key `[3]` passes both checks. The
call returns true, the entry stored under the outpoint of the broadcast has
the ban score 0 of the broadcast, and only the broadcast that is relayed has
the ban score -5. -/
theorem C19_stored_entry_keeps_broadcast_score :
    ({} : CMasternodeMan).Find sampleBroadcast.outpoint = none ∧
    (sampleExternal.SimpleCheck sampleBroadcast 0).1 = true ∧
    (sampleExternal.CheckOutpoint sampleBroadcast 0).1 = true ∧
    sampleActiveContext.fMasternodeMode = true ∧
    sampleBroadcast.pubKeyMasternode = sampleActiveContext.activeMasternodePubKey ∧
    -sampleActiveContext.nMasternodePoseBanMaxScore = -5 ∧
    (({} : CMasternodeMan).CheckMnbAndUpdateMasternodeList sampleExternal sampleActiveContext
      sampleBroadcast).fResult = true ∧
    ((({} : CMasternodeMan).CheckMnbAndUpdateMasternodeList sampleExternal sampleActiveContext
      sampleBroadcast).state.Find sampleBroadcast.outpoint).map (fun mn => mn.nPoSeBanScore)
      = some 0 ∧
    ((({} : CMasternodeMan).CheckMnbAndUpdateMasternodeList sampleExternal sampleActiveContext
      sampleBroadcast).relayed).map (fun mnb => mnb.nPoSeBanScore) = some (-5) := by
  decide

theorem mapAssign_of_find {κ ν : Type} [DecidableEq κ] (m : List (κ × ν)) (k : κ) (v : ν)
    (h : mapFind m k = some v) : mapAssign m k v = m := by
  induction m with
  | nil => simp [mapFind] at h
  | cons e rest ih =>
    unfold mapFind at h
    unfold mapAssign
    by_cases hk : e.1 = k
    · rw [if_pos hk] at h
      rw [if_pos hk]
      have hv : e.2 = v := Option.some.inj h
      rw [← hk, ← hv]
    · rw [if_neg hk] at h
      rw [if_neg hk, ih h]

theorem mapFind_mapEmplace_of_some {κ ν : Type} [DecidableEq κ] (m : List (κ × ν)) (k k2 : κ)
    (v x : ν) (h : mapFind m k2 = some x) : mapFind (mapEmplace m k v) k2 = some x := by
  unfold mapEmplace
  cases hk : mapFind m k with
  | some y => exact h
  | none =>
    simp only []
    induction m with
    | nil => simp [mapFind] at h
    | cons e rest ih =>
      unfold mapFind at h hk
      by_cases he : e.1 = k2
      · rw [if_pos he] at h
        simp [mapFind, he, h]
      · rw [if_neg he] at h
        by_cases hek : e.1 = k
        · simp [hek] at hk
        · rw [if_neg hek] at hk
          simp only [List.cons_append, mapFind, he, if_false]
          exact ih h hk

theorem mapFind_mapErase_of_ne {κ ν : Type} [DecidableEq κ] (m : List (κ × ν)) (k k2 : κ)
    (hne : k2 ≠ k) : mapFind (mapErase m k) k2 = mapFind m k2 := by
  induction m with
  | nil => simp [mapErase, mapFind]
  | cons e rest ih =>
    unfold mapErase at ih ⊢
    by_cases hek : e.1 = k
    · have he2 : ¬ e.1 = k2 := fun h => hne (h.symm.trans hek)
      rw [List.filter_cons_of_neg (by simp [hek])]
      rw [ih]
      simp [mapFind, he2]
    · rw [List.filter_cons_of_pos (by simp [hek])]
      unfold mapFind
      rw [ih]

/-- The method `Add` leaves the seen map as it is. -/
theorem Add_mapSeenMasternodeBroadcast (self : CMasternodeMan) (ext : External)
    (mn : CMasternode) :
    (self.Add ext mn).2.2.mapSeenMasternodeBroadcast = self.mapSeenMasternodeBroadcast := by
  unfold CMasternodeMan.Add
  split <;> rfl

/-- The branch for a broadcast that is new keeps the record under the hash of
the broadcast. -/
theorem checkMnbNew_keeps_record (self : CMasternodeMan) (ext : External) (ctx : NodeContext)
    (hash : Nat) (mnb : CMasternodeBroadcast) (nDos : Int) (r : Int × CMasternodeBroadcast)
    (h : mapFind self.mapSeenMasternodeBroadcast hash = some r) :
    mapFind (checkMnbNew self ext ctx hash mnb nDos).state.mapSeenMasternodeBroadcast hash
      = some r := by
  unfold checkMnbNew
  cases hfind : self.Find mnb.outpoint with
  | some pmn =>
    simp only []
    have hem := mapFind_mapEmplace_of_some self.mapSeenMasternodeBroadcast
      (ext.broadcastHash { toCMasternode := pmn }) hash ext.defaultSeenBroadcast r h
    split
    · exact hem
    · split
      · rename_i hne
        show mapFind (mapErase _ _) hash = some r
        rw [mapFind_mapErase_of_ne _ _ _ hne]
        exact hem
      · exact hem
  | none =>
    simp only []
    have hadd := Add_mapSeenMasternodeBroadcast self ext
      (ext.CheckOutpoint mnb nDos).2.2.toCMasternode
    split
    · split
      · split
        · show mapFind (self.Add ext _).2.2.mapSeenMasternodeBroadcast hash = some r
          rw [hadd]
          exact h
        · show mapFind (self.Add ext _).2.2.mapSeenMasternodeBroadcast hash = some r
          rw [hadd]
          exact h
      · show mapFind (self.Add ext _).2.2.mapSeenMasternodeBroadcast hash = some r
        rw [hadd]
        exact h
    · exact h

/-- After a call for a broadcast that is not a recovery reply the seen map has
a record under the hash of the broadcast, and the record is too recent for the
timeout bump unless it carries the time of the call. -/
theorem CheckMnb_leaves_record (self : CMasternodeMan) (ext : External) (ctx : NodeContext)
    (mnb : CMasternodeBroadcast) (hrec : mnb.fRecovery = false) :
    ∃ r : Int × CMasternodeBroadcast,
      mapFind (self.CheckMnbAndUpdateMasternodeList ext ctx mnb).state.mapSeenMasternodeBroadcast
        (ext.broadcastHash mnb) = some r ∧
      (ctx.nTime - r.1
          > ctx.nMasternodeNewStartRequiredSeconds - ctx.nMasternodeMinMnpSeconds * 2 →
        r.1 = ctx.nTime) := by
  unfold CMasternodeMan.CheckMnbAndUpdateMasternodeList
  cases hfind : mapFind self.mapSeenMasternodeBroadcast (ext.broadcastHash mnb) with
  | some r0 =>
    simp only [hfind, hrec, Option.isSome_some, Bool.not_false, Bool.and_self, if_true,
      Option.getD_some]
    by_cases hb : ctx.nTime - r0.1
        > ctx.nMasternodeNewStartRequiredSeconds - ctx.nMasternodeMinMnpSeconds * 2
    · rw [if_pos hb]
      exact ⟨(ctx.nTime, r0.2), mapFind_mapAssign_self _ _ _, fun _ => rfl⟩
    · rw [if_neg hb]
      exact ⟨r0, hfind, fun h => absurd h hb⟩
  | none =>
    simp only [hfind, Option.isSome_none, Bool.false_and, Bool.false_eq_true, if_false]
    have hins := mapFind_mapEmplace_of_none self.mapSeenMasternodeBroadcast
      (ext.broadcastHash mnb) (ctx.nTime, mnb) hfind
    refine ⟨(ctx.nTime, mnb), ?_, fun _ => rfl⟩
    split
    · exact hins
    · exact checkMnbNew_keeps_record _ ext ctx _ _ _ _ hins

/-- A call for a broadcast that is not a recovery reply and has a record in the
seen map that is too recent for the timeout bump, or carries the time of the
call, returns true and leaves the state as it is. -/
theorem CheckMnb_seen_noop (self : CMasternodeMan) (ext : External) (ctx : NodeContext)
    (mnb : CMasternodeBroadcast) (hrec : mnb.fRecovery = false)
    (r : Int × CMasternodeBroadcast)
    (hfind : mapFind self.mapSeenMasternodeBroadcast (ext.broadcastHash mnb) = some r)
    (htime : ctx.nTime - r.1
        > ctx.nMasternodeNewStartRequiredSeconds - ctx.nMasternodeMinMnpSeconds * 2 →
      r.1 = ctx.nTime) :
    (self.CheckMnbAndUpdateMasternodeList ext ctx mnb).state = self ∧
    (self.CheckMnbAndUpdateMasternodeList ext ctx mnb).fResult = true := by
  unfold CMasternodeMan.CheckMnbAndUpdateMasternodeList
  simp only [hfind, hrec, Option.isSome_some, Bool.not_false, Bool.and_self, if_true,
    Option.getD_some]
  by_cases hb : ctx.nTime - r.1
      > ctx.nMasternodeNewStartRequiredSeconds - ctx.nMasternodeMinMnpSeconds * 2
  · rw [if_pos hb]
    have hr : (ctx.nTime, r.2) = r := by
      rw [← htime hb]
    rw [hr, mapAssign_of_find _ _ _ hfind]
    exact ⟨rfl, rfl⟩
  · rw [if_neg hb]
    exact ⟨rfl, rfl⟩

/-- C20: for a broadcast that is not a recovery reply, with the clock
unchanged between the calls, the second of two calls of
`CheckMnbAndUpdateMasternodeList` in a row returns true and leaves the state
as the first call left it: the registry, the seen-broadcast map and the other
members are those after one call. -/
theorem C20_broadcast_twice_same_as_once (self : CMasternodeMan) (ext : External)
    (ctx : NodeContext) (mnb : CMasternodeBroadcast) (hrec : mnb.fRecovery = false) :
    ((self.CheckMnbAndUpdateMasternodeList ext ctx mnb).state.CheckMnbAndUpdateMasternodeList
        ext ctx mnb).state.mapMasternodes
      = (self.CheckMnbAndUpdateMasternodeList ext ctx mnb).state.mapMasternodes ∧
    ((self.CheckMnbAndUpdateMasternodeList ext ctx mnb).state.CheckMnbAndUpdateMasternodeList
        ext ctx mnb).state.mapSeenMasternodeBroadcast
      = (self.CheckMnbAndUpdateMasternodeList ext ctx mnb).state.mapSeenMasternodeBroadcast ∧
    ((self.CheckMnbAndUpdateMasternodeList ext ctx mnb).state.CheckMnbAndUpdateMasternodeList
        ext ctx mnb).state
      = (self.CheckMnbAndUpdateMasternodeList ext ctx mnb).state ∧
    ((self.CheckMnbAndUpdateMasternodeList ext ctx mnb).state.CheckMnbAndUpdateMasternodeList
        ext ctx mnb).fResult = true := by
  obtain ⟨r, hfind, htime⟩ := CheckMnb_leaves_record self ext ctx mnb hrec
  obtain ⟨hstate, hres⟩ := CheckMnb_seen_noop
    (self.CheckMnbAndUpdateMasternodeList ext ctx mnb).state ext ctx mnb hrec r hfind htime
  exact ⟨by rw [hstate], by rw [hstate], hstate, hres⟩

/-- Example for C20: the broadcast of masternode 3 on the registry of the
examples; the first call stores the masternode and the seen record, the second
call changes nothing. -/
theorem C20_broadcast_twice_same_as_once_witness :
    sampleBroadcast.fRecovery = false ∧
    (sampleMan.CheckMnbAndUpdateMasternodeList sampleExternal sampleActiveContext
        sampleBroadcast).state.mapMasternodes
      = [sampleQueueMn 1, sampleQueueMn 2, sampleQueueMn 3, sampleQueueMn 4] ∧
    (sampleMan.CheckMnbAndUpdateMasternodeList sampleExternal sampleActiveContext
        sampleBroadcast).state.mapSeenMasternodeBroadcast = [(3, (1000, sampleBroadcast))] ∧
    ((sampleMan.CheckMnbAndUpdateMasternodeList sampleExternal sampleActiveContext
        sampleBroadcast).state.CheckMnbAndUpdateMasternodeList sampleExternal
        sampleActiveContext sampleBroadcast).state
      = (sampleMan.CheckMnbAndUpdateMasternodeList sampleExternal sampleActiveContext
        sampleBroadcast).state :=
  ⟨rfl, by decide, by decide,
   (C20_broadcast_twice_same_as_once sampleMan sampleExternal sampleActiveContext
      sampleBroadcast rfl).2.2.1⟩

/-! ### Signature formats of a vote -/

/-- C25: with the chain height above `nMasternodeSignHashThreshold`,
`CheckSignature` accepts a vote exactly when its signature verifies over the
signature hash or over the legacy message. The hash format is tried first: a
signature that verifies over the hash is accepted whatever the legacy check
would say. An accepted vote leaves `nDos` at 0; a rejected vote sets it to 20
exactly when the masternode list is synced and the vote is for a height above
the validation height. -/
theorem C25_signature_accepted_in_either_format (vote : CMasternodePaymentVote)
    (ext : External) (ctx : NodeContext) (pubKeyMasternode : CPubKey) (nValidationHeight : Int)
    (habove : ctx.chainActiveHeight > ctx.nMasternodeSignHashThreshold) :
    ((vote.CheckSignature ext ctx pubKeyMasternode nValidationHeight).1 = true ↔
      (ext.VerifyHash vote pubKeyMasternode = true ∨
        ext.VerifyMessage vote pubKeyMasternode = true)) ∧
    (ext.VerifyHash vote pubKeyMasternode = true →
      vote.CheckSignature ext ctx pubKeyMasternode nValidationHeight = (true, 0)) ∧
    ((vote.CheckSignature ext ctx pubKeyMasternode nValidationHeight).1 = true →
      (vote.CheckSignature ext ctx pubKeyMasternode nValidationHeight).2 = 0) ∧
    ((vote.CheckSignature ext ctx pubKeyMasternode nValidationHeight).1 = false →
      (vote.CheckSignature ext ctx pubKeyMasternode nValidationHeight).2
        = if ctx.fMasternodeListSynced = true ∧ vote.nBlockHeight > nValidationHeight
          then 20 else 0) := by
  unfold CMasternodePaymentVote.CheckSignature
  simp only [habove, if_true]
  cases hh : ext.VerifyHash vote pubKeyMasternode <;>
    cases hm : ext.VerifyMessage vote pubKeyMasternode <;>
    simp

/-- Example for C25: the vote of the examples carries the signature `[11]`,
which verifies over the hash under the key `[11]` and not over the legacy
message; the chain height 200 is above the threshold 100 and the vote is accepted. -/
theorem C25_signature_accepted_in_either_format_witness :
    sampleContext.chainActiveHeight > sampleContext.nMasternodeSignHashThreshold ∧
    sampleExternal.VerifyHash (sampleVote 210 [0, 1]) [11] = true ∧
    sampleExternal.VerifyMessage (sampleVote 210 [0, 1]) [11] = false ∧
    (sampleVote 210 [0, 1]).CheckSignature sampleExternal sampleContext [11] 200 = (true, 0) :=
  ⟨by decide, by decide, by decide,
   (C25_signature_accepted_in_either_format (sampleVote 210 [0, 1]) sampleExternal
      sampleContext [11] 200 (by decide)).2.1 (by decide)⟩

/-- C29, evaluated: the registry holds masternode A alone; the vote of A for
height 210 with the payee script `[0, 2]`, which is the collateral script of no
registry entry, is accepted and recorded by `ProcessMessage`. For the payee
list then stored for height 210 the lookup of `GetBestPayee` finds no entry of
the map built from the registry: the result is undefined. -/
theorem C29_recorded_payee_absent_from_registry :
    sampleContext.mapMasternodes = [sampleMnA] ∧
    sampleExternal.collateralScript sampleMnA.pubKeyCollateralAddress ≠ [0, 2] ∧
    (samplePayments.ProcessMessage sampleExternal sampleContext 0
      (sampleVote 210 [0, 2])).fRelayed = true ∧
    (mapFind (samplePayments.ProcessMessage sampleExternal sampleContext 0
        (sampleVote 210 [0, 2])).payments.mapMasternodeBlocksPrimary 210).map
      (fun payees => payees.vecPayees.map fun payee => payee.GetPayee) = some [[0, 2]] ∧
    mapFind (buildNodeMap sampleExternal sampleContext.mapMasternodes [])
      (sampleExternal.EncodeDestination [0, 2]) = none ∧
    (samplePayments.ProcessMessage sampleExternal sampleContext 0
      (sampleVote 210 [0, 2])).payments.GetBlockPayees sampleExternal
        sampleContext.mapMasternodes 210 [] 0 = none := by
  decide

/-! ### Block validation against payments and governance -/

/-- C21: on a synced node that is not in lite mode, at a height where no
governance block is triggered, `IsBlockPayeeValid` returns true when
`IsTransactionValid` accepts the transaction; when `IsTransactionValid`
rejects it, `IsBlockPayeeValid` returns, and it returns false exactly when
`EnforceMasternodePayments` holds, that is when there is a last checkpoint and
the height is above its height plus `MN_PAYMENTS_UPDATE_THRESHOLD`. On a node
that is not synced or is in lite mode it returns true. -/
theorem C21_payee_rejected_only_when_enforced (payments : CMasternodePayments)
    (ext : External) (ctx : NodeContext) (vout : List CTxOut) (nBlockHeight blockReward : Int)
    (nMinMasternodeAmount nMaxMasternodeAmount : Int) :
    (ctx.fSynced = true → ctx.fLiteMode = false →
      ext.IsGovernanceBlockTriggered nBlockHeight = false →
      (payments.IsTransactionValid vout nBlockHeight nMinMasternodeAmount nMaxMasternodeAmount
          (fun h => ext.GetMasternodePayments h (-h) blockReward) = some true →
        IsBlockPayeeValid payments ext ctx vout nBlockHeight blockReward nMinMasternodeAmount
          nMaxMasternodeAmount = some true) ∧
      (payments.IsTransactionValid vout nBlockHeight nMinMasternodeAmount nMaxMasternodeAmount
          (fun h => ext.GetMasternodePayments h (-h) blockReward) = some false →
        IsBlockPayeeValid payments ext ctx vout nBlockHeight blockReward nMinMasternodeAmount
            nMaxMasternodeAmount
          = some (!EnforceMasternodePayments ext ctx nBlockHeight) ∧
        (IsBlockPayeeValid payments ext ctx vout nBlockHeight blockReward nMinMasternodeAmount
            nMaxMasternodeAmount = some false ↔
          EnforceMasternodePayments ext ctx nBlockHeight = true))) ∧
    (EnforceMasternodePayments ext ctx nBlockHeight = true ↔
      ∃ nCheckpointHeight, ext.GetLastCheckpoint = some nCheckpointHeight ∧
        nBlockHeight > nCheckpointHeight + ctx.MN_PAYMENTS_UPDATE_THRESHOLD) ∧
    (ctx.fSynced = false ∨ ctx.fLiteMode = true →
      IsBlockPayeeValid payments ext ctx vout nBlockHeight blockReward nMinMasternodeAmount
        nMaxMasternodeAmount = some true) := by
  refine ⟨?_, ?_, ?_⟩
  · intro hs hl ht
    constructor
    · intro hv
      simp [IsBlockPayeeValid, hs, hl, ht, hv]
    · intro hv
      have hres : IsBlockPayeeValid payments ext ctx vout nBlockHeight blockReward
          nMinMasternodeAmount nMaxMasternodeAmount
          = some (!EnforceMasternodePayments ext ctx nBlockHeight) := by
        simp only [IsBlockPayeeValid, hs, hl, ht, hv, Bool.not_true, Bool.or_self,
          Bool.false_eq_true, if_false, Option.map_some']
        cases EnforceMasternodePayments ext ctx nBlockHeight <;> rfl
      refine ⟨hres, ?_⟩
      rw [hres]
      cases EnforceMasternodePayments ext ctx nBlockHeight <;> simp
  · unfold EnforceMasternodePayments
    cases ext.GetLastCheckpoint with
    | none => simp
    | some c => simp
  · intro h
    rcases h with h | h
    · simp [IsBlockPayeeValid, h]
    · simp [IsBlockPayeeValid, h]

/-- Example for C21: the tally for height 110 has a payee with six votes that
the transaction without outputs does not pay. The last checkpoint is at height
100 and the threshold is 5, so the payment is enforced at height 110 and the
transaction is rejected; with the threshold 20 it is accepted. -/
theorem C21_payee_rejected_only_when_enforced_witness :
    sampleTallyPayments.IsTransactionValid [] 110 0 60
        (fun h => sampleExternal.GetMasternodePayments h (-h) 100) = some false ∧
    EnforceMasternodePayments sampleExternal { MN_PAYMENTS_UPDATE_THRESHOLD := 5 } 110 = true ∧
    IsBlockPayeeValid sampleTallyPayments sampleExternal { MN_PAYMENTS_UPDATE_THRESHOLD := 5 }
      [] 110 100 0 60 = some false ∧
    IsBlockPayeeValid sampleTallyPayments sampleExternal { MN_PAYMENTS_UPDATE_THRESHOLD := 20 }
      [] 110 100 0 60 = some true ∧
    IsBlockPayeeValid sampleTallyPayments sampleExternal { fSynced := false }
      [] 110 100 0 60 = some true :=
  ⟨by decide, by decide,
   (((C21_payee_rejected_only_when_enforced sampleTallyPayments sampleExternal
      { MN_PAYMENTS_UPDATE_THRESHOLD := 5 } [] 110 100 0 60).1 rfl rfl (by decide)).2
      (by decide)).2.mpr (by decide),
   (((C21_payee_rejected_only_when_enforced sampleTallyPayments sampleExternal
      { MN_PAYMENTS_UPDATE_THRESHOLD := 20 } [] 110 100 0 60).1 rfl rfl (by decide)).2
      (by decide)).1.trans (by decide),
   (C21_payee_rejected_only_when_enforced sampleTallyPayments sampleExternal
      { fSynced := false } [] 110 100 0 60).2.2 (Or.inl rfl)⟩

theorem String.append_ne_empty_right (a b : String) (hb : b ≠ "") : a ++ b ≠ "" := by
  intro h
  apply hb
  have hd : (a ++ b).data = [] := by rw [h]
  rw [String.data_append] at hd
  have hbd : b.data = [] := (List.append_eq_nil.mp hd).2
  exact String.ext hbd

/-- C22: on a node that is not synced or is in lite mode `IsBlockValueValid`
returns whether the value out of the coinbase is at most the block reward plus
the governance payments limit when the height is a valid governance-block
height, and whether it is at most the block reward otherwise; and on every
path the error string returned is empty exactly when the result is true. -/
theorem C22_value_bound_and_error_string (ext : External) (ctx : NodeContext)
    (vout : List CTxOut) (nValueOut nBlockHeight blockReward : Int) :
    (ctx.fSynced = false ∨ ctx.fLiteMode = true →
      (IsBlockValueValid ext ctx vout nValueOut nBlockHeight blockReward).1
        = if ext.IsValidBlockHeight nBlockHeight = true then
            decide (nValueOut ≤ blockReward + ext.GetPaymentsLimit nBlockHeight)
          else decide (nValueOut ≤ blockReward)) ∧
    ((IsBlockValueValid ext ctx vout nValueOut nBlockHeight blockReward).2 = "" ↔
      (IsBlockValueValid ext ctx vout nValueOut nBlockHeight blockReward).1 = true) := by
  have hne1 : ∀ a : String, a ++ "), exceeded governanceblock max value" ≠ "" :=
    fun a => String.append_ne_empty_right a _ (by decide)
  have hne2 : ∀ a : String,
      a ++ "), exceeded block reward, only regular blocks are allowed at this height" ≠ "" :=
    fun a => String.append_ne_empty_right a _ (by decide)
  have hne3 : ∀ a : String,
      a ++ "), exceeded block reward, no triggered governanceblock detected" ≠ "" :=
    fun a => String.append_ne_empty_right a _ (by decide)
  have hne4 : "invalid governanceblock detected at height " ++ toString nBlockHeight ≠ "" := by
    intro h
    have hd : ("invalid governanceblock detected at height " ++ toString nBlockHeight).data
        = [] := by rw [h]
    rw [String.data_append] at hd
    have := (List.append_eq_nil.mp hd).1
    exact absurd this (by decide)
  constructor
  · intro h
    unfold IsBlockValueValid
    have hgate : (!ctx.fSynced || ctx.fLiteMode) = true := by
      rcases h with h | h <;> simp [h]
    simp only [hgate, if_true]
    cases hv : ext.IsValidBlockHeight nBlockHeight with
    | true =>
      simp only [if_true]
      split <;> rfl
    | false =>
      simp only [Bool.false_eq_true, if_false]
      split <;> rfl
  · unfold IsBlockValueValid
    simp only []
    repeat' split
    all_goals simp_all

/-- Example for C22: on a node that is not synced, at the governance height
1000 with block reward 100 and payments limit 500, a coinbase of value 550 is
accepted with an empty error string and a coinbase of value 700 is rejected
with an error string. -/
theorem C22_value_bound_and_error_string_witness :
    sampleExternal.IsValidBlockHeight 1000 = true ∧
    (IsBlockValueValid sampleExternal { fSynced := false } [] 550 1000 100).1 = true ∧
    (IsBlockValueValid sampleExternal { fSynced := false } [] 550 1000 100).2 = "" ∧
    (IsBlockValueValid sampleExternal { fSynced := false } [] 700 1000 100).1 = false ∧
    (IsBlockValueValid sampleExternal { fSynced := false } [] 700 1000 100).2 ≠ "" :=
  ⟨by decide,
   ((C22_value_bound_and_error_string sampleExternal { fSynced := false } [] 550 1000 100).1
      (Or.inl rfl)).trans (by decide),
   (C22_value_bound_and_error_string sampleExternal { fSynced := false } [] 550 1000 100).2.mpr
      (((C22_value_bound_and_error_string sampleExternal { fSynced := false } [] 550 1000
        100).1 (Or.inl rfl)).trans (by decide)),
   ((C22_value_bound_and_error_string sampleExternal { fSynced := false } [] 700 1000 100).1
      (Or.inl rfl)).trans (by decide),
   by
     intro h
     have h1 := (C22_value_bound_and_error_string sampleExternal { fSynced := false } [] 700
       1000 100).2.mp h
     have h2 : (IsBlockValueValid sampleExternal { fSynced := false } [] 700 1000 100).1
         = false :=
       ((C22_value_bound_and_error_string sampleExternal { fSynced := false } [] 700 1000
         100).1 (Or.inl rfl)).trans (by decide)
     rw [h2] at h1
     cases h1⟩

/-! ### The daemon-version warning -/

/-- C27, evaluated: with `CLIENT_VERSION = 5`, in a registry of three
masternodes of which one advertises the daemon version 6, and in a registry of
one masternode that advertises no newer version, the warning is emitted
although twice the number of updated masternodes is below the size: the test is
`nUpdatedMasternodes < size() / 2` with the division of `int`. -/
theorem C27_warning_below_half :
    countUpdatedMasternodes { CLIENT_VERSION := 5 }
      [{ sampleQueueMn 1 with lastPingDaemonVersion := 6 }, sampleQueueMn 2, sampleQueueMn 3] 0
      = 1 ∧
    ¬ (2 * (1 : Int) ≥ 3) ∧
    (({ mapMasternodes :=
          [{ sampleQueueMn 1 with lastPingDaemonVersion := 6 }, sampleQueueMn 2,
           sampleQueueMn 3] } : CMasternodeMan).WarnMasternodeDaemonUpdates
        { CLIENT_VERSION := 5 } false).1.isSome = true ∧
    countUpdatedMasternodes { CLIENT_VERSION := 5 } [sampleQueueMn 1] 0 = 0 ∧
    ¬ (2 * (0 : Int) ≥ 1) ∧
    (({ mapMasternodes := [sampleQueueMn 1] } : CMasternodeMan).WarnMasternodeDaemonUpdates
        { CLIENT_VERSION := 5 } false).1.isSome = true ∧
    (({ mapMasternodes := [sampleQueueMn 1] } : CMasternodeMan).WarnMasternodeDaemonUpdates
        { CLIENT_VERSION := 5 } false).2 = true := by
  decide

/-! ### Filling the block with the masternode payments -/

theorem secondaryOutputs_applied (secondaryPayees : List CScript) (item change : Int) :
    secondaryOutputs secondaryPayees item change true
      = secondaryPayees.map fun payee => { nValue := item, scriptPubKey := payee } := by
  induction secondaryPayees with
  | nil => rfl
  | cons p rest ih => simp [secondaryOutputs, ih]

theorem sum_map_const_value (l : List CMasternode) (v : Int) (f : CMasternode → CScript) :
    ((l.map fun mn => ({ nValue := v, scriptPubKey := f mn } : CTxOut)).map
      fun txout => txout.nValue).sum = (l.length : Int) * v := by
  induction l with
  | nil => simp
  | cons a t ih =>
    simp only [List.map_cons, List.sum_cons, ih, List.length_cons, Nat.cast_add, Nat.cast_one]
    ring

/-- Truncated division splits an amount into equal parts and the change. -/
theorem tdiv_split (total count : Int) (hc : count ≠ 0) :
    count * Int.tdiv (total - Int.tmod total count) count + Int.tmod total count = total := by
  have h1 : total - Int.tmod total count = count * Int.tdiv total count := by
    have := Int.tdiv_add_tmod total count
    omega
  rw [h1, Int.mul_tdiv_cancel_left _ hc]
  exact Int.tdiv_add_tmod total count

/-- What the part that populates the secondary payees appends: nothing for an
empty vector of secondaries; otherwise one output for each secondary, in
order, each of the equal share, the first with the change on top. -/
theorem fillSecondaries_spec (ext : External) (tx vt : List CTxOut) (total : Int)
    (secs : List CMasternode) :
    (secs = [] → fillSecondaries ext tx vt total secs
      = { txNewVout := tx, vtxoutMasternodeRet := vt }) ∧
    (∀ s rest, secs = s :: rest →
      fillSecondaries ext tx vt total secs
        = { txNewVout := tx ++
              ({ nValue := Int.tdiv (total - Int.tmod total (rest.length + 1))
                    (rest.length + 1) + Int.tmod total (rest.length + 1),
                 scriptPubKey := ext.collateralScript s.pubKeyCollateralAddress }
                :: rest.map fun mn =>
                  { nValue := Int.tdiv (total - Int.tmod total (rest.length + 1))
                      (rest.length + 1),
                    scriptPubKey := ext.collateralScript mn.pubKeyCollateralAddress }),
            vtxoutMasternodeRet := vt ++
              ({ nValue := Int.tdiv (total - Int.tmod total (rest.length + 1))
                    (rest.length + 1) + Int.tmod total (rest.length + 1),
                 scriptPubKey := ext.collateralScript s.pubKeyCollateralAddress }
                :: rest.map fun mn =>
                  { nValue := Int.tdiv (total - Int.tmod total (rest.length + 1))
                      (rest.length + 1),
                    scriptPubKey := ext.collateralScript mn.pubKeyCollateralAddress }) }) := by
  constructor
  · intro h
    subst h
    simp [fillSecondaries]
  · intro s rest h
    subst h
    have hpos : ((s :: rest).length : Int) > 0 := by
      simp only [List.length_cons, Nat.cast_add, Nat.cast_one]
      omega
    unfold fillSecondaries
    rw [if_pos hpos]
    simp only [List.map_cons, List.length_cons, List.length_map, Nat.cast_add, Nat.cast_one]
    rw [if_pos (by omega)]
    simp only [secondaryOutputs, secondaryOutputs_applied, Bool.not_false, if_true,
      List.map_map]
    rfl

/-- What a call of `fillWithPrimary` that returns leaves: the primary output
appended alone, or followed by what `fillSecondaries` appends for the rest of
the masternode reward. -/
theorem fillWithPrimary_spec (payments : CMasternodePayments) (ext : External)
    (ctx : NodeContext) (txNewVout : List CTxOut) (nBlockHeight blockReward : Int)
    (payee : CScript) (act : Option Int) (secs : List CMasternode) (r : FillResult)
    (hr : fillWithPrimary payments ext ctx txNewVout nBlockHeight blockReward payee act secs
      = some r) :
    ∃ (primaryTx : CTxOut) (secs2 : List CMasternode),
      r = { txNewVout := txNewVout ++ [primaryTx], vtxoutMasternodeRet := [primaryTx] } ∨
      r = fillSecondaries ext (txNewVout ++ [primaryTx]) [primaryTx]
            (ctx.nBlockRewardMasternode * ctx.COIN - primaryTx.nValue) secs2 := by
  unfold fillWithPrimary at hr
  cases act with
  | none => simp at hr
  | some nHeight =>
    simp only [Option.some_bind] at hr
    split at hr
    · rw [Option.map_eq_some'] at hr
      obtain ⟨q, _, hq⟩ := hr
      split at hq
      · exact ⟨_, [], Or.inl hq.symm⟩
      · exact ⟨_, q.vSecondaryMnInfoRet, Or.inr hq.symm⟩
    · exact ⟨_, secs, Or.inr (Option.some.inj hr).symm⟩

/-- What a call of `FillBlockPayees` that returns leaves. -/
theorem FillBlockPayees_spec (self : CMasternodePayments) (ext : External) (ctx : NodeContext)
    (txNewVout : List CTxOut) (nBlockHeight blockReward : Int) (r : FillResult)
    (hr : self.FillBlockPayees ext ctx txNewVout nBlockHeight blockReward = some r) :
    r = { txNewVout := txNewVout, vtxoutMasternodeRet := [] } ∨
    ∃ (primaryTx : CTxOut) (secs2 : List CMasternode),
      r = { txNewVout := txNewVout ++ [primaryTx], vtxoutMasternodeRet := [primaryTx] } ∨
      r = fillSecondaries ext (txNewVout ++ [primaryTx]) [primaryTx]
            (ctx.nBlockRewardMasternode * ctx.COIN - primaryTx.nValue) secs2 := by
  unfold CMasternodePayments.FillBlockPayees at hr
  rw [Option.bind_eq_some] at hr
  obtain ⟨gb, _, hgb⟩ := hr
  split at hgb
  · exact Or.inr (fillWithPrimary_spec self ext ctx txNewVout nBlockHeight blockReward _ _ _ r
      hgb)
  · rw [Option.bind_eq_some] at hgb
    obtain ⟨q, _, hq⟩ := hgb
    unfold fillFromQueue at hq
    split at hq
    · exact Or.inl (Option.some.inj hq).symm
    · exact Or.inr (fillWithPrimary_spec self ext ctx txNewVout nBlockHeight blockReward _ _ _
        r hq)

/-- C30: the outputs that a call of `FillBlockPayees` appends to the
transaction are those it returns in `vtxoutMasternodeRet`, in the same order.
When it pays a primary and at least one secondary, the amounts of these outputs
sum to `nBlockRewardMasternode * COIN`: with `total` that product less the
primary payment and `count` the number of secondaries, every secondary
receives `(total - total % count) / count` and the first secondary receives
the change `total % count` on top. -/
theorem C30_appended_outputs_sum_to_masternode_reward (self : CMasternodePayments)
    (ext : External) (ctx : NodeContext) (txNewVout : List CTxOut)
    (nBlockHeight blockReward : Int) (r : FillResult)
    (hr : self.FillBlockPayees ext ctx txNewVout nBlockHeight blockReward = some r) :
    r.txNewVout = txNewVout ++ r.vtxoutMasternodeRet ∧
    (2 ≤ r.vtxoutMasternodeRet.length →
      (r.vtxoutMasternodeRet.map fun txout => txout.nValue).sum
        = ctx.nBlockRewardMasternode * ctx.COIN ∧
      ∃ (primaryTx firstSecondary : CTxOut) (others : List CTxOut),
        r.vtxoutMasternodeRet = primaryTx :: firstSecondary :: others ∧
        firstSecondary.nValue
          = Int.tdiv
              (ctx.nBlockRewardMasternode * ctx.COIN - primaryTx.nValue
                - Int.tmod (ctx.nBlockRewardMasternode * ctx.COIN - primaryTx.nValue)
                    (others.length + 1))
              (others.length + 1)
            + Int.tmod (ctx.nBlockRewardMasternode * ctx.COIN - primaryTx.nValue)
                (others.length + 1) ∧
        ∀ txout ∈ others,
          txout.nValue
            = Int.tdiv
                (ctx.nBlockRewardMasternode * ctx.COIN - primaryTx.nValue
                  - Int.tmod (ctx.nBlockRewardMasternode * ctx.COIN - primaryTx.nValue)
                      (others.length + 1))
                (others.length + 1)) := by
  rcases FillBlockPayees_spec self ext ctx txNewVout nBlockHeight blockReward r hr with
    h | ⟨primaryTx, secs, h | h⟩
  · subst h
    refine ⟨by simp, fun hlen => ?_⟩
    simp at hlen
  · subst h
    refine ⟨rfl, fun hlen => ?_⟩
    simp at hlen
  · cases secs with
    | nil =>
      rw [(fillSecondaries_spec ext _ _ _ []).1 rfl] at h
      subst h
      refine ⟨rfl, fun hlen => ?_⟩
      simp at hlen
    | cons s rest =>
      rw [(fillSecondaries_spec ext _ _ _ (s :: rest)).2 s rest rfl] at h
      subst h
      refine ⟨by simp, fun _ => ⟨?_, ?_⟩⟩
      · have hs := tdiv_split (ctx.nBlockRewardMasternode * ctx.COIN - primaryTx.nValue)
          ((rest.length : Int) + 1) (by omega)
        simp only [List.singleton_append, List.map_cons, List.sum_cons, sum_map_const_value]
        linarith
      · refine ⟨primaryTx, _, _, rfl, ?_, ?_⟩
        · simp
        · intro txout hmem
          obtain ⟨mn, _, hmn⟩ := List.mem_map.mp hmem
          rw [← hmn]
          simp

/-- Example for C30: no votes are stored, the registry holds three masternodes
and the masternode reward is 101; the queue gives masternode 1 as primary, paid
60, and the masternodes 3 and 2 as secondaries, which share the remaining 41
as 21 and 20. -/
theorem C30_appended_outputs_sum_to_masternode_reward_witness :
    ({} : CMasternodePayments).FillBlockPayees sampleExternal
        { sampleQueueContext 3 with
          nMasternodeMaturitySecondariesMaxCount := 5, nBlockRewardMasternode := 1, COIN := 101 }
        [] 300 100
      = some { txNewVout := [{ nValue := 60, scriptPubKey := [0, 1] },
                             { nValue := 21, scriptPubKey := [0, 3] },
                             { nValue := 20, scriptPubKey := [0, 2] }],
               vtxoutMasternodeRet := [{ nValue := 60, scriptPubKey := [0, 1] },
                                       { nValue := 21, scriptPubKey := [0, 3] },
                                       { nValue := 20, scriptPubKey := [0, 2] }] } ∧
    (([{ nValue := 60, scriptPubKey := [0, 1] }, { nValue := 21, scriptPubKey := [0, 3] },
       { nValue := 20, scriptPubKey := [0, 2] }] : List CTxOut).map
      fun txout => txout.nValue).sum = 1 * 101 :=
  ⟨by decide,
   ((C30_appended_outputs_sum_to_masternode_reward ({} : CMasternodePayments) sampleExternal
      { sampleQueueContext 3 with
        nMasternodeMaturitySecondariesMaxCount := 5, nBlockRewardMasternode := 1, COIN := 101 }
      [] 300 100
      { txNewVout := [{ nValue := 60, scriptPubKey := [0, 1] },
                      { nValue := 21, scriptPubKey := [0, 3] },
                      { nValue := 20, scriptPubKey := [0, 2] }],
        vtxoutMasternodeRet := [{ nValue := 60, scriptPubKey := [0, 1] },
                                { nValue := 21, scriptPubKey := [0, 3] },
                                { nValue := 20, scriptPubKey := [0, 2] }] }
      (by decide)).2 (by decide)).1⟩

/-! ### Verification broadcasts -/

/-- What the part of `ProcessVerifyBroadcast` under the lock leaves: it never
calls `Misbehaving`; when it does not relay, the state is as before; when it
relays, both masternodes were found, the address and the signatures matched,
and the registry is the one after the decrease and the increases. -/
theorem verifyBroadcastLocked_spec (s : CMasternodeMan) (ext : External) (ctx : NodeContext)
    (mnv : CMasternodeVerification) (blockHash : Nat) :
    (verifyBroadcastLocked s ext ctx mnv blockHash).nMisbehaving = 0 ∧
    ((verifyBroadcastLocked s ext ctx mnv blockHash).fRelayed = false →
      (verifyBroadcastLocked s ext ctx mnv blockHash).state = s) ∧
    ((verifyBroadcastLocked s ext ctx mnv blockHash).fRelayed = true →
      ∃ pmn1 pmn2, s.Find mnv.masternodeOutpoint1 = some pmn1 ∧
        s.Find mnv.masternodeOutpoint2 = some pmn2 ∧ pmn1.addr = mnv.addr ∧
        verifySignatures ext ctx mnv blockHash pmn1 pmn2 = true ∧
        (verifyBroadcastLocked s ext ctx mnv blockHash).state
          = { s with
              mapMasternodes :=
                (increaseOthers ext mnv
                  (if !ext.IsPoSeVerified pmn1 then
                    decreaseTarget ext mnv.masternodeOutpoint1
                      (s.mapMasternodes.map fun mn => (mn.outpoint, mn))
                  else s.mapMasternodes.map fun mn => (mn.outpoint, mn))).map
                  fun mnpair => mnpair.2 }) := by
  unfold verifyBroadcastLocked
  cases h1 : s.Find mnv.masternodeOutpoint1 with
  | none => simp
  | some pmn1 =>
    cases h2 : s.Find mnv.masternodeOutpoint2 with
    | none => simp
    | some pmn2 =>
      simp only []
      by_cases ha : pmn1.addr ≠ mnv.addr
      · simp [ha]
      · have ha2 : pmn1.addr = mnv.addr := not_not.mp ha
        rw [if_neg ha]
        cases hsig : verifySignatures ext ctx mnv blockHash pmn1 pmn2 with
        | false => simp
        | true =>
          simp only [Bool.not_true, Bool.false_eq_true, if_false, true_and]
          refine ⟨fun h => absurd h (by simp), fun _ => ⟨pmn1, pmn2, rfl, rfl, ha2, hsig, rfl⟩⟩

/-- What `ProcessVerifyBroadcast` leaves: the score passed to `Misbehaving` is
100 for equal outpoints in a verification that is new and not outdated, and 0
otherwise; the registry changes only when the verification is relayed, and
then every check has passed. -/
theorem ProcessVerifyBroadcast_spec (self : CMasternodeMan) (ext : External)
    (ctx : NodeContext) (mnv : CMasternodeVerification) :
    ((self.ProcessVerifyBroadcast ext ctx mnv).nMisbehaving = 0 ∨
      ((self.ProcessVerifyBroadcast ext ctx mnv).nMisbehaving = 100 ∧
        mnv.masternodeOutpoint1 = mnv.masternodeOutpoint2)) ∧
    ((self.ProcessVerifyBroadcast ext ctx mnv).fRelayed = false →
      (self.ProcessVerifyBroadcast ext ctx mnv).state.mapMasternodes = self.mapMasternodes) ∧
    ((self.ProcessVerifyBroadcast ext ctx mnv).fRelayed = true →
      mnv.masternodeOutpoint1 ≠ mnv.masternodeOutpoint2 ∧
      (GetMasternodeRank ext ctx.fMasternodeListSynced self.mapMasternodes
        mnv.masternodeOutpoint2 mnv.nBlockHeight ctx.MIN_POSE_PROTO_VERSION).2
          ≤ MAX_POSE_RANK ∧
      ∃ blockHash pmn1 pmn2, ext.GetBlockHash mnv.nBlockHeight = some blockHash ∧
        self.Find mnv.masternodeOutpoint1 = some pmn1 ∧
        self.Find mnv.masternodeOutpoint2 = some pmn2 ∧ pmn1.addr = mnv.addr ∧
        verifySignatures ext ctx mnv blockHash pmn1 pmn2 = true ∧
        (self.ProcessVerifyBroadcast ext ctx mnv).state.mapMasternodes
          = (increaseOthers ext mnv
              (if !ext.IsPoSeVerified pmn1 then
                decreaseTarget ext mnv.masternodeOutpoint1
                  (self.mapMasternodes.map fun mn => (mn.outpoint, mn))
              else self.mapMasternodes.map fun mn => (mn.outpoint, mn))).map
              fun mnpair => mnpair.2) := by
  unfold CMasternodeMan.ProcessVerifyBroadcast
  split
  · simp
  · split
    · simp
    · split
      · rename_i heq
        simp [heq]
      · rename_i hne
        cases hb : ext.GetBlockHash mnv.nBlockHeight with
        | none => simp
        | some blockHash =>
          simp only []
          split
          · simp
          · split
            · simp
            · rename_i hrank
              obtain ⟨h0, hkeep, hrel⟩ := verifyBroadcastLocked_spec
                { self with
                  mapSeenMasternodeVerification :=
                    mapAssign self.mapSeenMasternodeVerification (ext.verificationHash mnv)
                      mnv } ext ctx mnv blockHash
              refine ⟨Or.inl h0, ?_, ?_⟩
              · intro hf
                rw [hkeep hf]
              · intro hf
                obtain ⟨pmn1, pmn2, h1, h2, h3, h4, h5⟩ := hrel hf
                refine ⟨hne, not_lt.mp hrank, blockHash, pmn1, pmn2, rfl, h1, h2, h3, h4, ?_⟩
                rw [h5]

/-- C23, as amended: the only score `ProcessVerifyBroadcast` passes to
`Misbehaving` is 100, for a verification whose two outpoints are equal. For a
verification with different outpoints whose witness ranks outside the top
`MAX_POSE_RANK`, or one of whose signatures does not verify, the function
passes no score, does not relay the verification and leaves the registry as
it is. -/
theorem C23_failed_rank_or_signature_gets_no_score (self : CMasternodeMan) (ext : External)
    (ctx : NodeContext) (mnv : CMasternodeVerification) :
    ((self.ProcessVerifyBroadcast ext ctx mnv).nMisbehaving = 0 ∨
      ((self.ProcessVerifyBroadcast ext ctx mnv).nMisbehaving = 100 ∧
        mnv.masternodeOutpoint1 = mnv.masternodeOutpoint2)) ∧
    (mnv.masternodeOutpoint1 ≠ mnv.masternodeOutpoint2 →
      ((GetMasternodeRank ext ctx.fMasternodeListSynced self.mapMasternodes
          mnv.masternodeOutpoint2 mnv.nBlockHeight ctx.MIN_POSE_PROTO_VERSION).2
            > MAX_POSE_RANK ∨
        ∃ blockHash pmn1 pmn2, ext.GetBlockHash mnv.nBlockHeight = some blockHash ∧
          self.Find mnv.masternodeOutpoint1 = some pmn1 ∧
          self.Find mnv.masternodeOutpoint2 = some pmn2 ∧
          verifySignatures ext ctx mnv blockHash pmn1 pmn2 = false) →
      (self.ProcessVerifyBroadcast ext ctx mnv).nMisbehaving = 0 ∧
      (self.ProcessVerifyBroadcast ext ctx mnv).fRelayed = false ∧
      (self.ProcessVerifyBroadcast ext ctx mnv).state.mapMasternodes = self.mapMasternodes) := by
  obtain ⟨hscore, hkeep, hrel⟩ := ProcessVerifyBroadcast_spec self ext ctx mnv
  refine ⟨hscore, fun hne hfail => ?_⟩
  have hnot : (self.ProcessVerifyBroadcast ext ctx mnv).fRelayed = false := by
    cases hf : (self.ProcessVerifyBroadcast ext ctx mnv).fRelayed with
    | false => rfl
    | true =>
      exfalso
      obtain ⟨_, hrank, bh, p1, p2, hb, h1, h2, _, hsig, _⟩ := hrel hf
      rcases hfail with hfail | ⟨bh2, q1, q2, hb2, g1, g2, hbad⟩
      · exact absurd hrank (not_le.mpr hfail)
      · rw [hb] at hb2
        rw [h1] at g1
        rw [h2] at g2
        cases hb2
        cases g1
        cases g2
        rw [hsig] at hbad
        cases hbad
  refine ⟨?_, hnot, hkeep hnot⟩
  rcases hscore with h0 | ⟨_, heq⟩
  · exact h0
  · exact absurd heq hne

/-- Example for C23: as the counterexample, with the outcome the amended claim gives. -/
theorem C23_failed_rank_or_signature_gets_no_score_witness :
    sampleVerification.masternodeOutpoint1 ≠ sampleVerification.masternodeOutpoint2 ∧
    verifySignatures sampleExternal sampleContext { sampleVerification with vchSig1 := [9] }
      150 { sampleQueueMn 1 with addr := 7 } { sampleQueueMn 4 with addr := 8 } = false ∧
    (sampleVerifyMan.ProcessVerifyBroadcast sampleExternal sampleContext
        { sampleVerification with vchSig1 := [9] }).nMisbehaving = 0 ∧
    (sampleVerifyMan.ProcessVerifyBroadcast sampleExternal sampleContext
        { sampleVerification with vchSig1 := [9] }).fRelayed = false ∧
    (sampleVerifyMan.ProcessVerifyBroadcast sampleExternal sampleContext
        { sampleVerification with vchSig1 := [9] }).state.mapMasternodes
      = sampleVerifyMan.mapMasternodes :=
  ⟨by decide, by decide,
   (C23_failed_rank_or_signature_gets_no_score sampleVerifyMan sampleExternal sampleContext
      { sampleVerification with vchSig1 := [9] }).2 (by decide)
      (Or.inr ⟨150, { sampleQueueMn 1 with addr := 7 }, { sampleQueueMn 4 with addr := 8 },
        by decide, by decide, by decide, by decide⟩)⟩

/-- C23 as stated fails: the verification of the examples with a first
signature that does not verify is new, not outdated, has different outpoints
and a witness of rank at most `MAX_POSE_RANK`; it is dropped with no score for
the peer. -/
theorem C23_bad_signature_no_misbehaviour_counterexample :
    mapFind sampleVerifyMan.mapSeenMasternodeVerification
      (sampleExternal.verificationHash { sampleVerification with vchSig1 := [9] }) = none ∧
    ¬ (sampleVerification.nBlockHeight < sampleVerifyMan.nCachedBlockHeight - MAX_POSE_BLOCKS) ∧
    sampleVerification.masternodeOutpoint1 ≠ sampleVerification.masternodeOutpoint2 ∧
    sampleExternal.VerifyVerificationHash1 { sampleVerification with vchSig1 := [9] } 150
      (sampleQueueMn 1).pubKeyMasternode = false ∧
    (sampleVerifyMan.ProcessVerifyBroadcast sampleExternal sampleContext
        { sampleVerification with vchSig1 := [9] }).nMisbehaving = 0 := by
  decide

theorem mapFind_mapAssign_of_ne {κ ν : Type} [DecidableEq κ] (m : List (κ × ν)) (k k2 : κ)
    (v : ν) (hne : k2 ≠ k) : mapFind (mapAssign m k v) k2 = mapFind m k2 := by
  induction m with
  | nil =>
    have : ¬ k = k2 := fun h => hne h.symm
    simp [mapAssign, mapFind, this]
  | cons e rest ih =>
    unfold mapAssign
    by_cases hek : e.1 = k
    · have he2 : ¬ e.1 = k2 := fun h => hne (h.symm.trans hek)
      have hk2 : ¬ k = k2 := fun h => hne h.symm
      rw [if_pos hek]
      simp [mapFind, he2, hk2]
    · rw [if_neg hek]
      unfold mapFind
      rw [ih]

/-- C28, evaluated: the registry holds three masternodes, the payments state
has a tally for height 99 and none for height 100, and the chain has the tip
at height 100, whose coinbase pays the script of masternode 1 at output 6, and
its predecessor at height 99, whose coinbase pays the script of masternode 2
at output 6. A run over two blocks sets the height of the last primary payment
of masternode 1 to 99: the coinbase read for height 99 is that of the tip. -/
theorem C28_height_matched_against_tip_coinbase :
    CountMasternodes { mapMasternodes := sampleScanMan.mapMasternodes } = 3 ∧
    (sampleChain.map fun pindex => (pindex.nHeight, pindex.blockPos))
      = [(100, some 1), (99, some 2)] ∧
    (sampleExternal.ReadBlockFromDisk 1).map
      (fun vout => (vout.get? 6).map fun txout => txout.scriptPubKey) = some (some [0, 1]) ∧
    (sampleExternal.ReadBlockFromDisk 2).map
      (fun vout => (vout.get? 6).map fun txout => txout.scriptPubKey) = some (some [0, 2]) ∧
    (sampleScanMan.mapMasternodes.map fun mn =>
      (sampleExternal.collateralScript mn.pubKeyCollateralAddress, mn.nBlockLastPaidPrimary))
      = [([0, 1], 1), ([0, 2], 2), ([0, 3], 3)] ∧
    (sampleScanMan.UpdateLastPaidGlobal sampleExternal {} sampleScanPayments sampleChain true
        2).map (fun s => s.mapMasternodes.map fun mn =>
          (sampleExternal.collateralScript mn.pubKeyCollateralAddress,
            mn.nBlockLastPaidPrimary))
      = some [([0, 1], 99), ([0, 2], 2), ([0, 3], 3)] := by
  decide

/-! ### Sequences of votes -/

theorem mapFind_append_of_ne {κ ν : Type} [DecidableEq κ] (m : List (κ × ν)) (k k2 : κ)
    (v : ν) (hne : k2 ≠ k) : mapFind (m ++ [(k, v)]) k2 = mapFind m k2 := by
  induction m with
  | nil =>
    have : ¬ k = k2 := fun h => hne h.symm
    simp [mapFind, this]
  | cons e rest ih =>
    have happ : (e :: rest) ++ [(k, v)] = e :: (rest ++ [(k, v)]) := rfl
    rw [happ]
    unfold mapFind
    rw [ih]

theorem mapFind_mapEmplace_of_ne {κ ν : Type} [DecidableEq κ] (m : List (κ × ν)) (k k2 : κ)
    (v : ν) (hne : k2 ≠ k) : mapFind (mapEmplace m k v) k2 = mapFind m k2 := by
  unfold mapEmplace
  cases mapFind m k with
  | some _ => rfl
  | none => exact mapFind_append_of_ne m k k2 v hne

/-- The method `UpdateLastVote` leaves the heights remembered for the other voters. -/
theorem UpdateLastVote_other_voter (s : CMasternodePayments) (vote : CMasternodePaymentVote)
    (voter : COutPoint) (hne : voter ≠ vote.masternodeOutpoint) :
    mapFind (s.UpdateLastVote vote).2.mapMasternodesLastVote voter
      = mapFind s.mapMasternodesLastVote voter := by
  unfold CMasternodePayments.UpdateLastVote
  cases mapFind s.mapMasternodesLastVote vote.masternodeOutpoint with
  | none => exact mapFind_mapEmplace_of_ne _ _ _ _ hne
  | some nHeight =>
    simp only []
    split
    · rfl
    · exact mapFind_mapAssign_of_ne _ _ _ _ hne

/-- A vote handled by the vote branch leaves the heights remembered for the
voters other than its own. -/
theorem ProcessMessage_other_voter (s : CMasternodePayments) (ext : External)
    (ctx : NodeContext) (nPeerVersion : Int) (vote : CMasternodePaymentVote)
    (voter : COutPoint) (hne : voter ≠ vote.masternodeOutpoint) :
    mapFind (s.ProcessMessage ext ctx nPeerVersion vote).payments.mapMasternodesLastVote voter
      = mapFind s.mapMasternodesLastVote voter := by
  unfold CMasternodePayments.ProcessMessage
  simp only []
  repeat' split
  all_goals first
    | rfl
    | exact UpdateLastVote_other_voter _ vote voter hne
    | (simp only [AddOrUpdatePaymentVote_lastVote]
       exact UpdateLastVote_other_voter _ vote voter hne)

theorem processVotes_append (s : CMasternodePayments) (a b : List VoteMessage) :
    processVotes s (a ++ b) = processVotes (processVotes s a) b := by
  induction a generalizing s with
  | nil => rfl
  | cons x rest ih => exact ih _

/-- The height remembered for a voter stays through a sequence of messages in
which every vote of the voter for another height leaves it. -/
theorem processVotes_keeps_height (voter : COutPoint) (h : Int) (mid : List VoteMessage)
    (s : CMasternodePayments)
    (hs : mapFind s.mapMasternodesLastVote voter = some h)
    (hmid : ∀ i (hi : i < mid.length),
      (mid.get ⟨i, hi⟩).vote.masternodeOutpoint = voter →
      (mid.get ⟨i, hi⟩).vote.nBlockHeight ≠ h →
      mapFind (processVotes s (mid.take (i + 1))).mapMasternodesLastVote voter = some h) :
    mapFind (processVotes s mid).mapMasternodesLastVote voter = some h := by
  induction mid generalizing s with
  | nil => exact hs
  | cons x rest ih =>
    have hx : mapFind (s.ProcessMessage x.ext x.ctx x.nPeerVersion
        x.vote).payments.mapMasternodesLastVote voter = some h := by
      by_cases hv : x.vote.masternodeOutpoint = voter
      · by_cases hh : x.vote.nBlockHeight = h
        · have hsame := ProcessMessage_same_height_dropped s x.ext x.ctx x.nPeerVersion x.vote
            (by rw [hv, hh]; exact hs)
          rw [hsame.2.2]
          exact hs
        · exact hmid 0 (Nat.succ_pos _) hv hh
      · rw [ProcessMessage_other_voter s x.ext x.ctx x.nPeerVersion x.vote voter
          (fun hc => hv hc.symm)]
        exact hs
    exact ih _ hx (fun i hi hv hh => hmid (i + 1) (Nat.succ_lt_succ hi) hv hh)

/-- C9, as amended, for every state `s` and every sequence of messages
`pre ++ m :: mid ++ [m2]` handled from it, each message with the chain, the
registry and the peer version of its own: when the vote of `m` is recorded
(it passes `UpdateLastVote` and `AddOrUpdatePaymentVote` and is relayed) and
`m2` carries a vote by the same voter for the same height, the vote of `m2` is
dropped: it is not relayed and it changes neither the per-height tallies nor
the last-vote map. The messages of `mid` in between are arbitrary votes by
other voters, recorded or not, further votes by the voter for the same height,
and votes by the voter for other heights as long as each of these leaves the
height remembered for the voter (it is dropped before `UpdateLastVote`). More
generally, after any sequence `msgs` a vote is dropped whenever its height is
the height remembered for its voter in `mapMasternodesLastVote`. -/
theorem C9_same_height_vote_dropped_in_sequence (s : CMasternodePayments) (m2 : VoteMessage) :
    (∀ (pre : List VoteMessage) (m : VoteMessage) (mid : List VoteMessage),
      m.vote.masternodeOutpoint = m2.vote.masternodeOutpoint →
      m.vote.nBlockHeight = m2.vote.nBlockHeight →
      ((processVotes s pre).ProcessMessage m.ext m.ctx m.nPeerVersion m.vote).fRelayed = true →
      (∀ i (hi : i < mid.length),
        (mid.get ⟨i, hi⟩).vote.masternodeOutpoint = m2.vote.masternodeOutpoint →
        (mid.get ⟨i, hi⟩).vote.nBlockHeight ≠ m2.vote.nBlockHeight →
        mapFind (processVotes s (pre ++ m :: mid.take (i + 1))).mapMasternodesLastVote
          m2.vote.masternodeOutpoint = some m2.vote.nBlockHeight) →
      ((processVotes s (pre ++ m :: mid)).ProcessMessage m2.ext m2.ctx m2.nPeerVersion
          m2.vote).fRelayed = false ∧
      (processVotes s (pre ++ m :: mid ++ [m2])).mapMasternodeBlocksPrimary
        = (processVotes s (pre ++ m :: mid)).mapMasternodeBlocksPrimary ∧
      (processVotes s (pre ++ m :: mid ++ [m2])).mapMasternodesLastVote
        = (processVotes s (pre ++ m :: mid)).mapMasternodesLastVote) ∧
    (∀ msgs : List VoteMessage,
      mapFind (processVotes s msgs).mapMasternodesLastVote m2.vote.masternodeOutpoint
        = some m2.vote.nBlockHeight →
      ((processVotes s msgs).ProcessMessage m2.ext m2.ctx m2.nPeerVersion
          m2.vote).fRelayed = false ∧
      (processVotes s (msgs ++ [m2])).mapMasternodeBlocksPrimary
        = (processVotes s msgs).mapMasternodeBlocksPrimary ∧
      (processVotes s (msgs ++ [m2])).mapMasternodesLastVote
        = (processVotes s msgs).mapMasternodesLastVote) := by
  have hgen : ∀ msgs : List VoteMessage,
      mapFind (processVotes s msgs).mapMasternodesLastVote m2.vote.masternodeOutpoint
        = some m2.vote.nBlockHeight →
      ((processVotes s msgs).ProcessMessage m2.ext m2.ctx m2.nPeerVersion
          m2.vote).fRelayed = false ∧
      (processVotes s (msgs ++ [m2])).mapMasternodeBlocksPrimary
        = (processVotes s msgs).mapMasternodeBlocksPrimary ∧
      (processVotes s (msgs ++ [m2])).mapMasternodesLastVote
        = (processVotes s msgs).mapMasternodesLastVote := by
    intro msgs hlast
    have hdrop := ProcessMessage_same_height_dropped (processVotes s msgs) m2.ext m2.ctx
      m2.nPeerVersion m2.vote hlast
    rw [processVotes_append]
    exact ⟨hdrop.1, hdrop.2.1, hdrop.2.2⟩
  refine ⟨?_, hgen⟩
  intro pre m mid hvoter hheight hrecorded hmid
  have hafter : mapFind (processVotes s (pre ++ [m])).mapMasternodesLastVote
      m2.vote.masternodeOutpoint = some m2.vote.nBlockHeight := by
    rw [processVotes_append, ← hvoter, ← hheight]
    exact ProcessMessage_relayed_lastVote (processVotes s pre) m.ext m.ctx m.nPeerVersion
      m.vote hrecorded
  have hsplit : ∀ l : List VoteMessage, pre ++ m :: l = (pre ++ [m]) ++ l := by
    intro l
    simp
  have hkept : mapFind (processVotes s (pre ++ m :: mid)).mapMasternodesLastVote
      m2.vote.masternodeOutpoint = some m2.vote.nBlockHeight := by
    rw [hsplit, processVotes_append]
    apply processVotes_keeps_height _ _ mid _ hafter
    intro i hi hv hh
    have := hmid i hi hv hh
    rw [hsplit, processVotes_append] at this
    exact this
  have hlist : pre ++ m :: mid ++ [m2] = (pre ++ m :: mid) ++ [m2] := by simp
  rw [hlist]
  exact hgen _ hkept

/-- Example for C9: B votes for height 209, A votes for height 210 and is
recorded; then B votes for height 210 and is recorded, A votes for height 210
with another payee, and A votes for height 300, which is out of range; a
further vote of A for height 210 with a third payee is dropped, and the tally
of height 210 holds the first vote of A and the vote of B. -/
theorem C9_same_height_vote_dropped_in_sequence_witness :
    ((processVotes samplePayments [sampleMessage (sampleVoteB 209 [0, 2])]).ProcessMessage
        sampleExternal sampleContextAB 0 (sampleVote 210 [0, 1])).fRelayed = true ∧
    ((processVotes samplePayments [sampleMessage (sampleVoteB 209 [0, 2]),
        sampleMessage (sampleVote 210 [0, 1])]).ProcessMessage
        sampleExternal sampleContextAB 0 (sampleVoteB 210 [0, 2])).fRelayed = true ∧
    (processVotes samplePayments ([sampleMessage (sampleVoteB 209 [0, 2])]
        ++ sampleMessage (sampleVote 210 [0, 1])
        :: [sampleMessage (sampleVoteB 210 [0, 2]), sampleMessage (sampleVote 210 [0, 2]),
            sampleMessage (sampleVote 300 [0, 1])]
        ++ [sampleMessage (sampleVote 210 [0, 3])])).mapMasternodeBlocksPrimary
      = (processVotes samplePayments ([sampleMessage (sampleVoteB 209 [0, 2])]
        ++ sampleMessage (sampleVote 210 [0, 1])
        :: [sampleMessage (sampleVoteB 210 [0, 2]), sampleMessage (sampleVote 210 [0, 2]),
            sampleMessage (sampleVote 300 [0, 1])])).mapMasternodeBlocksPrimary ∧
    (processVotes samplePayments [sampleMessage (sampleVoteB 209 [0, 2]),
        sampleMessage (sampleVote 210 [0, 1]), sampleMessage (sampleVoteB 210 [0, 2]),
        sampleMessage (sampleVote 210 [0, 2]), sampleMessage (sampleVote 300 [0, 1]),
        sampleMessage (sampleVote 210 [0, 3])]).recordedVotes sampleMnA.outpoint 210
      = [(sampleVote 210 [0, 1]).GetHash] ∧
    (processVotes samplePayments [sampleMessage (sampleVoteB 209 [0, 2]),
        sampleMessage (sampleVote 210 [0, 1]), sampleMessage (sampleVoteB 210 [0, 2]),
        sampleMessage (sampleVote 210 [0, 2]), sampleMessage (sampleVote 300 [0, 1]),
        sampleMessage (sampleVote 210 [0, 3])]).recordedVotes sampleMnB.outpoint 210
      = [(sampleVoteB 210 [0, 2]).GetHash] :=
  ⟨by decide, by decide,
   ((C9_same_height_vote_dropped_in_sequence samplePayments
      (sampleMessage (sampleVote 210 [0, 3]))).1
      [sampleMessage (sampleVoteB 209 [0, 2])] (sampleMessage (sampleVote 210 [0, 1]))
      [sampleMessage (sampleVoteB 210 [0, 2]), sampleMessage (sampleVote 210 [0, 2]),
        sampleMessage (sampleVote 300 [0, 1])]
      rfl rfl (by decide) (by decide)).2.1,
   by decide, by decide⟩

/-! ### The range gate of vote ingestion -/

theorem addPayeeLoop_records (vecPayees : List CMasternodePayee)
    (vote : CMasternodePaymentVote) :
    ∃ payee ∈ addPayeeLoop vecPayees vote,
      payee.scriptPubKey = vote.payee ∧ vote.GetHash ∈ payee.vecVoteHashes := by
  induction vecPayees with
  | nil => exact ⟨_, List.mem_singleton.mpr rfl, rfl, List.mem_singleton.mpr rfl⟩
  | cons payee rest ih =>
    unfold addPayeeLoop
    by_cases h : payee.GetPayee = vote.payee
    · rw [if_pos h]
      exact ⟨_, List.mem_cons_self _ _, h, List.mem_append_right _ (List.mem_singleton.mpr rfl)⟩
    · rw [if_neg h]
      obtain ⟨p, hp, hs, hv⟩ := ih
      exact ⟨p, List.mem_cons_of_mem _ hp, hs, hv⟩

/-- A vote that `AddOrUpdatePaymentVote` accepts is in the tally of its height. -/
theorem AddOrUpdatePaymentVote_records (s : CMasternodePayments) (ext : External)
    (vote : CMasternodePaymentVote) (h : (s.AddOrUpdatePaymentVote ext vote).1 = true) :
    ∃ payees, mapFind (s.AddOrUpdatePaymentVote ext vote).2.mapMasternodeBlocksPrimary
        vote.nBlockHeight = some payees ∧
      ∃ payee ∈ payees.vecPayees,
        payee.scriptPubKey = vote.payee ∧ vote.GetHash ∈ payee.vecVoteHashes := by
  unfold CMasternodePayments.AddOrUpdatePaymentVote at h ⊢
  split at h
  · simp at h
  · rename_i hash hblock
    simp only [hblock] at h ⊢
    split at h
    · simp at h
    · rename_i hver
      simp only [hver]
      refine ⟨_, mapFind_mapAssign_self _ _ _, ?_⟩
      exact addPayeeLoop_records _ vote

/-- What the vote branch does with a vote that reaches the range test and is
within the range: the checks that follow the test decide. -/
theorem ProcessMessage_in_range (s : CMasternodePayments) (ext : External)
    (ctx : NodeContext) (nPeerVersion : Int) (vote : CMasternodePaymentVote)
    (hlite : ctx.fLiteMode = false)
    (hversion : GetMinMasternodePaymentsProto ctx ≤ nPeerVersion)
    (hsynced : ctx.fMasternodeListSynced = true)
    (hnew : ((mapFind s.mapMasternodePaymentVotesPrimary vote.GetHash).isSome &&
      ext.IsVerified ((mapFind s.mapMasternodePaymentVotesPrimary vote.GetHash).getD vote))
        = false)
    (hlow : s.nCachedBlockHeight - s.GetStorageLimit ext ctx ≤ vote.nBlockHeight)
    (hhigh : vote.nBlockHeight ≤ s.nCachedBlockHeight + 20)
    (s1 : CMasternodePayments)
    (hs1 : s1 = { s with
      mapMasternodePaymentVotesPrimary :=
        mapAssign s.mapMasternodePaymentVotesPrimary vote.GetHash
          (ext.MarkAsNotVerified
            ((mapFind s.mapMasternodePaymentVotesPrimary vote.GetHash).getD vote)) }) :
    s.ProcessMessage ext ctx nPeerVersion vote
      = if (vote.IsValid ext ctx s.nCachedBlockHeight).1 = false then
          { payments := s1, nMisbehaving := (vote.IsValid ext ctx s.nCachedBlockHeight).2,
            fRelayed := false }
        else
          match GetMasternodeInfo ctx.mapMasternodes vote.masternodeOutpoint with
          | none =>
            { payments := s1, nMisbehaving := (vote.IsValid ext ctx s.nCachedBlockHeight).2,
              fRelayed := false }
          | some mnInfo =>
            if (vote.CheckSignature ext ctx mnInfo.pubKeyMasternode
                s.nCachedBlockHeight).1 = false then
              { payments := s1,
                nMisbehaving := (vote.IsValid ext ctx s.nCachedBlockHeight).2
                  + (vote.CheckSignature ext ctx mnInfo.pubKeyMasternode
                      s.nCachedBlockHeight).2,
                fRelayed := false }
            else if (s1.UpdateLastVote vote).1 = false then
              { payments := (s1.UpdateLastVote vote).2,
                nMisbehaving := (vote.IsValid ext ctx s.nCachedBlockHeight).2,
                fRelayed := false }
            else
              { payments := ((s1.UpdateLastVote vote).2.AddOrUpdatePaymentVote ext vote).2,
                nMisbehaving := (vote.IsValid ext ctx s.nCachedBlockHeight).2,
                fRelayed := ((s1.UpdateLastVote vote).2.AddOrUpdatePaymentVote ext vote).1 } := by
  subst hs1
  have hgate : voteOutOfRange s.nCachedBlockHeight (s.GetStorageLimit ext ctx)
      vote.nBlockHeight = false := by
    simp only [voteOutOfRange, Bool.or_eq_false_iff, decide_eq_false_iff_not, not_lt, gt_iff_lt]
    exact ⟨hlow, hhigh⟩
  have hgate2 : ∀ votes : List (VoteHash × CMasternodePaymentVote),
      voteOutOfRange s.nCachedBlockHeight
        (CMasternodePayments.GetStorageLimit
          { s with mapMasternodePaymentVotesPrimary := votes } ext ctx)
        vote.nBlockHeight = false := fun votes => hgate
  have hver : ¬ nPeerVersion < GetMinMasternodePaymentsProto ctx := by omega
  unfold CMasternodePayments.ProcessMessage
  simp only [hlite, hsynced, hnew, hgate2, hver, Bool.false_eq_true, if_false, Bool.not_true,
    Bool.not_eq_true']

/-- C10: for the cached tip height `tip = nCachedBlockHeight` and the storage
limit `L = GetStorageLimit()` of the state that handles the vote, a vote for
the height `h` passes the range gate of the vote branch of `ProcessMessage`
exactly when `tip - L <= h <= tip + 20`.
A vote out of the range, in particular one for `tip - L - 1` or `tip + 21`, is
rejected at the gate: it is not relayed, no misbehaviour is scored, and the
per-height tallies and the last-vote map stay as they are; so a vote that is
relayed, or that changes the tallies or the last-vote map, is within the
range.
A vote within the range that reaches the gate (no lite mode, peer version at
or above the floor, masternode list synced, not seen verified before) passes
it: the outcome is the outcome of the checks that follow the gate (`IsValid`,
`GetMasternodeInfo`, `CheckSignature`, `UpdateLastVote`,
`AddOrUpdatePaymentVote`), run on the state `s1` in which the vote is stored
unverified. This holds in particular for `h = tip - L` and `h = tip + 20`,
which are within the range whenever the range is not empty (`L >= -20`, as
for every storage limit that is not negative). A vote that passes the gate and
that the checks after it accept is relayed and recorded in the tally of `h`. -/
theorem C10_vote_range_gate (s : CMasternodePayments) (ext : External) (ctx : NodeContext)
    (nPeerVersion : Int) (vote : CMasternodePaymentVote) :
    ((vote.nBlockHeight < s.nCachedBlockHeight - s.GetStorageLimit ext ctx ∨
        s.nCachedBlockHeight + 20 < vote.nBlockHeight ∨
        vote.nBlockHeight = s.nCachedBlockHeight - s.GetStorageLimit ext ctx - 1 ∨
        vote.nBlockHeight = s.nCachedBlockHeight + 21) →
      (s.ProcessMessage ext ctx nPeerVersion vote).fRelayed = false ∧
      (s.ProcessMessage ext ctx nPeerVersion vote).nMisbehaving = 0 ∧
      (s.ProcessMessage ext ctx nPeerVersion vote).payments.mapMasternodeBlocksPrimary
        = s.mapMasternodeBlocksPrimary ∧
      (s.ProcessMessage ext ctx nPeerVersion vote).payments.mapMasternodesLastVote
        = s.mapMasternodesLastVote) ∧
    (((s.ProcessMessage ext ctx nPeerVersion vote).fRelayed = true ∨
        (s.ProcessMessage ext ctx nPeerVersion vote).nMisbehaving ≠ 0 ∨
        (s.ProcessMessage ext ctx nPeerVersion vote).payments.mapMasternodeBlocksPrimary
          ≠ s.mapMasternodeBlocksPrimary ∨
        (s.ProcessMessage ext ctx nPeerVersion vote).payments.mapMasternodesLastVote
          ≠ s.mapMasternodesLastVote) →
      s.nCachedBlockHeight - s.GetStorageLimit ext ctx ≤ vote.nBlockHeight ∧
      vote.nBlockHeight ≤ s.nCachedBlockHeight + 20) ∧
    (ctx.fLiteMode = false →
      GetMinMasternodePaymentsProto ctx ≤ nPeerVersion →
      ctx.fMasternodeListSynced = true →
      ((mapFind s.mapMasternodePaymentVotesPrimary vote.GetHash).isSome &&
        ext.IsVerified ((mapFind s.mapMasternodePaymentVotesPrimary vote.GetHash).getD vote))
          = false →
      ((s.nCachedBlockHeight - s.GetStorageLimit ext ctx ≤ vote.nBlockHeight ∧
          vote.nBlockHeight ≤ s.nCachedBlockHeight + 20) ∨
        (-20 ≤ s.GetStorageLimit ext ctx ∧
          (vote.nBlockHeight = s.nCachedBlockHeight - s.GetStorageLimit ext ctx ∨
            vote.nBlockHeight = s.nCachedBlockHeight + 20))) →
      ∀ s1 : CMasternodePayments,
        s1 = { s with
          mapMasternodePaymentVotesPrimary :=
            mapAssign s.mapMasternodePaymentVotesPrimary vote.GetHash
              (ext.MarkAsNotVerified
                ((mapFind s.mapMasternodePaymentVotesPrimary vote.GetHash).getD vote)) } →
        (s.ProcessMessage ext ctx nPeerVersion vote
          = if (vote.IsValid ext ctx s.nCachedBlockHeight).1 = false then
              { payments := s1, nMisbehaving := (vote.IsValid ext ctx s.nCachedBlockHeight).2,
                fRelayed := false }
            else
              match GetMasternodeInfo ctx.mapMasternodes vote.masternodeOutpoint with
              | none =>
                { payments := s1,
                  nMisbehaving := (vote.IsValid ext ctx s.nCachedBlockHeight).2,
                  fRelayed := false }
              | some mnInfo =>
                if (vote.CheckSignature ext ctx mnInfo.pubKeyMasternode
                    s.nCachedBlockHeight).1 = false then
                  { payments := s1,
                    nMisbehaving := (vote.IsValid ext ctx s.nCachedBlockHeight).2
                      + (vote.CheckSignature ext ctx mnInfo.pubKeyMasternode
                          s.nCachedBlockHeight).2,
                    fRelayed := false }
                else if (s1.UpdateLastVote vote).1 = false then
                  { payments := (s1.UpdateLastVote vote).2,
                    nMisbehaving := (vote.IsValid ext ctx s.nCachedBlockHeight).2,
                    fRelayed := false }
                else
                  { payments :=
                      ((s1.UpdateLastVote vote).2.AddOrUpdatePaymentVote ext vote).2,
                    nMisbehaving := (vote.IsValid ext ctx s.nCachedBlockHeight).2,
                    fRelayed :=
                      ((s1.UpdateLastVote vote).2.AddOrUpdatePaymentVote ext vote).1 }) ∧
        (∀ mnInfo : CMasternode,
          (vote.IsValid ext ctx s.nCachedBlockHeight).1 = true →
          GetMasternodeInfo ctx.mapMasternodes vote.masternodeOutpoint = some mnInfo →
          (vote.CheckSignature ext ctx mnInfo.pubKeyMasternode s.nCachedBlockHeight).1 = true →
          (s1.UpdateLastVote vote).1 = true →
          ((s1.UpdateLastVote vote).2.AddOrUpdatePaymentVote ext vote).1 = true →
          (s.ProcessMessage ext ctx nPeerVersion vote).fRelayed = true ∧
          ∃ payees,
            mapFind (s.ProcessMessage ext ctx nPeerVersion vote).payments.mapMasternodeBlocksPrimary
              vote.nBlockHeight = some payees ∧
            ∃ payee ∈ payees.vecPayees,
              payee.scriptPubKey = vote.payee ∧ vote.GetHash ∈ payee.vecVoteHashes)) := by
  have hreject : (vote.nBlockHeight < s.nCachedBlockHeight - s.GetStorageLimit ext ctx ∨
        s.nCachedBlockHeight + 20 < vote.nBlockHeight) →
      (s.ProcessMessage ext ctx nPeerVersion vote).fRelayed = false ∧
      (s.ProcessMessage ext ctx nPeerVersion vote).nMisbehaving = 0 ∧
      (s.ProcessMessage ext ctx nPeerVersion vote).payments.mapMasternodeBlocksPrimary
        = s.mapMasternodeBlocksPrimary ∧
      (s.ProcessMessage ext ctx nPeerVersion vote).payments.mapMasternodesLastVote
        = s.mapMasternodesLastVote := by
    intro hout
    have hgate : ∀ votes : List (VoteHash × CMasternodePaymentVote),
        voteOutOfRange s.nCachedBlockHeight
          (CMasternodePayments.GetStorageLimit
            { s with mapMasternodePaymentVotesPrimary := votes } ext ctx)
          vote.nBlockHeight = true := by
      intro votes
      have hsame : CMasternodePayments.GetStorageLimit
          { s with mapMasternodePaymentVotesPrimary := votes } ext ctx
          = s.GetStorageLimit ext ctx := rfl
      rw [hsame]
      simp only [voteOutOfRange, Bool.or_eq_true, decide_eq_true_eq, gt_iff_lt]
      exact hout
    unfold CMasternodePayments.ProcessMessage
    simp only [hgate, if_true]
    repeat' split
    all_goals exact ⟨rfl, rfl, rfl, rfl⟩
  refine ⟨?_, ?_, ?_⟩
  · intro hout
    apply hreject
    omega
  · intro hchanged
    by_contra hnot
    have hout : vote.nBlockHeight < s.nCachedBlockHeight - s.GetStorageLimit ext ctx ∨
        s.nCachedBlockHeight + 20 < vote.nBlockHeight := by omega
    obtain ⟨h1, h2, h3, h4⟩ := hreject hout
    rcases hchanged with h | h | h | h
    · rw [h1] at h
      cases h
    · exact h h2
    · exact h h3
    · exact h h4
  · intro hlite hversion hsynced hnew hrange s1 hs1
    have hin : s.nCachedBlockHeight - s.GetStorageLimit ext ctx ≤ vote.nBlockHeight ∧
        vote.nBlockHeight ≤ s.nCachedBlockHeight + 20 := by omega
    have heq := ProcessMessage_in_range s ext ctx nPeerVersion vote hlite hversion hsynced hnew
      hin.1 hin.2 s1 hs1
    refine ⟨heq, ?_⟩
    intro mnInfo hvalid hinfo hsig hlast hadded
    rw [heq]
    simp only [hvalid, hinfo, hsig, hlast, Bool.true_eq_false, if_false]
    exact ⟨hadded, AddOrUpdatePaymentVote_records _ ext vote hadded⟩

/-- Example for C10: tip 200 and storage limit 50; the votes for the heights
150 and 220 pass the gate and the checks after it, and are relayed and
recorded in the tallies of their heights; the votes for 149 and 221 are
rejected and leave the tallies empty. -/
theorem C10_vote_range_gate_witness :
    samplePayments.nCachedBlockHeight = 200 ∧
    samplePayments.GetStorageLimit sampleExternal sampleContext = 50 ∧
    (samplePayments.ProcessMessage sampleExternal sampleContext 0
      (sampleVote 150 [0, 1])).fRelayed = true ∧
    (samplePayments.ProcessMessage sampleExternal sampleContext 0
      (sampleVote 220 [0, 1])).fRelayed = true ∧
    (samplePayments.ProcessMessage sampleExternal sampleContext 0
      (sampleVote 149 [0, 1])).payments.mapMasternodeBlocksPrimary = [] ∧
    (samplePayments.ProcessMessage sampleExternal sampleContext 0
      (sampleVote 221 [0, 1])).payments.mapMasternodeBlocksPrimary = [] :=
  ⟨rfl, by decide,
   (((C10_vote_range_gate samplePayments sampleExternal sampleContext 0
      (sampleVote 150 [0, 1])).2.2 (by decide) (by decide) (by decide) (by decide)
      (Or.inr ⟨by decide, Or.inl (by decide)⟩) _ rfl).2 sampleMnA
      (by decide) (by decide) (by decide) (by decide) (by decide)).1,
   (((C10_vote_range_gate samplePayments sampleExternal sampleContext 0
      (sampleVote 220 [0, 1])).2.2 (by decide) (by decide) (by decide) (by decide)
      (Or.inr ⟨by decide, Or.inr (by decide)⟩) _ rfl).2 sampleMnA
      (by decide) (by decide) (by decide) (by decide) (by decide)).1,
   ((C10_vote_range_gate samplePayments sampleExternal sampleContext 0
      (sampleVote 149 [0, 1])).1 (Or.inr (Or.inr (Or.inl (by decide))))).2.2.1,
   ((C10_vote_range_gate samplePayments sampleExternal sampleContext 0
      (sampleVote 221 [0, 1])).1 (Or.inr (Or.inr (Or.inr (by decide))))).2.2.1⟩

/-! ### Undefined behaviour reached from stored votes -/

/-- C5, evaluated on the code: the tally of height 110 holds one payee, the
script `[0, 1]` of masternode A, with six votes. While A is in the registry
`GetBlockPayees` reports success with that payee. After the collateral of A
was spent, `CMasternodeMan::CheckAndRemove` erases A from the registry; the
payee list for height 110 is still not empty, but the map built from the
registry has no entry for the payee, so the lookup
`nodeMap.find(strAddress)->second` of `GetBestPayee` dereferences `end()`:
the call is undefined and reports nothing. -/
theorem C5_payee_lookup_undefined_after_removal :
    (mapFind sampleTallyPayments.mapMasternodeBlocksPrimary 110).map
        (fun payees => payees.vecPayees.map fun payee => payee.scriptPubKey) = some [[0, 1]] ∧
    sampleTallyPayments.GetBlockPayees sampleExternal [sampleSpentA, sampleMnB] 110 [] 0
      = some (true, [0, 1], 50) ∧
    (CMasternodeMan.CheckAndRemove { mapMasternodes := [sampleSpentA, sampleMnB] }
        sampleExternal {}).mapMasternodes = [sampleMnB] ∧
    mapFind (buildNodeMap sampleExternal [sampleMnB] []) (sampleExternal.EncodeDestination [0, 1])
      = none ∧
    sampleTallyPayments.GetBlockPayees sampleExternal
      (CMasternodeMan.CheckAndRemove { mapMasternodes := [sampleSpentA, sampleMnB] }
        sampleExternal {}).mapMasternodes 110 [] 0 = none := by
  decide

/-- C17, evaluated on the code: a vote for the height `-2147483648`, the least
`int`, is received at tip 200. `ProcessMessage` stores it before the range
test and then drops it as out of range, so the vote stays in the store. The
storage limit is 50 and the vote is far beyond it, but in `CheckAndRemove` the
subtraction `nCachedBlockHeight - vote.nBlockHeight` leaves the range of
`int`: the call is undefined and the vote is not evicted. A vote for height
100, stored in the same way, is evicted. -/
theorem C17_vote_at_least_int_height_not_evicted :
    (samplePayments.ProcessMessage sampleExternal sampleContext 0
        (sampleVote (-2147483648) [0, 1])).fRelayed = false ∧
    (samplePayments.ProcessMessage sampleExternal sampleContext 0
        (sampleVote (-2147483648) [0, 1])).payments.mapMasternodePaymentVotesPrimary.map
          (fun e => e.2.nBlockHeight) = [-2147483648] ∧
    (samplePayments.ProcessMessage sampleExternal sampleContext 0
        (sampleVote (-2147483648) [0, 1])).payments.nCachedBlockHeight = 200 ∧
    (samplePayments.ProcessMessage sampleExternal sampleContext 0
        (sampleVote (-2147483648) [0, 1])).payments.GetStorageLimit sampleExternal sampleContext
      = 50 ∧
    sampleContext.fBlockchainSynced = true ∧
    (samplePayments.ProcessMessage sampleExternal sampleContext 0
        (sampleVote (-2147483648) [0, 1])).payments.CheckAndRemove sampleExternal sampleContext
      = none ∧
    (samplePayments.ProcessMessage sampleExternal sampleContext 0
        (sampleVote 100 [0, 1])).payments.mapMasternodePaymentVotesPrimary.map
          (fun e => e.2.nBlockHeight) = [100] ∧
    ((samplePayments.ProcessMessage sampleExternal sampleContext 0
        (sampleVote 100 [0, 1])).payments.CheckAndRemove sampleExternal sampleContext).map
          (fun after => after.mapMasternodePaymentVotesPrimary) = some [] := by
  decide

end Masternode
